import Mathlib

/-!
# Alert threader: group keys, thread store and thread router

A shallow embedding of two programs of the repository,

* `alert-threader/go-advanced/main.go` (namespace `GoAdvanced`), and
* `alert-threader/go-advanced-redis/main.go` (namespace `GoAdvancedRedis`),

followed by theorems about them.

Modelling conventions.

* A Go `map[string]string` is a `GoMap`: either the nil map or an allocated map,
  given by an association list in which the first binding of a key counts.
  Reading a nil map yields the zero value, assigning into it is a runtime panic.
* Process globals that are fixed once the process serves requests
  (`environment`, `threadStore`, `redisKeyPrefix`, whether `redisClient` is non-nil)
  are collected in a `Config`.
* Everything mutable is a field of `World`: the cache, the remote key-value
  store, the two files of the file backend, a clock counting the calls made
  to the outside (HTTP, redis, file system) and a trace of these calls.
* The outside is an `Env`: what the call issued at clock `n` meets.
  Quantifying over every `Env` is quantifying over every behaviour of the
  chat service, of the remote store and of the file system.
* A Go result `(string, error)` is a pair `String × Option String`, the
  second component being the error message.
* A runtime panic is the answer `none` where the Go function would not return.
* Message rendering (`text`, `buildAlertBlocks`, `buildAlertAttachments`) is pure,
  total, and only feeds the request payload; it does not appear in the
  model, the request is represented by its `thread_ts` argument.
-/

namespace AlertThreader

/-! ## Go maps -/

/-- A Go `map[string]string`. -/
inductive GoMap where
  | nilMap
  | alloc (entries : List (String × String))
deriving DecidableEq, Repr

/-- The index expression `m[k]`: the zero value `""` when `k` is absent,
also on the nil map. -/
def GoMap.index : GoMap → String → String
  | .nilMap, _ => ""
  | .alloc entries, k =>
    match entries.lookup k with
    | some v => v
    | none => ""

/-- Replace the first binding of `k`, or add one at the end. -/
def putEntry : List (String × String) → String → String → List (String × String)
  | [], k, v => [(k, v)]
  | (k', v') :: rest, k, v =>
    if k' = k then (k, v) :: rest else (k', v') :: putEntry rest k v

/-- The assignment `m[k] = v`; `none` is the runtime panic
"assignment to entry in nil map". -/
def GoMap.assign : GoMap → String → String → Option GoMap
  | .nilMap, _, _ => none
  | .alloc entries, k, v => some (.alloc (putEntry entries k v))

/-- Whether the map value is not nil. -/
def GoMap.allocated : GoMap → Bool
  | .nilMap => false
  | .alloc _ => true

/-- The bindings that count: the first one of every key. -/
def effectiveEntries : List (String × String) → List (String × String)
  | [] => []
  | (k, v) :: rest => (k, v) :: (effectiveEntries rest).filter (fun p => p.1 ≠ k)

/-- The builtin `len(m)`. -/
def GoMap.len : GoMap → Nat
  | .nilMap => 0
  | .alloc entries => (effectiveEntries entries).length

/-- `make(map[string]string)`. -/
def GoMap.make : GoMap := .alloc []

/-! ## Files and the outside world -/

/-- A member value of a JSON object, as far as decoding into a string cares. -/
inductive JsonValue where
  | str (s : String)
  | null
  | other
deriving DecidableEq, Repr

/-- The content of a file, as far as `encoding/json` cares. -/
inductive FileData where
  | notJson
  | jsonNull
  | jsonObject (members : List (String × JsonValue))
  | jsonOther
deriving DecidableEq, Repr

/-- Bytewise order of two strings, on their code points (the order of Go's
string comparison on UTF-8). -/
def charsLe : List Char → List Char → Bool
  | [], _ => true
  | _ :: _, [] => false
  | a :: as, b :: bs => a.toNat < b.toNat || (a.toNat == b.toNat && charsLe as bs)

/-- Insert a binding into a list sorted by key. -/
def insertByKey (p : String × String) : List (String × String) → List (String × String)
  | [] => [p]
  | q :: rest =>
    if charsLe p.1.toList q.1.toList then p :: q :: rest else q :: insertByKey p rest

/-- The bindings sorted by key, the order in which `encoding/json` writes a map. -/
def sortByKey : List (String × String) → List (String × String)
  | [] => []
  | p :: rest => insertByKey p (sortByKey rest)

/-- What `json.Marshal` / `json.MarshalIndent` writes for a `map[string]string`:
`null` for the nil map, otherwise one object with the keys in sorted order.
Marshalling such a map does not fail. -/
def marshalMap : GoMap → FileData
  | .nilMap => .jsonNull
  | .alloc entries =>
    .jsonObject ((sortByKey (effectiveEntries entries)).map (fun p => (p.1, JsonValue.str p.2)))

/-- What became of the body of an HTTP response of the chat service. -/
inductive Decoded where
  | readError (msg : String)
  | parseError (msg : String)
  | slackResp (ok : Bool) (ts : String) (error : String)
deriving DecidableEq, Repr

/-- What a `chat.postMessage` request meets. -/
inductive HttpOutcome where
  | transportError (msg : String)
  | response (statusCode : Nat) (raw : String) (decoded : Decoded)
deriving DecidableEq, Repr

/-- The outside: what the call issued at clock `n` meets. For the redis
commands and the file-system calls this is the error of the call, `none` when
the call goes through. -/
structure Env where
  http : Nat → HttpOutcome
  redisGet : Nat → Option String
  redisSet : Nat → Option String
  writeFile : Nat → Option String
  rename : Nat → Option String
  readFile : Nat → Option String
  removeFile : Nat → Option String
  redisKeys : Nat → Option String
  redisDel : Nat → Option String

/-- The calls a run makes, in order: a dispatch (with its thread identifier
argument and whether it returned an error), a call of the store's set
function, a remote lookup (with whether it returned an error other than
"no such key"), a remote write (with its expiration argument, `0` standing
for no expiration), a write of the temporary file, a rename, a
read of the snapshot file, a removal of the snapshot file, a listing of the
remote keys that match a pattern, a deletion of remote keys (the last three
with whether they returned an error). -/
inductive Event where
  | slackPost (threadTs : String) (failed : Bool)
  | storeSet (key ts : String)
  | redisGet (rkey : String) (failed : Bool)
  | redisSet (rkey value : String) (expiration : Nat)
  | fileWrite
  | fileRename
  | fileRead
  | fileRemove (failed : Bool)
  | redisKeys (pattern : String) (failed : Bool)
  | redisDel (rkeys : List String) (failed : Bool)
deriving DecidableEq, Repr

/-- The thread identifiers of the dispatch calls of a trace, in order. -/
def dispatches : List Event → List String
  | [] => []
  | .slackPost t _ :: rest => t :: dispatches rest
  | _ :: rest => dispatches rest

/-- The number of dispatch calls of a trace that returned an error
(`failed = true`) or a thread identifier (`failed = false`). -/
def countPosts (failed : Bool) : List Event → Nat
  | [] => 0
  | .slackPost _ f :: rest => (if f = failed then 1 else 0) + countPosts failed rest
  | _ :: rest => countPosts failed rest

/-- The number of remote lookups of a trace that returned an error. -/
def countFailedGets : List Event → Nat
  | [] => 0
  | .redisGet _ f :: rest => (if f = true then 1 else 0) + countFailedGets rest
  | _ :: rest => countFailedGets rest

/-- The arguments of the store-set calls of a trace, in order. -/
def storeSets : List Event → List (String × String)
  | [] => []
  | .storeSet k t :: rest => (k, t) :: storeSets rest
  | _ :: rest => storeSets rest

/-- Whether a string holds the key delimiter. -/
def hasBar (s : String) : Bool := s.toList.contains '|'

/-! ## `go-advanced/main.go` -/

namespace GoAdvanced

/-- The process globals read by the functions below. `redisClient` tells
whether the client pointer is non-nil. -/
structure Config where
  environment : String
  threadStore : String
  redisKeyPrefix : String
  redisClient : Bool
deriving DecidableEq, Repr

/-- The mutable state: the globals `threadCache`, the remote store, the file at
`threadStoreFile` and the one at `threadStoreFile + ".tmp"` (`none`: no such
file), and the clock and trace of the calls made so far. -/
structure World where
  threadCache : GoMap
  remote : List (String × String)
  storeFile : Option FileData
  tmpFile : Option FileData
  clock : Nat
  trace : List Event
deriving DecidableEq, Repr

/-- The struct `Alert`. -/
structure Alert where
  Labels : GoMap
  Annotations : GoMap
  StartsAt : String
  EndsAt : String
deriving DecidableEq, Repr

/-- The struct `AlertWebhook`. -/
structure AlertWebhook where
  Status : String
  GroupKey : String
  Alerts : List Alert
deriving DecidableEq, Repr

/-- The struct `AlertResult`. -/
structure AlertResult where
  Key : String
  ThreadTS : String
  Status : String
  Alertname : String
  Severity : String
  Error : String
deriving DecidableEq, Repr

/-- The struct `APIResponse`. -/
structure APIResponse where
  OK : Bool
  Count : Nat
  Status : String
  Results : List AlertResult
  Error : String
deriving DecidableEq, Repr

/-- What the alert handler answers: the JSON response, the 400 of an
undecodable body, or nothing because the handler panicked. -/
inductive Reply where
  | ok (response : APIResponse)
  | badRequest
  | panicked
deriving DecidableEq, Repr

/-- The function `threadKey` (lines 89-107). -/
def threadKey (cfg : Config) (labels : GoMap) : String :=
  let name := labels.index "alertname"
  let name := if name = "" then "unknown" else name
  let severity := labels.index "severity"
  let severity := if severity = "" then "info" else severity
  let service := labels.index "service"
  let service := if service = "" then "unknown" else service
  let cluster := labels.index "cluster"
  let cluster := if cluster = "" then "default" else cluster
  name ++ "|" ++ severity ++ "|" ++ service ++ "|" ++ cluster ++ "|" ++ cfg.environment

/-- The function `saveCacheFile` (lines 150-175): nothing unless the file
backend is configured; otherwise the whole cache is marshalled, written to the
temporary path and renamed over the canonical path. A failed write leaves at
most a truncated temporary file. -/
def saveCacheFile (env : Env) (cfg : Config) (w : World) : World :=
  if cfg.threadStore ≠ "file" then w
  else
    let data := marshalMap w.threadCache
    match env.writeFile w.clock with
    | some _ =>
      { w with tmpFile := some FileData.notJson, clock := w.clock + 1,
               trace := w.trace ++ [Event.fileWrite] }
    | none =>
      match env.rename (w.clock + 1) with
      | some _ =>
        { w with tmpFile := some data, clock := w.clock + 2,
                 trace := w.trace ++ [Event.fileWrite, Event.fileRename] }
      | none =>
        { w with storeFile := some data, tmpFile := none, clock := w.clock + 2,
                 trace := w.trace ++ [Event.fileWrite, Event.fileRename] }

/-- One call to the outside: the clock advances and the call is recorded. -/
def World.tick (w : World) (e : Event) : World :=
  { w with clock := w.clock + 1, trace := w.trace ++ [e] }

/-- The function `storeGetTs` (lines 198-225). The answer is `none` when the
write-back into a nil cache panics. -/
def storeGetTs (env : Env) (cfg : Config) (key : String) (w : World) :
    World × Option (String × Option String) :=
  let ts := w.threadCache.index key
  if ts ≠ "" then (w, some (ts, none))
  else if cfg.threadStore = "redis" ∧ cfg.redisClient = true then
    let rkey := cfg.redisKeyPrefix ++ ":" ++ key
    match env.redisGet w.clock with
    | some e => (w.tick (Event.redisGet rkey true), some ("", some ("Redis 조회 실패: " ++ e)))
    | none =>
      let w1 := w.tick (Event.redisGet rkey false)
      match w.remote.lookup rkey with
      | none => (w1, some ("", none))
      | some ts =>
        if ts ≠ "" then
          match w1.threadCache.assign key ts with
          | none => (w1, none)
          | some cache => ({ w1 with threadCache := cache }, some (ts, none))
        else (w1, some (ts, none))
  else (w, some ("", none))

/-- The function `storeSetTs` (lines 227-242). The answer is `none` when the
assignment into a nil cache panics, otherwise the returned error. -/
def storeSetTs (env : Env) (cfg : Config) (key ts : String) (w : World) :
    World × Option (Option String) :=
  let w0 := { w with trace := w.trace ++ [Event.storeSet key ts] }
  match w0.threadCache.assign key ts with
  | none => (w0, none)
  | some cache =>
    let w1 := { w0 with threadCache := cache }
    if cfg.threadStore = "redis" ∧ cfg.redisClient = true then
      let rkey := cfg.redisKeyPrefix ++ ":" ++ key
      let w2 := w1.tick (Event.redisSet rkey ts 0)
      match env.redisSet w1.clock with
      | some e => (w2, some (some ("Redis 저장 실패: " ++ e)))
      | none => ({ w2 with remote := putEntry w2.remote rkey ts }, some none)
    else (saveCacheFile env cfg w1, some none)

/-- The function `slackPostMessage` (lines 473-531), the notification
dispatcher. Marshalling the payload and building the request do not fail;
the status code of the response is not looked at. -/
def slackPostMessage (env : Env) (threadTs : String) (w : World) :
    World × String × Option String :=
  let failed := w.tick (Event.slackPost threadTs true)
  match env.http w.clock with
  | .transportError e => (failed, "", some ("HTTP 요청 실패: " ++ e))
  | .response _ _ (.readError e) => (failed, "", some ("응답 읽기 실패: " ++ e))
  | .response _ _ (.parseError e) => (failed, "", some ("응답 파싱 실패: " ++ e))
  | .response _ _ (.slackResp ok ts error) =>
    if ok = false then (failed, "", some ("Slack API 오류: " ++ error))
    else (w.tick (Event.slackPost threadTs false), ts, none)

/-- A result that only carries the key and the error. -/
def errorResult (key err : String) : AlertResult :=
  { Key := key, ThreadTS := "", Status := "", Alertname := "", Severity := "", Error := err }

/-- The result appended for an alert that was dispatched. -/
def successResult (cfg : Config) (status : String) (alert : Alert) (ts : String) :
    AlertResult :=
  { Key := threadKey cfg alert.Labels, ThreadTS := ts, Status := status,
    Alertname := if alert.Labels.index "alertname" = "" then "Unknown"
                 else alert.Labels.index "alertname",
    Severity := if alert.Labels.index "severity" = "" then "info"
                else alert.Labels.index "severity",
    Error := "" }

/-- The body of the loop of `alertHandler` (lines 603-686) for one alert:
the new state and the result appended, or `none` when it panics. -/
def handleAlert (env : Env) (cfg : Config) (status : String) (alert : Alert) (w : World) :
    World × Option AlertResult :=
  let key := threadKey cfg alert.Labels
  match storeGetTs env cfg key w with
  | (w1, none) => (w1, none)
  | (w1, some (_, some err)) => (w1, some (errorResult key err))
  | (w1, some (threadTs, none)) =>
    let alertname := alert.Labels.index "alertname"
    let alertname := if alertname = "" then "Unknown" else alertname
    let severity := alert.Labels.index "severity"
    let severity := if severity = "" then "info" else severity
    if threadTs = "" then
      match slackPostMessage env "" w1 with
      | (w2, _, some err) => (w2, some (errorResult key err))
      | (w2, ts, none) =>
        match storeSetTs env cfg key ts w2 with
        | (w3, none) => (w3, none)
        | (w3, some _) =>
          (w3, some { Key := key, ThreadTS := ts, Status := status,
                      Alertname := alertname, Severity := severity, Error := "" })
    else
      match slackPostMessage env threadTs w1 with
      | (w2, _, some err) => (w2, some (errorResult key err))
      | (w2, _, none) =>
        (w2, some { Key := key, ThreadTS := threadTs, Status := status,
                    Alertname := alertname, Severity := severity, Error := "" })

/-- The loop of `alertHandler` over the alerts of the batch, `results` being
the slice built so far. -/
def handleAlerts (env : Env) (cfg : Config) (status : String) :
    List Alert → World → List AlertResult → World × Option (List AlertResult)
  | [], w, results => (w, some results)
  | alert :: rest, w, results =>
    match handleAlert env cfg status alert w with
    | (w1, none) => (w1, none)
    | (w1, some r) => handleAlerts env cfg status rest w1 (results ++ [r])

/-- The function `alertHandler` (lines 592-697). The request body is given
decoded, `none` standing for a body that does not decode. -/
def alertHandler (env : Env) (cfg : Config) (body : Option AlertWebhook) (w : World) :
    World × Reply :=
  match body with
  | none => (w, .badRequest)
  | some webhook =>
    match handleAlerts env cfg webhook.Status webhook.Alerts w [] with
    | (w1, none) => (w1, .panicked)
    | (w1, some results) =>
      (w1, .ok { OK := true, Count := results.length, Status := webhook.Status,
                 Results := results, Error := "" })

/-- A sequence of requests served one after another. -/
def serve (env : Env) (cfg : Config) : List (Option AlertWebhook) → World → World
  | [], w => w
  | body :: rest, w => serve env cfg rest (alertHandler env cfg body w).1

end GoAdvanced

/-! ## `go-advanced-redis/main.go` -/

namespace GoAdvancedRedis

/-- The process globals read by the functions below. `rdb` tells whether the
client pointer is non-nil. -/
structure Config where
  envName : String
  storeKind : String
  redisPref : String
  rdb : Bool
deriving DecidableEq, Repr

/-- The mutable state: the global `mem`, the remote store, the file at
`storeFile` and the one at `storeFile + ".tmp"` (`none`: no such file), and
the clock and trace of the calls made so far. -/
structure World where
  mem : GoMap
  remote : List (String × String)
  storeFile : Option FileData
  tmpFile : Option FileData
  clock : Nat
  trace : List Event
deriving DecidableEq, Repr

/-- An element of `alertReq.Alerts`. -/
structure Alert where
  Labels : GoMap
  Annotations : GoMap
  StartsAt : String
  EndsAt : Option String
deriving DecidableEq, Repr

/-- The struct `alertReq`. -/
structure alertReq where
  Status : String
  Alerts : List Alert
deriving DecidableEq, Repr

/-- What the alert handler answers: the fixed JSON body, the 400 of an
undecodable body, or nothing because the handler panicked. -/
inductive Reply where
  | ok
  | badRequest
  | panicked
deriving DecidableEq, Repr

/-- One call to the outside: the clock advances and the call is recorded. -/
def World.tick (w : World) (e : Event) : World :=
  { w with clock := w.clock + 1, trace := w.trace ++ [e] }

/-- The function `saveFile` (lines 55-66); `mustJSON` of a string map does
not fail. A failed write leaves at most a truncated temporary file. -/
def saveFile (env : Env) (cfg : Config) (w : World) : World :=
  if cfg.storeKind ≠ "file" then w
  else
    let data := marshalMap w.mem
    match env.writeFile w.clock with
    | some _ =>
      { w with tmpFile := some FileData.notJson, clock := w.clock + 1,
               trace := w.trace ++ [Event.fileWrite] }
    | none =>
      match env.rename (w.clock + 1) with
      | some _ =>
        { w with tmpFile := some data, clock := w.clock + 2,
                 trace := w.trace ++ [Event.fileWrite, Event.fileRename] }
      | none =>
        { w with storeFile := some data, tmpFile := none, clock := w.clock + 2,
                 trace := w.trace ++ [Event.fileWrite, Event.fileRename] }

/-- The function `threadKey` (lines 73-80). -/
def threadKey (cfg : Config) (lbl : GoMap) : String :=
  let name := lbl.index "alertname"
  let name := if name = "" then "unknown" else name
  let sev := lbl.index "severity"
  let sev := if sev = "" then "info" else sev
  name ++ "|" ++ sev ++ "|" ++ cfg.envName

/-- The function `slackPost` (lines 117-143). -/
def slackPost (env : Env) (threadTS : String) (w : World) : World × String × Option String :=
  let failed := w.tick (Event.slackPost threadTS true)
  match env.http w.clock with
  | .transportError e => (failed, "", some ("failed to send slack request: " ++ e))
  | .response statusCode raw decoded =>
    if statusCode ≠ 200 then
      (failed, "",
        some ("slack API returned non-OK status " ++ toString statusCode ++ ": " ++ raw))
    else
      match decoded with
      | .readError e => (failed, "", some ("failed to decode slack response: " ++ e))
      | .parseError e => (failed, "", some ("failed to decode slack response: " ++ e))
      | .slackResp ok ts error =>
        if ok = false then (failed, "", some ("slack: " ++ error))
        else (w.tick (Event.slackPost threadTS false), ts, none)

/-- The function `storeGet` (lines 145-162): a failed remote lookup is logged
and answered as absent. The answer is `none` when the write-back into a nil
cache panics. -/
def storeGet (env : Env) (cfg : Config) (key : String) (w : World) :
    World × Option (String × Option String) :=
  let ts := w.mem.index key
  if ts ≠ "" then (w, some (ts, none))
  else if cfg.storeKind = "redis" ∧ cfg.rdb = true then
    let rkey := cfg.redisPref ++ ":" ++ key
    match env.redisGet w.clock with
    | some _ => (w.tick (Event.redisGet rkey true), some ("", none))
    | none =>
      let w1 := w.tick (Event.redisGet rkey false)
      match w.remote.lookup rkey with
      | none => (w1, some ("", none))
      | some v =>
        if v ≠ "" then
          match w1.mem.assign key v with
          | none => (w1, none)
          | some cache => ({ w1 with mem := cache }, some (v, none))
        else (w1, some ("", none))
  else (w, some ("", none))

/-- The function `storeSet` (lines 163-177). The answer is `none` when the
assignment into a nil cache panics, otherwise the returned error. -/
def storeSet (env : Env) (cfg : Config) (key ts : String) (w : World) :
    World × Option (Option String) :=
  let w0 := { w with trace := w.trace ++ [Event.storeSet key ts] }
  match w0.mem.assign key ts with
  | none => (w0, none)
  | some cache =>
    let w1 := { w0 with mem := cache }
    if cfg.storeKind = "redis" ∧ cfg.rdb = true then
      let rkey := cfg.redisPref ++ ":" ++ key
      let w2 := w1.tick (Event.redisSet rkey ts 0)
      match env.redisSet w1.clock with
      | some e => (w2, some (some e))
      | none => ({ w2 with remote := putEntry w2.remote rkey ts }, some none)
    else (saveFile env cfg w1, some none)

/-- The body of the loop of `alertHandler` (lines 194-224) for one alert:
the new state, and whether the iteration ran to its end (`false`: it panicked). -/
def handleAlert (env : Env) (cfg : Config) (a : Alert) (w : World) : World × Bool :=
  let key := threadKey cfg a.Labels
  match storeGet env cfg key w with
  | (w1, none) => (w1, false)
  | (w1, some (ts, _)) =>
    let posted : World × String × Option String :=
      if ts = "" then slackPost env "" w1
      else
        match slackPost env ts w1 with
        | (w2, _, err) => (w2, ts, err)
    match posted with
    | (w2, _, some _) => (w2, true)
    | (w2, ts, none) =>
      match storeSet env cfg key ts w2 with
      | (w3, none) => (w3, false)
      | (w3, some _) => (w3, true)

/-- The loop of `alertHandler` over the alerts of the request. -/
def handleAlerts (env : Env) (cfg : Config) : List Alert → World → World × Bool
  | [], w => (w, true)
  | a :: rest, w =>
    match handleAlert env cfg a w with
    | (w1, false) => (w1, false)
    | (w1, true) => handleAlerts env cfg rest w1

/-- The function `alertHandler` (lines 189-227). The request body is given
decoded, `none` standing for a body that does not decode. -/
def alertHandler (env : Env) (cfg : Config) (body : Option alertReq) (w : World) :
    World × Reply :=
  match body with
  | none => (w, .badRequest)
  | some req =>
    match handleAlerts env cfg req.Alerts w with
    | (w1, false) => (w1, .panicked)
    | (w1, true) => (w1, .ok)

end GoAdvancedRedis

/-! ## Loading, clearing and the steps of a save -/

/-- The members of a JSON object decoded into the bindings of a
`map[string]string`, in document order: a string is stored, `null` stores the
zero value, and any other value stores the zero value and makes `Unmarshal`
return a type error after it has gone through the whole object. The second
component tells whether there was such an error. -/
def unmarshalMembers :
    List (String × JsonValue) → List (String × String) → List (String × String) × Bool
  | [], acc => (acc, false)
  | (k, .str v) :: rest, acc => unmarshalMembers rest (putEntry acc k v)
  | (k, .null) :: rest, acc => unmarshalMembers rest (putEntry acc k "")
  | (k, .other) :: rest, acc => ((unmarshalMembers rest (putEntry acc k "")).1, true)

/-- The call `json.Unmarshal(data, &m)` on a `map[string]string`: the new value
of `m` and whether an error is returned. Bytes that are not JSON and a JSON
value that is no object and not `null` leave `m` alone and return an error;
`null` sets `m` to the nil map; an object is decoded into `m` (allocated first
when nil), on top of what `m` holds. -/
def unmarshalMap (data : FileData) (m : GoMap) : GoMap × Bool :=
  match data with
  | .notJson => (m, true)
  | .jsonOther => (m, true)
  | .jsonNull => (.nilMap, false)
  | .jsonObject members =>
    let start := match m with
      | .nilMap => []
      | .alloc entries => entries
    (.alloc (unmarshalMembers members start).1, (unmarshalMembers members start).2)

/-- Whether a remote key matches the pattern `pref ++ ":*"`, for a `pref`
without pattern characters: the key starts with `pref ++ ":"`. -/
def keyUnder (pref rkey : String) : Bool :=
  (pref ++ ":").toList.isPrefixOf rkey.toList

namespace GoAdvanced

/-- Which branch of `loadCacheFile` was taken: another backend is configured,
the file does not exist, reading it failed, parsing it failed, or it was
loaded (with the `len` of the cache that is logged). -/
inductive LoadOutcome where
  | skipped
  | missing
  | readFailed (msg : String)
  | parseFailed
  | loaded (count : Nat)
deriving DecidableEq, Repr

/-- The function `loadCacheFile` (lines 129-148). `json.Unmarshal` works on
the global `threadCache` itself. -/
def loadCacheFile (env : Env) (cfg : Config) (w : World) : World × LoadOutcome :=
  if cfg.threadStore ≠ "file" then (w, .skipped)
  else
    let w1 := w.tick Event.fileRead
    match env.readFile w.clock with
    | some e => (w1, .readFailed e)
    | none =>
      match w.storeFile with
      | none => (w1, .missing)
      | some data =>
        if (unmarshalMap data w.threadCache).2 = true then
          ({ w1 with threadCache := (unmarshalMap data w.threadCache).1 }, .parseFailed)
        else
          ({ w1 with threadCache := (unmarshalMap data w.threadCache).1 },
            .loaded (unmarshalMap data w.threadCache).1.len)

/-- A process killed and started again: the globals are initialised anew
(`threadCache = make(map[string]string)`), the remote store and the files
stay. -/
def restart (w : World) : World :=
  { w with threadCache := GoMap.make }

/-- The function `clearCacheHandler` (lines 718-738). The listing of the keys
and the one deletion of all of them may fail; neither error is looked at. The
answer is the same message in every case. -/
def clearCacheHandler (env : Env) (cfg : Config) (w : World) : World :=
  let w0 := { w with threadCache := GoMap.make }
  if cfg.threadStore = "redis" ∧ cfg.redisClient = true then
    let pattern := cfg.redisKeyPrefix ++ ":*"
    match env.redisKeys w0.clock with
    | some _ => w0.tick (Event.redisKeys pattern true)
    | none =>
      let w1 := w0.tick (Event.redisKeys pattern false)
      let keys := (w1.remote.filter (fun p => keyUnder cfg.redisKeyPrefix p.1)).map (fun p => p.1)
      if keys = [] then w1
      else
        match env.redisDel w1.clock with
        | some _ => w1.tick (Event.redisDel keys true)
        | none =>
          { w1.tick (Event.redisDel keys false) with
            remote := w1.remote.filter (fun p => ¬ keyUnder cfg.redisKeyPrefix p.1) }
  else w0

/-- Where a run of `saveCacheFile` ends: the process is killed after the
cache was serialised, in the middle of the write of the temporary file, after
that write, or not at all. -/
inductive SaveStop where
  | afterMarshal
  | duringWrite
  | afterWrite
  | never
deriving DecidableEq, Repr

/-- The steps of `saveCacheFile` (lines 150-175) up to the point where the
process is killed. A write that was cut short leaves a truncated temporary
file. -/
def saveCacheFileUntil (stop : SaveStop) (env : Env) (cfg : Config) (w : World) : World :=
  if cfg.threadStore ≠ "file" then w
  else
    let data := marshalMap w.threadCache
    match stop with
    | .afterMarshal => w
    | .duringWrite =>
      { w with tmpFile := some FileData.notJson, clock := w.clock + 1,
               trace := w.trace ++ [Event.fileWrite] }
    | .afterWrite =>
      match env.writeFile w.clock with
      | some _ =>
        { w with tmpFile := some FileData.notJson, clock := w.clock + 1,
                 trace := w.trace ++ [Event.fileWrite] }
      | none =>
        { w with tmpFile := some data, clock := w.clock + 1,
                 trace := w.trace ++ [Event.fileWrite] }
    | .never => saveCacheFile env cfg w

end GoAdvanced

namespace GoAdvancedRedis

/-- What `cacheHandler` answers: the cache was cleared, an internal server
error, or the snapshot of the cache (`thread_store`, `cached_threads_count`,
`cached_threads`). -/
inductive CacheReply where
  | cleared
  | serverError (msg : String)
  | snapshot (storeKind : String) (count : Nat) (threads : GoMap)
deriving DecidableEq, Repr

/-- The loop of `cacheHandler` over the keys the scan yields: every key is
deleted by a call of its own, a failure is logged and the loop goes on. -/
def deleteEach (env : Env) : List String → World → World
  | [], w => w
  | rkey :: rest, w =>
    match env.redisDel w.clock with
    | some _ => deleteEach env rest (w.tick (Event.redisDel [rkey] true))
    | none =>
      deleteEach env rest
        { w.tick (Event.redisDel [rkey] false) with
          remote := w.remote.filter (fun p => p.1 ≠ rkey) }

/-- The error `os.Remove` returns: one that wraps `os.ErrNotExist`, or any
other failure, with its text. -/
inductive RemoveError where
  | notExist
  | other (msg : String)
deriving DecidableEq, Repr

/-- The test `errors.Is(err, os.ErrNotExist)`. -/
def RemoveError.isNotExist : RemoveError → Bool
  | .notExist => true
  | .other _ => false

/-- The text of the error, as `%v` prints it. -/
def RemoveError.text : RemoveError → String
  | .notExist => "no such file or directory"
  | .other msg => msg

/-- The call `os.Remove(storeFile)`: it fails for a reason of the outside
(with the file left as it is), or it finds no file at the path and returns an
error that wraps `os.ErrNotExist`, or it removes the file and returns nil. -/
def osRemove (env : Env) (w : World) : World × Option RemoveError :=
  match env.removeFile w.clock with
  | some e => (w.tick (Event.fileRemove true), some (.other e))
  | none =>
    match w.storeFile with
    | none => (w.tick (Event.fileRemove true), some .notExist)
    | some _ => ({ w.tick (Event.fileRemove false) with storeFile := none }, none)

/-- The function `cacheHandler` (lines 277-320). With the file backend the
500 is answered when `os.Remove` returned an error and that error is not
`os.ErrNotExist` (line 284). The scan of the remote keys is one call that
yields all matching keys or fails. -/
def cacheHandler (env : Env) (cfg : Config) (method : String) (w : World) :
    World × CacheReply :=
  if method = "DELETE" then
    let w0 := { w with mem := GoMap.make }
    if cfg.storeKind = "file" then
      match osRemove env w0 with
      | (w1, some err) =>
        if err.isNotExist = false then
          (w1, .serverError ("Error deleting cache file: " ++ err.text))
        else (w1, .cleared)
      | (w1, none) => (w1, .cleared)
    else if cfg.storeKind = "redis" ∧ cfg.rdb = true then
      let pattern := cfg.redisPref ++ ":*"
      match env.redisKeys w0.clock with
      | some e =>
        (w0.tick (Event.redisKeys pattern true),
          .serverError ("Error clearing Redis cache: " ++ e))
      | none =>
        let w1 := w0.tick (Event.redisKeys pattern false)
        let keys := (w1.remote.filter (fun p => keyUnder cfg.redisPref p.1)).map (fun p => p.1)
        (deleteEach env keys w1, .cleared)
    else (w0, .cleared)
  else (w, .snapshot cfg.storeKind w.mem.len w.mem)

end GoAdvancedRedis

/-! ## The cache and its mutex -/

/-- What a goroutine does to `threadCache` and `cacheMutex`, in program order. -/
inductive MutexOp where
  | lock
  | unlock
  | rLock
  | rUnlock
  | readCache
  | writeCache
deriving DecidableEq, Repr

/-- What a goroutine holds of `cacheMutex`. -/
inductive Holding where
  | nothing
  | readLock
  | writeLock
deriving DecidableEq, Repr

/-- Whether a goroutine that starts out holding `held` keeps the lock
discipline along the sequence: it locks only what it does not hold, unlocks
what it holds, reads the cache only while it holds the read or the write
lock, and writes it only while it holds the write lock. -/
def guarded : Holding → List MutexOp → Bool
  | _, [] => true
  | .nothing, .lock :: rest => guarded .writeLock rest
  | .writeLock, .unlock :: rest => guarded .nothing rest
  | .nothing, .rLock :: rest => guarded .readLock rest
  | .readLock, .rUnlock :: rest => guarded .nothing rest
  | .readLock, .readCache :: rest => guarded .readLock rest
  | .writeLock, .readCache :: rest => guarded .writeLock rest
  | .writeLock, .writeCache :: rest => guarded .writeLock rest
  | _, _ => false

namespace GoAdvanced

/-- The cache and mutex operations of `storeGetTs` (lines 198-225): the read
under the read lock (199-201) and, when the cache had no thread and the
remote lookup found one, the write-back under the write lock (217-219). -/
def storeGetTsOps (cached remoteFound : Bool) : List MutexOp :=
  [.rLock, .readCache, .rUnlock]
    ++ (if cached = false ∧ remoteFound = true then [.lock, .writeCache, .unlock] else [])

/-- The cache operations of `saveCacheFile` (lines 150-175): with the file
backend the cache is read by `json.MarshalIndent` (158) and, when the file
was written and renamed, by `len` for the log line (174). No mutex
operation occurs in the function. -/
def saveCacheFileOps (cfg : Config) (written : Bool) : List MutexOp :=
  if cfg.threadStore ≠ "file" then []
  else [.readCache] ++ (if written = true then [.readCache] else [])

/-- The cache and mutex operations of `storeSetTs` (lines 227-242): the
assignment under the write lock (228-230), then, unless the remote store is
written, the call of `saveCacheFile` (240), after the unlock. -/
def storeSetTsOps (cfg : Config) (written : Bool) : List MutexOp :=
  [.lock, .writeCache, .unlock]
    ++ (if cfg.threadStore = "redis" ∧ cfg.redisClient = true then []
        else saveCacheFileOps cfg written)

/-- The cache and mutex operations of `healthHandler` (lines 565-568). -/
def healthHandlerOps : List MutexOp := [.rLock, .readCache, .rUnlock]

/-- The cache and mutex operations of `cacheHandler` (lines 699-716): the
copy loop and `len`, under the read lock released on return. -/
def cacheHandlerOps : List MutexOp := [.rLock, .readCache, .readCache, .rUnlock]

/-- The cache and mutex operations of `clearCacheHandler` (lines 718-738): the
assignment of a new map under the write lock released on return. -/
def clearCacheHandlerOps : List MutexOp := [.lock, .writeCache, .unlock]

/-- The cache operations of `statsHandler` (lines 740-746): `len(threadCache)`
(742). No mutex operation occurs in the function. -/
def statsHandlerOps : List MutexOp := [.readCache]

/-- A fresh process whose snapshot file holds the JSON literal `null`. -/
def nullSnapshot : World :=
  { threadCache := GoMap.make, remote := [], storeFile := some .jsonNull, tmpFile := none,
    clock := 0, trace := [] }

end GoAdvanced

/-! ## Definitions used to state the theorems -/

/-- The spec's reading of a key field: the label's value, and the default
when the label is absent or empty. -/
def labelOr (labels : GoMap) (k d : String) : String :=
  match labels with
  | .nilMap => d
  | .alloc entries =>
    match entries.lookup k with
    | none => d
    | some v => if v = "" then d else v

/-- The events a run added to the trace of the state it started from. -/
def eventsSince (before after : List Event) : List Event :=
  after.drop before.length

/-- A dispatcher outcome that is a success returning the thread identifier `ts`. -/
def HttpOutcome.succeedsWith (o : HttpOutcome) (ts : String) : Prop :=
  ∃ code raw err, o = .response code raw (.slackResp true ts err)

/-- A configuration with the file backend. -/
def GoAdvanced.fileConfig : GoAdvanced.Config :=
  { environment := "staging", threadStore := "file", redisKeyPrefix := "threader:ts",
    redisClient := false }

/-- A configuration with the redis backend. -/
def GoAdvanced.redisConfig : GoAdvanced.Config :=
  { environment := "staging", threadStore := "redis", redisKeyPrefix := "threader:ts",
    redisClient := true }

/-- A fresh process: empty allocated cache, empty remote store, no files. -/
def GoAdvanced.freshWorld : GoAdvanced.World :=
  { threadCache := GoMap.make, remote := [], storeFile := none, tmpFile := none,
    clock := 0, trace := [] }

/-- An outside in which every call succeeds, the chat service assigning the
identifier `"ts-" ++ n` to the message posted at clock `n` (for the first clocks). -/
def calmEnv : Env :=
  { http := fun n =>
      .response 200 "" (.slackResp true
        (match n with
         | 0 => "ts-0" | 1 => "ts-1" | 2 => "ts-2" | 3 => "ts-3" | 4 => "ts-4"
         | 5 => "ts-5" | 6 => "ts-6" | 7 => "ts-7" | _ => "ts-late") ""),
    redisGet := fun _ => none, redisSet := fun _ => none,
    writeFile := fun _ => none, rename := fun _ => none,
    readFile := fun _ => none, removeFile := fun _ => none,
    redisKeys := fun _ => none, redisDel := fun _ => none }

/-- The alert of the first end-to-end scenario. -/
def GoAdvanced.diskFull : GoAdvanced.Alert :=
  { Labels := .alloc [("alertname", "DiskFull"), ("severity", "critical")],
    Annotations := .alloc [("summary", "disk 95% full")], StartsAt := "", EndsAt := "" }

/-- A second alert, on another alertname. -/
def GoAdvanced.cpuHigh : GoAdvanced.Alert :=
  { Labels := .alloc [("alertname", "CpuHigh"), ("severity", "warning"), ("service", "api")],
    Annotations := .nilMap, StartsAt := "", EndsAt := "" }

/-- The number of results that carry an error. -/
def GoAdvanced.failureEntries : List GoAdvanced.AlertResult → Nat
  | [] => 0
  | r :: rest => (if r.Error = "" then 0 else 1) + GoAdvanced.failureEntries rest

/-- The number of results that carry no error. -/
def GoAdvanced.successEntries : List GoAdvanced.AlertResult → Nat
  | [] => 0
  | r :: rest => (if r.Error = "" then 1 else 0) + GoAdvanced.successEntries rest

/-- An outside in which the chat service cannot be reached. -/
def chatDown : Env :=
  { calmEnv with http := fun _ => .transportError "dial tcp: i/o timeout" }

/-- An outside in which the call made at clock 3 does not reach the chat
service; with the file backend this is the dispatch of the second alert of a
batch of first sightings. -/
def thirdCallDown : Env :=
  { calmEnv with
    http := fun n => if n = 3 then .transportError "dial tcp: i/o timeout" else calmEnv.http n }

/-- A third alert. -/
def GoAdvanced.memLow : GoAdvanced.Alert :=
  { Labels := .alloc [("alertname", "MemLow"), ("cluster", "eu-1")],
    Annotations := .nilMap, StartsAt := "", EndsAt := "" }

/-- A process that already has a thread for `diskFull`. -/
def GoAdvanced.knownThread : GoAdvanced.World :=
  { GoAdvanced.freshWorld with
    threadCache := .alloc [("DiskFull|critical|unknown|default|staging", "1700000000.000100")] }

/-- A process with the redis backend and an empty cache whose remote store
has a thread for `diskFull`. -/
def GoAdvanced.remoteThread : GoAdvanced.World :=
  { GoAdvanced.freshWorld with
    remote := [("threader:ts:DiskFull|critical|unknown|default|staging",
                "1700000000.000100")] }

/-- A configuration of `go-advanced-redis` with the file backend. -/
def GoAdvancedRedis.fileConfig : GoAdvancedRedis.Config :=
  { envName := "staging", storeKind := "file", redisPref := "threader:ts", rdb := false }

/-- A configuration of `go-advanced-redis` with the redis backend. -/
def GoAdvancedRedis.redisConfig : GoAdvancedRedis.Config :=
  { envName := "staging", storeKind := "redis", redisPref := "threader:ts", rdb := true }

/-- The alert of the first end-to-end scenario, as `go-advanced-redis` decodes it. -/
def GoAdvancedRedis.diskFull : GoAdvancedRedis.Alert :=
  { Labels := .alloc [("alertname", "DiskFull"), ("severity", "critical")],
    Annotations := .alloc [("summary", "disk 95% full")], StartsAt := "", EndsAt := none }

/-- A process of `go-advanced-redis` whose cache has a thread for `diskFull`,
and nothing in the remote store or on disk. -/
def GoAdvancedRedis.knownThread : GoAdvancedRedis.World :=
  { mem := .alloc [("DiskFull|critical|staging", "1700000000.000100")], remote := [],
    storeFile := none, tmpFile := none, clock := 0, trace := [] }

/-- A process of `go-advanced-redis` with the file backend that has saved a
thread for `diskFull`: the cache and the snapshot file hold it. -/
def GoAdvancedRedis.savedThread : GoAdvancedRedis.World :=
  { GoAdvancedRedis.knownThread with
    storeFile := some (.jsonObject [("DiskFull|critical|staging", .str "1700000000.000100")]) }

/-- An outside in which the file system refuses to remove a file. -/
def removalDenied : Env :=
  { calmEnv with removeFile := fun _ => some "permission denied" }

/-- An outside in which no file can be written. -/
def readOnlyDisk : Env :=
  { calmEnv with writeFile := fun _ => some "read-only file system" }

/-- An outside in which the remote store refuses every deletion. -/
def deletionsRefused : Env :=
  { calmEnv with redisDel := fun _ => some "connection refused" }

/-- A process with the redis backend that has set a thread for the key `"k"`:
the cache and the remote store hold it. -/
def GoAdvanced.storedThread : GoAdvanced.World :=
  { GoAdvanced.freshWorld with
    threadCache := .alloc [("k", "1700000000.000100")],
    remote := [("threader:ts:k", "1700000000.000100")] }

/-- A fresh process whose snapshot file is an object with a string member and
a member that is a number. -/
def GoAdvanced.corruptSnapshot : GoAdvanced.World :=
  { GoAdvanced.freshWorld with
    storeFile := some (.jsonObject [("a", .str "1700000000.000100"), ("b", .other),
                                    ("c", .str "1700000000.000300")]) }

/-- An outside in which the remote store refuses every write. -/
def refusedWrites : Env :=
  { calmEnv with redisSet := fun _ => some "connection refused" }

/-- An outside in which every remote lookup times out. -/
def lookupTimeouts : Env :=
  { calmEnv with redisGet := fun _ => some "i/o timeout" }

/-- A process with the redis backend whose remote store holds an older thread
for the key `"k"`. -/
def GoAdvanced.staleRemote : GoAdvanced.World :=
  { GoAdvanced.freshWorld with remote := [("threader:ts:k", "1700000000.000100")] }

/-- An outside in which the chat service answers every dispatch with
`ok: true` and no `ts` member, so that the dispatcher returns the empty thread
id and no error. -/
def blankIds : Env :=
  { calmEnv with http := fun _ => .response 200 "" (.slackResp true "" "") }

/-- An outside in which the chat service answers without thread id and the
remote lookup made at clock 3 times out; with the redis backend, on a fresh
process, this is the lookup of the second request. -/
def laterLookupDown : Env :=
  { blankIds with redisGet := fun n => if n = 3 then some "i/o timeout" else none }

/-! ## Theorems -/

/-! ### Go maps and strings -/

theorem lookup_putEntry (entries : List (String × String)) (k v k' : String) :
    (putEntry entries k v).lookup k' = if k' = k then some v else entries.lookup k' := by
  induction entries with
  | nil =>
    by_cases h : k' = k
    · simp [putEntry, List.lookup, h]
    · have hb : (k' == k) = false := by simpa using h
      simp [putEntry, List.lookup, h, hb]
  | cons p rest ih =>
    obtain ⟨a, b⟩ := p
    by_cases hak : a = k
    · by_cases h : k' = k
      · simp [putEntry, List.lookup, hak, h]
      · have hb : (k' == k) = false := by simpa using h
        simp [putEntry, List.lookup, hak, h, hb]
    · by_cases h' : k' = a
      · have hk : ¬ a = k := hak
        simp [putEntry, List.lookup, hak, h', hk]
      · have hb : (k' == a) = false := by simpa using h'
        simp [putEntry, List.lookup, hak, hb, ih]

theorem index_putEntry (entries : List (String × String)) (k v k' : String) :
    (GoMap.alloc (putEntry entries k v)).index k'
      = if k' = k then v else (GoMap.alloc entries).index k' := by
  simp only [GoMap.index]
  rw [lookup_putEntry]
  by_cases h : k' = k <;> simp [h]

theorem assign_of_allocated (m : GoMap) (k v : String) (h : m.allocated = true) :
    ∃ entries, m = .alloc entries ∧ m.assign k v = some (.alloc (putEntry entries k v)) := by
  cases m with
  | nilMap => simp [GoMap.allocated] at h
  | alloc entries => exact ⟨entries, rfl, rfl⟩

theorem allocated_of_index_ne (m : GoMap) (k : String) (h : m.index k ≠ "") :
    m.allocated = true := by
  cases m with
  | nilMap => simp [GoMap.index] at h
  | alloc entries => rfl

theorem labelOr_eq (labels : GoMap) (k d : String) :
    labelOr labels k d = if labels.index k = "" then d else labels.index k := by
  cases labels with
  | nilMap => simp [labelOr, GoMap.index]
  | alloc entries =>
    simp only [labelOr, GoMap.index]
    cases h : entries.lookup k with
    | none => simp
    | some v => simp

/-- Two lists that agree up to and including their first delimiter. -/
theorem bar_split (a b x y : List Char) (ha : '|' ∉ a) (hb : '|' ∉ b)
    (h : a ++ '|' :: x = b ++ '|' :: y) : a = b ∧ x = y := by
  induction a generalizing b with
  | nil =>
    cases b with
    | nil => simpa using h
    | cons c b' =>
      simp only [List.nil_append, List.cons_append, List.cons.injEq] at h
      exact absurd (by simp [← h.1]) hb
  | cons c a' ih =>
    cases b with
    | nil =>
      simp only [List.nil_append, List.cons_append, List.cons.injEq] at h
      exact absurd (by simp [h.1]) ha
    | cons d b' =>
      simp only [List.cons_append, List.cons.injEq] at h
      have ha' : '|' ∉ a' := fun m => ha (List.mem_cons_of_mem _ m)
      have hb' : '|' ∉ b' := fun m => hb (List.mem_cons_of_mem _ m)
      obtain ⟨e1, e2⟩ := ih b' ha' hb' h.2
      exact ⟨by rw [h.1, e1], e2⟩

theorem hasBar_false (s : String) (h : hasBar s = false) : '|' ∉ s.data := by
  intro hm
  have : hasBar s = true := by
    unfold hasBar
    simpa [String.toList] using hm
  rw [h] at this
  exact Bool.noConfusion this

/-- A delimited string determines its first field when the field holds no delimiter. -/
theorem first_field_eq (a b x y : String) (ha : hasBar a = false) (hb : hasBar b = false)
    (h : a ++ "|" ++ x = b ++ "|" ++ y) : a = b := by
  have hd := congrArg String.data h
  simp only [String.data_append] at hd
  rw [List.append_assoc, List.append_assoc] at hd
  have := (bar_split a.data b.data x.data y.data (hasBar_false a ha) (hasBar_false b hb)
    (by simpa using hd)).1
  exact String.ext this

theorem append_ne_empty (a b : String) (h : a ≠ "") : a ++ b ≠ "" := by
  intro e
  have hd := congrArg String.data e
  simp only [String.data_append] at hd
  have ha : a.data = [] := (List.append_eq_nil.mp hd).1
  exact h (String.ext ha)

theorem append_left_cancel_str (a b c : String) (h : a ++ b = a ++ c) : b = c := by
  have hd := congrArg String.data h
  simp only [String.data_append] at hd
  exact String.ext (List.append_cancel_left hd)

theorem dispatches_append (xs ys : List Event) :
    dispatches (xs ++ ys) = dispatches xs ++ dispatches ys := by
  induction xs with
  | nil => rfl
  | cons e rest ih => cases e <;> simp [dispatches, ih]

theorem storeSets_append (xs ys : List Event) :
    storeSets (xs ++ ys) = storeSets xs ++ storeSets ys := by
  induction xs with
  | nil => rfl
  | cons e rest ih => cases e <;> simp [storeSets, ih]

theorem countPosts_append (b : Bool) (xs ys : List Event) :
    countPosts b (xs ++ ys) = countPosts b xs + countPosts b ys := by
  induction xs with
  | nil => simp [countPosts]
  | cons e rest ih => cases e <;> simp [countPosts, ih, Nat.add_assoc]

theorem countFailedGets_append (xs ys : List Event) :
    countFailedGets (xs ++ ys) = countFailedGets xs + countFailedGets ys := by
  induction xs with
  | nil => simp [countFailedGets]
  | cons e rest ih => cases e <;> simp [countFailedGets, ih, Nat.add_assoc]

theorem eventsSince_append (xs ys : List Event) : eventsSince xs (xs ++ ys) = ys := by
  simp [eventsSince]

namespace GoAdvanced

/-! ### The store of `go-advanced` -/

/-- The runs of `storeGetTs`: a cache hit; a miss without remote store; a
failed remote lookup; a remote lookup that finds nothing or the empty string;
a remote lookup that finds an identifier, written back; the write-back
panicking on a nil cache. -/
theorem storeGetTs_cases (env : Env) (cfg : Config) (key : String) (w : World) :
    (w.threadCache.index key ≠ ""
        ∧ storeGetTs env cfg key w = (w, some (w.threadCache.index key, none)))
    ∨ (w.threadCache.index key = "" ∧ ¬ (cfg.threadStore = "redis" ∧ cfg.redisClient = true)
        ∧ storeGetTs env cfg key w = (w, some ("", none)))
    ∨ (w.threadCache.index key = "" ∧ (cfg.threadStore = "redis" ∧ cfg.redisClient = true)
        ∧ ∃ e, env.redisGet w.clock = some e
          ∧ storeGetTs env cfg key w
            = (w.tick (Event.redisGet (cfg.redisKeyPrefix ++ ":" ++ key) true),
                some ("", some ("Redis 조회 실패: " ++ e))))
    ∨ (w.threadCache.index key = "" ∧ (cfg.threadStore = "redis" ∧ cfg.redisClient = true)
        ∧ env.redisGet w.clock = none
        ∧ (w.remote.lookup (cfg.redisKeyPrefix ++ ":" ++ key) = none
            ∨ w.remote.lookup (cfg.redisKeyPrefix ++ ":" ++ key) = some "")
        ∧ storeGetTs env cfg key w
            = (w.tick (Event.redisGet (cfg.redisKeyPrefix ++ ":" ++ key) false),
                some ("", none)))
    ∨ (w.threadCache.index key = "" ∧ (cfg.threadStore = "redis" ∧ cfg.redisClient = true)
        ∧ env.redisGet w.clock = none
        ∧ ∃ v entries, v ≠ "" ∧ w.threadCache = .alloc entries
          ∧ w.remote.lookup (cfg.redisKeyPrefix ++ ":" ++ key) = some v
          ∧ storeGetTs env cfg key w
            = ({ w.tick (Event.redisGet (cfg.redisKeyPrefix ++ ":" ++ key) false) with
                  threadCache := .alloc (putEntry entries key v) }, some (v, none)))
    ∨ (w.threadCache = .nilMap
        ∧ storeGetTs env cfg key w
            = (w.tick (Event.redisGet (cfg.redisKeyPrefix ++ ":" ++ key) false), none)) := by
  by_cases h1 : w.threadCache.index key = ""
  · by_cases h2 : cfg.threadStore = "redis" ∧ cfg.redisClient = true
    · cases hg : env.redisGet w.clock with
      | some e =>
        refine Or.inr (Or.inr (Or.inl ⟨h1, h2, e, rfl, ?_⟩))
        simp [storeGetTs, h1, h2, hg]
      | none =>
        cases hl : w.remote.lookup (cfg.redisKeyPrefix ++ ":" ++ key) with
        | none =>
          refine Or.inr (Or.inr (Or.inr (Or.inl ⟨h1, h2, rfl, Or.inl rfl, ?_⟩)))
          simp [storeGetTs, h1, h2, hg, hl]
        | some v =>
          by_cases h3 : v = ""
          · refine Or.inr (Or.inr (Or.inr (Or.inl ⟨h1, h2, rfl, Or.inr (by rw [h3]), ?_⟩)))
            simp [storeGetTs, h1, h2, hg, hl, h3]
          · have hcache : w.threadCache = .nilMap ∨ ∃ entries, w.threadCache = .alloc entries := by
              cases w.threadCache with
              | nilMap => exact Or.inl rfl
              | alloc entries => exact Or.inr ⟨entries, rfl⟩
            rcases hcache with hc | ⟨entries, hc⟩
            · refine Or.inr (Or.inr (Or.inr (Or.inr (Or.inr ⟨hc, ?_⟩))))
              have h1' := h1
              rw [hc] at h1'
              simp [storeGetTs, h2, hg, hl, h3, World.tick, hc, h1', GoMap.assign]
            · refine Or.inr (Or.inr (Or.inr (Or.inr (Or.inl
                ⟨h1, h2, rfl, v, entries, h3, hc, rfl, ?_⟩))))
              have h1' := h1
              rw [hc] at h1'
              simp [storeGetTs, h2, hg, hl, h3, World.tick, hc, h1', GoMap.assign]
    · exact Or.inr (Or.inl ⟨h1, h2, by simp [storeGetTs, h1, h2]⟩)
  · exact Or.inl ⟨h1, by simp [storeGetTs, h1]⟩

/-- What a lookup leaves untouched: the remote store and the files. -/
theorem storeGetTs_frame (env : Env) (cfg : Config) (key : String) (w : World) :
    (storeGetTs env cfg key w).1.remote = w.remote
      ∧ (storeGetTs env cfg key w).1.storeFile = w.storeFile
      ∧ (storeGetTs env cfg key w).1.tmpFile = w.tmpFile := by
  rcases storeGetTs_cases env cfg key w with
    ⟨_, h⟩ | ⟨_, _, h⟩ | ⟨_, _, e, _, h⟩ | ⟨_, _, _, _, h⟩ | ⟨_, _, _, v, es, _, _, _, h⟩ | ⟨_, h⟩ <;>
  simp [h, World.tick]

/-- A lookup makes no dispatch and no store-set call; it counts as a failed
remote lookup exactly when it returns an error. -/
theorem storeGetTs_trace (env : Env) (cfg : Config) (key : String) (w : World) :
    ∃ evs, (storeGetTs env cfg key w).1.trace = w.trace ++ evs
      ∧ dispatches evs = [] ∧ storeSets evs = []
      ∧ (∀ b, countPosts b evs = 0)
      ∧ countFailedGets evs
          = (match (storeGetTs env cfg key w).2 with
             | some (_, some _) => 1
             | _ => 0) := by
  rcases storeGetTs_cases env cfg key w with
    ⟨_, h⟩ | ⟨_, _, h⟩ | ⟨_, _, e, _, h⟩ | ⟨_, _, _, _, h⟩ | ⟨_, _, _, v, es, _, _, _, h⟩ | ⟨_, h⟩
  · exact ⟨[], by simp [h, dispatches, storeSets, countPosts, countFailedGets]⟩
  · exact ⟨[], by simp [h, dispatches, storeSets, countPosts, countFailedGets]⟩
  · exact ⟨[Event.redisGet (cfg.redisKeyPrefix ++ ":" ++ key) true],
      by simp [h, World.tick, dispatches, storeSets, countPosts, countFailedGets]⟩
  · exact ⟨[Event.redisGet (cfg.redisKeyPrefix ++ ":" ++ key) false],
      by simp [h, World.tick, dispatches, storeSets, countPosts, countFailedGets]⟩
  · exact ⟨[Event.redisGet (cfg.redisKeyPrefix ++ ":" ++ key) false],
      by simp [h, World.tick, dispatches, storeSets, countPosts, countFailedGets]⟩
  · exact ⟨[Event.redisGet (cfg.redisKeyPrefix ++ ":" ++ key) false],
      by simp [h, World.tick, dispatches, storeSets, countPosts, countFailedGets]⟩

/-- With an allocated cache a lookup returns, and the cache stays allocated. -/
theorem storeGetTs_returns (env : Env) (cfg : Config) (key : String) (w : World)
    (h : w.threadCache.allocated = true) :
    (∃ r, (storeGetTs env cfg key w).2 = some r)
      ∧ (storeGetTs env cfg key w).1.threadCache.allocated = true := by
  rcases storeGetTs_cases env cfg key w with
    ⟨_, h'⟩ | ⟨_, _, h'⟩ | ⟨_, _, e, _, h'⟩ | ⟨_, _, _, _, h'⟩ | ⟨_, _, _, v, es, _, _, _, h'⟩
      | ⟨hn, h'⟩
  · simp [h', h]
  · simp [h', h]
  · simp [h', h, World.tick]
  · simp [h', h, World.tick]
  · simp [h', GoMap.allocated]
  · rw [hn] at h
    simp [GoMap.allocated] at h

/-- A lookup that returns the empty identifier (with or without an error)
leaves the cache as it was, and the cache has no thread for the key. -/
theorem storeGetTs_absent (env : Env) (cfg : Config) (key : String) (w : World)
    (err : Option String) (h : (storeGetTs env cfg key w).2 = some ("", err)) :
    (storeGetTs env cfg key w).1.threadCache = w.threadCache
      ∧ w.threadCache.index key = "" := by
  rcases storeGetTs_cases env cfg key w with
    ⟨h1, h'⟩ | ⟨h1, _, h'⟩ | ⟨h1, _, e, _, h'⟩ | ⟨h1, _, _, _, h'⟩
      | ⟨h1, _, _, v, es, hv, _, _, h'⟩ | ⟨hn, h'⟩
  · rw [h'] at h
    simp at h
    exact absurd h.1 h1
  · simp [h', h1]
  · simp [h', h1, World.tick]
  · simp [h', h1, World.tick]
  · rw [h'] at h
    simp at h
    exact absurd h.1 hv
  · rw [h'] at h
    simp at h

/-- A lookup that returns a non-empty identifier returns no error and leaves
the cache mapping the key to it, and every other key as before. -/
theorem storeGetTs_found (env : Env) (cfg : Config) (key : String) (w : World)
    (t : String) (err : Option String) (ht : t ≠ "")
    (h : (storeGetTs env cfg key w).2 = some (t, err)) :
    err = none ∧ (storeGetTs env cfg key w).1.threadCache.index key = t
      ∧ ∀ k, k ≠ key →
          (storeGetTs env cfg key w).1.threadCache.index k = w.threadCache.index k := by
  rcases storeGetTs_cases env cfg key w with
    ⟨h1, h'⟩ | ⟨h1, _, h'⟩ | ⟨h1, _, e, _, h'⟩ | ⟨h1, _, _, _, h'⟩
      | ⟨h1, _, _, v, es, hv, hc, _, h'⟩ | ⟨hn, h'⟩
  · rw [h'] at h ⊢
    simp at h
    exact ⟨h.2.symm, h.1, fun _ _ => rfl⟩
  · rw [h'] at h
    simp at h
    exact absurd h.1.symm ht
  · rw [h'] at h
    simp at h
    exact absurd h.1.symm ht
  · rw [h'] at h
    simp at h
    exact absurd h.1.symm ht
  · rw [h'] at h ⊢
    simp at h
    obtain ⟨h4, h5⟩ := h
    subst h4
    refine ⟨h5.symm, by simp [index_putEntry], fun k hk => ?_⟩
    simp [index_putEntry, hk, hc]
  · rw [h'] at h
    simp at h

/-- The error of a lookup comes with the empty identifier and a non-empty message. -/
theorem storeGetTs_error (env : Env) (cfg : Config) (key : String) (w : World)
    (t e : String) (h : (storeGetTs env cfg key w).2 = some (t, some e)) :
    t = "" ∧ e ≠ "" := by
  rcases storeGetTs_cases env cfg key w with
    ⟨h1, h'⟩ | ⟨h1, _, h'⟩ | ⟨h1, _, e', _, h'⟩ | ⟨h1, _, _, _, h'⟩
      | ⟨h1, _, _, v, es, hv, hc, _, h'⟩ | ⟨hn, h'⟩
  · rw [h'] at h; simp at h
  · rw [h'] at h; simp at h
  · rw [h'] at h
    simp at h
    exact ⟨h.1.symm, h.2 ▸ append_ne_empty _ _ (by decide)⟩
  · rw [h'] at h; simp at h
  · rw [h'] at h; simp at h
  · rw [h'] at h; simp at h

/-- Saving the cache touches neither the cache nor the remote store, and
makes file-system calls only. -/
theorem saveCacheFile_frame (env : Env) (cfg : Config) (w : World) :
    (saveCacheFile env cfg w).threadCache = w.threadCache
      ∧ (saveCacheFile env cfg w).remote = w.remote
      ∧ ∃ evs, (saveCacheFile env cfg w).trace = w.trace ++ evs
          ∧ dispatches evs = [] ∧ storeSets evs = []
          ∧ (∀ b, countPosts b evs = 0) ∧ countFailedGets evs = 0 := by
  unfold saveCacheFile
  split_ifs with h
  · exact ⟨rfl, rfl, [], by simp [dispatches, storeSets, countPosts, countFailedGets]⟩
  · cases hw : env.writeFile w.clock with
    | some e =>
      exact ⟨rfl, rfl, [Event.fileWrite],
        by simp [dispatches, storeSets, countPosts, countFailedGets]⟩
    | none =>
      cases hr : env.rename (w.clock + 1) with
      | some e =>
        exact ⟨rfl, rfl, [Event.fileWrite, Event.fileRename],
          by simp [dispatches, storeSets, countPosts, countFailedGets]⟩
      | none =>
        exact ⟨rfl, rfl, [Event.fileWrite, Event.fileRename],
          by simp [dispatches, storeSets, countPosts, countFailedGets]⟩

/-- A set on an allocated cache returns; the cache then holds the binding, the
remote store is as before or holds the binding too, and the trace grew by the
one store-set call and calls to the backend. -/
theorem storeSetTs_alloc (env : Env) (cfg : Config) (key ts : String) (w : World)
    (entries : List (String × String)) (hc : w.threadCache = .alloc entries) :
    ∃ w' err evs, storeSetTs env cfg key ts w = (w', some err)
      ∧ w'.threadCache = .alloc (putEntry entries key ts)
      ∧ (w'.remote = w.remote
          ∨ ((cfg.threadStore = "redis" ∧ cfg.redisClient = true)
              ∧ w'.remote = putEntry w.remote (cfg.redisKeyPrefix ++ ":" ++ key) ts))
      ∧ w'.trace = w.trace ++ Event.storeSet key ts :: evs
      ∧ dispatches evs = [] ∧ storeSets evs = []
      ∧ (∀ b, countPosts b evs = 0) ∧ countFailedGets evs = 0 := by
  by_cases h2 : cfg.threadStore = "redis" ∧ cfg.redisClient = true
  · cases hs : env.redisSet w.clock with
    | some e =>
      have heq : storeSetTs env cfg key ts w
          = ({ w with threadCache := .alloc (putEntry entries key ts),
                      clock := w.clock + 1,
                      trace := w.trace ++ [Event.storeSet key ts]
                        ++ [Event.redisSet (cfg.redisKeyPrefix ++ ":" ++ key) ts 0] },
              some (some ("Redis 저장 실패: " ++ e))) := by
        simp [storeSetTs, hc, GoMap.assign, h2, World.tick, hs]
      exact ⟨_, _, [Event.redisSet (cfg.redisKeyPrefix ++ ":" ++ key) ts 0], heq,
        by simp [dispatches, storeSets, countPosts, countFailedGets]⟩
    | none =>
      have heq : storeSetTs env cfg key ts w
          = ({ w with threadCache := .alloc (putEntry entries key ts),
                      remote := putEntry w.remote (cfg.redisKeyPrefix ++ ":" ++ key) ts,
                      clock := w.clock + 1,
                      trace := w.trace ++ [Event.storeSet key ts]
                        ++ [Event.redisSet (cfg.redisKeyPrefix ++ ":" ++ key) ts 0] },
              some none) := by
        simp [storeSetTs, hc, GoMap.assign, h2, World.tick, hs]
      exact ⟨_, _, [Event.redisSet (cfg.redisKeyPrefix ++ ":" ++ key) ts 0], heq,
        by simp [dispatches, storeSets, countPosts, countFailedGets, h2]⟩
  · obtain ⟨h3, h4, evs, h5, h6⟩ := saveCacheFile_frame env cfg
      { w with threadCache := .alloc (putEntry entries key ts),
               trace := w.trace ++ [Event.storeSet key ts] }
    have heq : storeSetTs env cfg key ts w
        = (saveCacheFile env cfg
            { w with threadCache := .alloc (putEntry entries key ts),
                     trace := w.trace ++ [Event.storeSet key ts] }, some none) := by
      simp [storeSetTs, hc, GoMap.assign, h2]
    refine ⟨_, _, evs, heq, h3, Or.inl h4, ?_, h6⟩
    rw [h5]
    simp

/-- The runs of the dispatcher: it fails with a non-empty message, or it
succeeds with the identifier the chat service answered. Either way the call
is recorded and nothing else changes. -/
theorem slackPostMessage_cases (env : Env) (threadTs : String) (w : World) :
    (∃ e, e ≠ "" ∧ slackPostMessage env threadTs w
        = (w.tick (Event.slackPost threadTs true), "", some e))
    ∨ (∃ ts, (env.http w.clock).succeedsWith ts ∧ slackPostMessage env threadTs w
        = (w.tick (Event.slackPost threadTs false), ts, none)) := by
  unfold slackPostMessage
  cases ho : env.http w.clock with
  | transportError e => exact Or.inl ⟨_, append_ne_empty _ e (by decide), rfl⟩
  | response code raw decoded =>
    cases decoded with
    | readError e => exact Or.inl ⟨_, append_ne_empty _ e (by decide), rfl⟩
    | parseError e => exact Or.inl ⟨_, append_ne_empty _ e (by decide), rfl⟩
    | slackResp ok ts error =>
      cases ok with
      | false =>
        exact Or.inl ⟨"Slack API 오류: " ++ error, append_ne_empty _ error (by decide),
          by simp⟩
      | true => exact Or.inr ⟨ts, ⟨code, raw, error, rfl⟩, by simp⟩

/-- A dispatch that meets a success returns its identifier. -/
theorem slackPostMessage_success (env : Env) (threadTs ts : String) (w : World)
    (h : (env.http w.clock).succeedsWith ts) :
    slackPostMessage env threadTs w = (w.tick (Event.slackPost threadTs false), ts, none) := by
  obtain ⟨code, raw, err, ho⟩ := h
  simp [slackPostMessage, ho]

/-- A cache hit returns the cached identifier and changes nothing. -/
theorem storeGetTs_hit (env : Env) (cfg : Config) (key : String) (w : World)
    (h : w.threadCache.index key ≠ "") :
    storeGetTs env cfg key w = (w, some (w.threadCache.index key, none)) := by
  simp [storeGetTs, h]

/-- A miss in the cache, with a remote store that answers and has no entry
for the key, returns absent. -/
theorem storeGetTs_miss (env : Env) (cfg : Config) (key : String) (w : World)
    (h1 : w.threadCache.index key = "") (hg : env.redisGet w.clock = none)
    (hl : w.remote.lookup (cfg.redisKeyPrefix ++ ":" ++ key) = none) :
    (storeGetTs env cfg key w).2 = some ("", none) := by
  by_cases h2 : cfg.threadStore = "redis" ∧ cfg.redisClient = true
  · simp [storeGetTs, h1, h2, hg, hl]
  · simp [storeGetTs, h1, h2]

/-! ### One iteration of the loop of `alertHandler` -/

/-- The iteration when the lookup returns an error. -/
theorem handleAlert_lookup_error (env : Env) (cfg : Config) (status : String) (alert : Alert)
    (w w1 : World) (t e : String)
    (hg : storeGetTs env cfg (threadKey cfg alert.Labels) w = (w1, some (t, some e))) :
    handleAlert env cfg status alert w
      = (w1, some (errorResult (threadKey cfg alert.Labels) e)) := by
  simp [handleAlert, hg]

/-- The iteration when the dispatch returns an error. -/
theorem handleAlert_dispatch_error (env : Env) (cfg : Config) (status : String) (alert : Alert)
    (w w1 w2 : World) (t t' e : String)
    (hg : storeGetTs env cfg (threadKey cfg alert.Labels) w = (w1, some (t, none)))
    (hp : slackPostMessage env t w1 = (w2, t', some e)) :
    handleAlert env cfg status alert w
      = (w2, some (errorResult (threadKey cfg alert.Labels) e)) := by
  by_cases ht : t = ""
  · subst ht
    simp [handleAlert, hg, hp]
  · simp [handleAlert, hg, hp, ht]

/-- The iteration for a first sighting whose dispatch succeeds. -/
theorem handleAlert_new_thread (env : Env) (cfg : Config) (status : String) (alert : Alert)
    (w w1 w2 w3 : World) (ts : String) (err : Option String)
    (hg : storeGetTs env cfg (threadKey cfg alert.Labels) w = (w1, some ("", none)))
    (hp : slackPostMessage env "" w1 = (w2, ts, none))
    (hs : storeSetTs env cfg (threadKey cfg alert.Labels) ts w2 = (w3, some err)) :
    handleAlert env cfg status alert w = (w3, some (successResult cfg status alert ts)) := by
  simp [handleAlert, hg, hp, hs, successResult]

/-- The iteration for an alert with a thread whose dispatch succeeds. -/
theorem handleAlert_reply (env : Env) (cfg : Config) (status : String) (alert : Alert)
    (w w1 w2 : World) (t t' : String) (ht : t ≠ "")
    (hg : storeGetTs env cfg (threadKey cfg alert.Labels) w = (w1, some (t, none)))
    (hp : slackPostMessage env t w1 = (w2, t', none)) :
    handleAlert env cfg status alert w = (w2, some (successResult cfg status alert t)) := by
  simp [handleAlert, hg, hp, ht, successResult]

/-- The runs of one iteration on an allocated cache: the lookup fails; the
dispatch fails; a first sighting is dispatched and stored; an alert with a
thread is dispatched as a reply. -/
theorem handleAlert_cases (env : Env) (cfg : Config) (status : String) (alert : Alert)
    (w : World) (h : w.threadCache.allocated = true) :
    (∃ t e, (storeGetTs env cfg (threadKey cfg alert.Labels) w).2 = some (t, some e)
        ∧ handleAlert env cfg status alert w
          = ((storeGetTs env cfg (threadKey cfg alert.Labels) w).1,
              some (errorResult (threadKey cfg alert.Labels) e)))
    ∨ (∃ t e, e ≠ ""
        ∧ (storeGetTs env cfg (threadKey cfg alert.Labels) w).2 = some (t, none)
        ∧ handleAlert env cfg status alert w
          = ((storeGetTs env cfg (threadKey cfg alert.Labels) w).1.tick
                (Event.slackPost t true),
              some (errorResult (threadKey cfg alert.Labels) e)))
    ∨ (∃ ts err w3,
        (storeGetTs env cfg (threadKey cfg alert.Labels) w).2 = some ("", none)
        ∧ (env.http (storeGetTs env cfg (threadKey cfg alert.Labels) w).1.clock).succeedsWith ts
        ∧ storeSetTs env cfg (threadKey cfg alert.Labels) ts
            ((storeGetTs env cfg (threadKey cfg alert.Labels) w).1.tick
              (Event.slackPost "" false)) = (w3, some err)
        ∧ handleAlert env cfg status alert w
          = (w3, some (successResult cfg status alert ts)))
    ∨ (∃ t ts, t ≠ ""
        ∧ (storeGetTs env cfg (threadKey cfg alert.Labels) w).2 = some (t, none)
        ∧ (env.http (storeGetTs env cfg (threadKey cfg alert.Labels) w).1.clock).succeedsWith ts
        ∧ handleAlert env cfg status alert w
          = ((storeGetTs env cfg (threadKey cfg alert.Labels) w).1.tick
                (Event.slackPost t false),
              some (successResult cfg status alert t))) := by
  obtain ⟨⟨r, hr⟩, hal⟩ := storeGetTs_returns env cfg (threadKey cfg alert.Labels) w h
  obtain ⟨t, eo⟩ := r
  have hg : storeGetTs env cfg (threadKey cfg alert.Labels) w
      = ((storeGetTs env cfg (threadKey cfg alert.Labels) w).1, some (t, eo)) :=
    Prod.ext rfl hr
  cases eo with
  | some e =>
    exact Or.inl ⟨t, e, hr, handleAlert_lookup_error env cfg status alert w _ t e hg⟩
  | none =>
    rcases slackPostMessage_cases env t (storeGetTs env cfg (threadKey cfg alert.Labels) w).1
      with ⟨e, he, hp⟩ | ⟨ts, hsucc, hp⟩
    · exact Or.inr (Or.inl ⟨t, e, he, hr,
        handleAlert_dispatch_error env cfg status alert w _ _ t "" e hg hp⟩)
    · by_cases ht : t = ""
      · subst ht
        obtain ⟨entries, hc⟩ : ∃ entries,
            ((storeGetTs env cfg (threadKey cfg alert.Labels) w).1.tick
              (Event.slackPost "" false)).threadCache = .alloc entries := by
          cases hcc : (storeGetTs env cfg (threadKey cfg alert.Labels) w).1.threadCache with
          | nilMap => rw [hcc] at hal; simp [GoMap.allocated] at hal
          | alloc entries => exact ⟨entries, by simp [World.tick, hcc]⟩
        obtain ⟨w3, err, evs, hs, _⟩ := storeSetTs_alloc env cfg (threadKey cfg alert.Labels) ts
          _ entries hc
        exact Or.inr (Or.inr (Or.inl ⟨ts, err, w3, hr, hsucc, hs,
          handleAlert_new_thread env cfg status alert w _ _ w3 ts err hg hp hs⟩))
      · exact Or.inr (Or.inr (Or.inr ⟨t, ts, ht, hr, hsucc,
          handleAlert_reply env cfg status alert w _ _ t ts ht hg hp⟩))

/-- A first sighting whose dispatch succeeds: one dispatch without thread
identifier, one store-set call with the key and the new identifier, and a
success result carrying them. -/
theorem handleAlert_first_sighting (env : Env) (cfg : Config) (status : String)
    (alert : Alert) (w : World) (entries : List (String × String)) (ts : String)
    (hc : w.threadCache = .alloc entries)
    (hg : (storeGetTs env cfg (threadKey cfg alert.Labels) w).2 = some ("", none))
    (hs : (env.http (storeGetTs env cfg (threadKey cfg alert.Labels) w).1.clock).succeedsWith ts) :
    ∃ w3 evs, handleAlert env cfg status alert w
          = (w3, some (successResult cfg status alert ts))
      ∧ w3.threadCache = .alloc (putEntry entries (threadKey cfg alert.Labels) ts)
      ∧ (w3.remote = w.remote
          ∨ ((cfg.threadStore = "redis" ∧ cfg.redisClient = true)
              ∧ w3.remote = putEntry w.remote
                  (cfg.redisKeyPrefix ++ ":" ++ threadKey cfg alert.Labels) ts))
      ∧ w3.trace = w.trace ++ evs
      ∧ dispatches evs = [""] ∧ storeSets evs = [(threadKey cfg alert.Labels, ts)]
      ∧ countPosts false evs = 1 ∧ countPosts true evs = 0 ∧ countFailedGets evs = 0 := by
  have hgw : storeGetTs env cfg (threadKey cfg alert.Labels) w
      = ((storeGetTs env cfg (threadKey cfg alert.Labels) w).1, some ("", none)) :=
    Prod.ext rfl hg
  obtain ⟨hcache, _⟩ := storeGetTs_absent env cfg _ w none hg
  obtain ⟨hrem, _, _⟩ := storeGetTs_frame env cfg (threadKey cfg alert.Labels) w
  obtain ⟨gevs, hgt, hgd, hgs, hgp, hgf⟩ := storeGetTs_trace env cfg (threadKey cfg alert.Labels) w
  rw [hg] at hgf
  have hp := slackPostMessage_success env "" ts _ hs
  have hc2 : ((storeGetTs env cfg (threadKey cfg alert.Labels) w).1.tick
      (Event.slackPost "" false)).threadCache = .alloc entries := by
    simp [World.tick, hcache, hc]
  obtain ⟨w3, err, sevs, hset, hc3, hr3, ht3, hd3, hs3, hp3, hf3⟩ :=
    storeSetTs_alloc env cfg (threadKey cfg alert.Labels) ts _ entries hc2
  refine ⟨w3, gevs ++ Event.slackPost "" false :: Event.storeSet (threadKey cfg alert.Labels) ts
    :: sevs, handleAlert_new_thread env cfg status alert w _ _ w3 ts err hgw hp hset, hc3, ?_,
    ?_, ?_, ?_, ?_, ?_, ?_⟩
  · simpa [World.tick, hrem] using hr3
  · rw [ht3]
    simp [World.tick, hgt]
  · simp [dispatches_append, hgd, dispatches, hd3]
  · simp [storeSets_append, hgs, storeSets, hs3]
  · simp [countPosts_append, hgp, countPosts, hp3]
  · simp [countPosts_append, hgp, countPosts, hp3]
  · simp [countFailedGets_append, countFailedGets, hf3] at hgf ⊢
    exact hgf

end GoAdvanced

namespace GoAdvanced

/-- The key as first field and rest. -/
theorem threadKey_split (cfg : Config) (labels : GoMap) :
    ∃ rest, threadKey cfg labels = labelOr labels "alertname" "unknown" ++ "|" ++ rest := by
  refine ⟨labelOr labels "severity" "info" ++ "|" ++ labelOr labels "service" "unknown"
    ++ "|" ++ labelOr labels "cluster" "default" ++ "|" ++ cfg.environment, ?_⟩
  simp only [threadKey, labelOr_eq, String.append_assoc]

/-- C1: two label maps whose lookups of alertname, severity, service and
cluster agree get the same key under the same environment, whatever else
they hold. -/
theorem C1_threadKey_agree (cfg : Config) (l1 l2 : GoMap)
    (hname : l1.index "alertname" = l2.index "alertname")
    (hsev : l1.index "severity" = l2.index "severity")
    (hsvc : l1.index "service" = l2.index "service")
    (hclu : l1.index "cluster" = l2.index "cluster") :
    threadKey cfg l1 = threadKey cfg l2 := by
  simp only [threadKey, hname, hsev, hsvc, hclu]

/-- C1 at two alerts that differ in `instance` and `job` only. -/
theorem C1_threadKey_agree_witness :
    threadKey fileConfig
        (.alloc [("alertname", "DiskFull"), ("severity", "critical"), ("instance", "web-1")])
      = threadKey fileConfig
        (.alloc [("job", "node"), ("severity", "critical"), ("alertname", "DiskFull")]) :=
  C1_threadKey_agree fileConfig _ _ (by decide) (by decide) (by decide) (by decide)

/-- C2: the key is name, severity, service, cluster and environment joined by
bars in this order, an absent or empty label being replaced by its default
("unknown", "info", "unknown", "default"); the nil label map gets the key of
the four defaults. The function is total. -/
theorem C2_threadKey_shape (cfg : Config) (labels : GoMap) :
    threadKey cfg labels
        = labelOr labels "alertname" "unknown" ++ "|" ++ labelOr labels "severity" "info"
          ++ "|" ++ labelOr labels "service" "unknown" ++ "|"
          ++ labelOr labels "cluster" "default" ++ "|" ++ cfg.environment
      ∧ threadKey cfg .nilMap = "unknown|info|unknown|default|" ++ cfg.environment := by
  constructor
  · simp only [threadKey, labelOr_eq]
  · simp only [threadKey, GoMap.index, if_true, String.append_assoc]
    rfl

/-- C3, as stated, fails: an empty alertname and the alertname "unknown" are
distinct labels with one key, and so are "cpu|warn" (severity "x") and "cpu"
(severity "warn|x"); a batch of the first two alerts on an empty store with a
succeeding dispatcher leaves one entry in the store. -/
theorem C3_distinct_alertname_counterexample :
    ((GoMap.alloc [("alertname", "")]).index "alertname"
        ≠ (GoMap.alloc [("alertname", "unknown")]).index "alertname"
      ∧ threadKey fileConfig (.alloc [("alertname", "")])
        = threadKey fileConfig (.alloc [("alertname", "unknown")]))
    ∧ ((GoMap.alloc [("alertname", "cpu|warn"), ("severity", "x")]).index "alertname"
        ≠ (GoMap.alloc [("alertname", "cpu"), ("severity", "warn|x")]).index "alertname"
      ∧ threadKey fileConfig (.alloc [("alertname", "cpu|warn"), ("severity", "x")])
        = threadKey fileConfig (.alloc [("alertname", "cpu"), ("severity", "warn|x")]))
    ∧ (alertHandler calmEnv fileConfig
          (some { Status := "firing", GroupKey := "",
                  Alerts := [{ Labels := .alloc [("alertname", "")], Annotations := .nilMap,
                               StartsAt := "", EndsAt := "" },
                             { Labels := .alloc [("alertname", "unknown")],
                               Annotations := .nilMap, StartsAt := "", EndsAt := "" }] })
          freshWorld).1.threadCache
        = .alloc [("unknown|info|unknown|default|staging", "ts-0")] := by
  refine ⟨⟨by decide, by decide⟩, ⟨by decide, by decide⟩, by decide⟩

/-- C3, amended: two alerts whose alertname values after defaulting (absent
or empty counts as "unknown") are distinct and hold no bar get two different
keys; and a batch holding both, processed on an empty store whose lookups do
not fail with a dispatcher that succeeds, is answered with two results and
leaves exactly the two keys in the cache, each with the identifier that its
dispatch returned. -/
theorem C3_distinct_alertname_keys (cfg : Config) (a1 a2 : Alert)
    (hne : labelOr a1.Labels "alertname" "unknown" ≠ labelOr a2.Labels "alertname" "unknown")
    (hb1 : hasBar (labelOr a1.Labels "alertname" "unknown") = false)
    (hb2 : hasBar (labelOr a2.Labels "alertname" "unknown") = false) :
    threadKey cfg a1.Labels ≠ threadKey cfg a2.Labels
      ∧ ∀ (env : Env) (status groupKey : String) (w : World),
          w.threadCache = GoMap.make → w.remote = [] →
          (∀ n, env.redisGet n = none) → (∀ n, ∃ ts, (env.http n).succeedsWith ts) →
          ∃ ts1 ts2 w',
            alertHandler env cfg
                (some { Status := status, GroupKey := groupKey, Alerts := [a1, a2] }) w
              = (w', .ok { OK := true, Count := 2, Status := status,
                           Results := [successResult cfg status a1 ts1,
                                       successResult cfg status a2 ts2],
                           Error := "" })
            ∧ w'.threadCache
                = .alloc [(threadKey cfg a1.Labels, ts1), (threadKey cfg a2.Labels, ts2)]
            ∧ w'.threadCache.len = 2
            ∧ dispatches (eventsSince w.trace w'.trace) = ["", ""]
            ∧ storeSets (eventsSince w.trace w'.trace)
                = [(threadKey cfg a1.Labels, ts1), (threadKey cfg a2.Labels, ts2)] := by
  have hk : threadKey cfg a1.Labels ≠ threadKey cfg a2.Labels := by
    intro he
    obtain ⟨r1, h1⟩ := threadKey_split cfg a1.Labels
    obtain ⟨r2, h2⟩ := threadKey_split cfg a2.Labels
    rw [h1, h2] at he
    exact hne (first_field_eq _ _ r1 r2 hb1 hb2 he)
  refine ⟨hk, ?_⟩
  intro env status groupKey w hcache hremote hget hpost
  have hc : w.threadCache = .alloc [] := hcache
  -- first alert
  have hg1 : (storeGetTs env cfg (threadKey cfg a1.Labels) w).2 = some ("", none) :=
    storeGetTs_miss env cfg _ w (by simp [hc, GoMap.index]) (hget _) (by simp [hremote])
  obtain ⟨ts1, hs1⟩ := hpost (storeGetTs env cfg (threadKey cfg a1.Labels) w).1.clock
  obtain ⟨w3, evs1, heq1, hc3, hr3, ht3, hd1, hss1, _⟩ :=
    handleAlert_first_sighting env cfg status a1 w [] ts1 hc hg1 hs1
  -- second alert
  have hidx : w3.threadCache.index (threadKey cfg a2.Labels) = "" := by
    rw [hc3, index_putEntry]
    simp [Ne.symm hk, GoMap.index]
  have hrk : cfg.redisKeyPrefix ++ ":" ++ threadKey cfg a2.Labels
      ≠ cfg.redisKeyPrefix ++ ":" ++ threadKey cfg a1.Labels :=
    fun he => hk (append_left_cancel_str _ _ _ he).symm
  have hlk : w3.remote.lookup (cfg.redisKeyPrefix ++ ":" ++ threadKey cfg a2.Labels) = none := by
    rcases hr3 with hr | ⟨_, hr⟩
    · simp [hr, hremote]
    · rw [hr, lookup_putEntry]
      simp [hrk, hremote]
  have hg2 : (storeGetTs env cfg (threadKey cfg a2.Labels) w3).2 = some ("", none) :=
    storeGetTs_miss env cfg _ w3 hidx (hget _) hlk
  obtain ⟨ts2, hs2⟩ := hpost (storeGetTs env cfg (threadKey cfg a2.Labels) w3).1.clock
  obtain ⟨w5, evs2, heq2, hc5, _, ht5, hd2, hss2, _⟩ :=
    handleAlert_first_sighting env cfg status a2 w3 _ ts2 hc3 hg2 hs2
  have hput : putEntry (putEntry [] (threadKey cfg a1.Labels) ts1) (threadKey cfg a2.Labels) ts2
      = [(threadKey cfg a1.Labels, ts1), (threadKey cfg a2.Labels, ts2)] := by
    simp [putEntry, hk]
  refine ⟨ts1, ts2, w5, ?_, ?_, ?_, ?_, ?_⟩
  · simp [alertHandler, handleAlerts, heq1, heq2]
  · rw [hc5, hput]
  · rw [hc5, hput]
    simp [GoMap.len, effectiveEntries, Ne.symm hk]
  · rw [ht5, ht3, List.append_assoc, eventsSince_append, dispatches_append, hd1, hd2]
    rfl
  · rw [ht5, ht3, List.append_assoc, eventsSince_append, storeSets_append, hss1, hss2]
    rfl

/-- C3 (amended) at the alerts `diskFull` and `cpuHigh`, with the redis backend
and a fresh process. -/
theorem C3_distinct_alertname_keys_witness :
    threadKey redisConfig diskFull.Labels ≠ threadKey redisConfig cpuHigh.Labels
      ∧ ∃ ts1 ts2 w',
          alertHandler calmEnv redisConfig
              (some { Status := "firing", GroupKey := "", Alerts := [diskFull, cpuHigh] })
              freshWorld
            = (w', .ok { OK := true, Count := 2, Status := "firing",
                         Results := [successResult redisConfig "firing" diskFull ts1,
                                     successResult redisConfig "firing" cpuHigh ts2],
                         Error := "" })
          ∧ w'.threadCache
              = .alloc [(threadKey redisConfig diskFull.Labels, ts1),
                        (threadKey redisConfig cpuHigh.Labels, ts2)]
          ∧ w'.threadCache.len = 2
          ∧ dispatches (eventsSince freshWorld.trace w'.trace) = ["", ""]
          ∧ storeSets (eventsSince freshWorld.trace w'.trace)
              = [(threadKey redisConfig diskFull.Labels, ts1),
                 (threadKey redisConfig cpuHigh.Labels, ts2)] :=
  ⟨(C3_distinct_alertname_keys redisConfig diskFull cpuHigh
      (by decide) (by decide) (by decide)).1,
   (C3_distinct_alertname_keys redisConfig diskFull cpuHigh
      (by decide) (by decide) (by decide)).2 calmEnv "firing" "" freshWorld rfl rfl
      (fun _ => rfl) (fun _ => ⟨_, _, _, _, rfl⟩)⟩

/-- A lookup that returns absent with the remote store configured found
nothing or the empty string there. -/
theorem storeGetTs_absent_remote (env : Env) (cfg : Config) (key : String) (w : World)
    (h : (storeGetTs env cfg key w).2 = some ("", none))
    (hr : cfg.threadStore = "redis" ∧ cfg.redisClient = true) :
    w.remote.lookup (cfg.redisKeyPrefix ++ ":" ++ key) = none
      ∨ w.remote.lookup (cfg.redisKeyPrefix ++ ":" ++ key) = some "" := by
  rcases storeGetTs_cases env cfg key w with
    ⟨h1, h'⟩ | ⟨h1, h2, h'⟩ | ⟨h1, _, e, _, h'⟩ | ⟨h1, _, _, hl, h'⟩
      | ⟨h1, _, _, v, es, hv, hc, _, h'⟩ | ⟨hn, h'⟩
  · rw [h'] at h; simp at h; exact absurd h h1
  · exact absurd hr h2
  · rw [h'] at h; simp at h
  · exact hl
  · rw [h'] at h; simp at h; exact absurd h hv
  · rw [h'] at h; simp at h

/-- C4, as stated, fails for the empty thread id with the redis backend:
after a set whose remote write is refused the lookup returns the older thread
the remote store holds, and when the remote lookup fails it returns an error. -/
theorem C4_get_after_set_counterexample :
    ((storeSetTs refusedWrites redisConfig "k" "" staleRemote).2
        = some (some "Redis 저장 실패: connection refused")
      ∧ (storeGetTs refusedWrites redisConfig "k"
          (storeSetTs refusedWrites redisConfig "k" "" staleRemote).1).2
        = some ("1700000000.000100", none))
    ∧ ((storeSetTs lookupTimeouts redisConfig "k" "" freshWorld).2 = some none
      ∧ (storeGetTs lookupTimeouts redisConfig "k"
          (storeSetTs lookupTimeouts redisConfig "k" "" freshWorld).1).2
        = some ("", some "Redis 조회 실패: i/o timeout")) := by
  refine ⟨⟨by decide, by decide⟩, ⟨by decide, by decide⟩⟩

/-- C4, amended: on an allocated cache, for every key and every non-empty
thread id, with any backend and whatever becomes of the persistence step, the
set returns and the lookup right after it returns the thread id with no error
and changes nothing; for the empty thread id the same holds when the backend
is not redis. -/
theorem C4_get_after_set (env : Env) (cfg : Config) (k v : String) (w : World)
    (halloc : w.threadCache.allocated = true)
    (hv : v ≠ "" ∨ ¬ (cfg.threadStore = "redis" ∧ cfg.redisClient = true)) :
    (∃ err, (storeSetTs env cfg k v w).2 = some err)
      ∧ storeGetTs env cfg k (storeSetTs env cfg k v w).1
          = ((storeSetTs env cfg k v w).1, some (v, none)) := by
  obtain ⟨entries, hc, _⟩ := assign_of_allocated w.threadCache k v halloc
  obtain ⟨w', err, evs, hset, hc', _⟩ := storeSetTs_alloc env cfg k v w entries hc
  have hidx : w'.threadCache.index k = v := by
    rw [hc', index_putEntry]
    simp
  rw [hset]
  refine ⟨⟨err, rfl⟩, ?_⟩
  by_cases hve : v = ""
  · rcases hv with hv | hv
    · exact absurd hve hv
    · subst hve
      simp [storeGetTs, hidx, hv]
  · have := storeGetTs_hit env cfg k w' (by rw [hidx]; exact hve)
    rw [this, hidx]

/-- C4 (amended) with the redis backend and a refused remote write. -/
theorem C4_get_after_set_witness :
    (∃ err, (storeSetTs refusedWrites redisConfig "k" "1700000000.000200" staleRemote).2
        = some err)
      ∧ storeGetTs refusedWrites redisConfig "k"
          (storeSetTs refusedWrites redisConfig "k" "1700000000.000200" staleRemote).1
        = ((storeSetTs refusedWrites redisConfig "k" "1700000000.000200" staleRemote).1,
            some ("1700000000.000200", none)) :=
  C4_get_after_set refusedWrites redisConfig "k" "1700000000.000200" staleRemote rfl
    (Or.inl (by decide))

/-- On an allocated cache, for an alert whose key has no thread in the store
(the lookup returns absent, without error), when the dispatch succeeds with
the thread id `ts`: the iteration makes exactly one dispatch call, with the
empty thread identifier, exactly one store-set call, with the key and `ts`,
and appends a result that carries the key, `ts`, the batch status and no
error. -/
theorem first_sighting_calls (env : Env) (cfg : Config) (status : String) (alert : Alert)
    (w : World) (ts : String)
    (halloc : w.threadCache.allocated = true)
    (habsent : (storeGetTs env cfg (threadKey cfg alert.Labels) w).2 = some ("", none))
    (hok : (env.http (storeGetTs env cfg (threadKey cfg alert.Labels) w).1.clock).succeedsWith ts) :
    ∃ w' r, handleAlert env cfg status alert w = (w', some r)
      ∧ dispatches (eventsSince w.trace w'.trace) = [""]
      ∧ storeSets (eventsSince w.trace w'.trace) = [(threadKey cfg alert.Labels, ts)]
      ∧ r.Key = threadKey cfg alert.Labels ∧ r.ThreadTS = ts ∧ r.Status = status
      ∧ r.Error = "" := by
  obtain ⟨entries, hc, _⟩ := assign_of_allocated w.threadCache "" "" halloc
  obtain ⟨w3, evs, heq, _, _, ht, hd, hs, _⟩ :=
    handleAlert_first_sighting env cfg status alert w entries ts hc habsent hok
  refine ⟨w3, _, heq, ?_, ?_, rfl, rfl, rfl, rfl⟩
  · rw [ht, eventsSince_append, hd]
  · rw [ht, eventsSince_append, hs]

/-- The first end-to-end scenario: `diskFull` on a fresh process with the file
backend. -/
theorem first_sighting_calls_example :
    ∃ w' r, handleAlert calmEnv fileConfig "firing" diskFull freshWorld = (w', some r)
      ∧ dispatches (eventsSince freshWorld.trace w'.trace) = [""]
      ∧ storeSets (eventsSince freshWorld.trace w'.trace)
          = [(threadKey fileConfig diskFull.Labels, "ts-0")]
      ∧ r.Key = threadKey fileConfig diskFull.Labels ∧ r.ThreadTS = "ts-0"
      ∧ r.Status = "firing" ∧ r.Error = "" :=
  first_sighting_calls calmEnv fileConfig "firing" diskFull freshWorld "ts-0" rfl (by decide)
    ⟨200, "", "", by decide⟩

/-- C5, the code at the failing input: a process with the file backend that
loaded a snapshot file holding `null` and is sent `diskFull` for the first
time. The key has no thread in the store and the dispatch succeeds: one call,
without thread identifier, answered with `ts-1`. `storeSetTs` is then called
with the key and `ts-1` and panics on the nil cache, so the iteration appends
no result. -/
theorem C5_first_sighting_nil_cache :
    (loadCacheFile calmEnv fileConfig nullSnapshot).2 = .loaded 0
      ∧ (storeGetTs calmEnv fileConfig (threadKey fileConfig diskFull.Labels)
          (loadCacheFile calmEnv fileConfig nullSnapshot).1).2 = some ("", none)
      ∧ (slackPostMessage calmEnv "" (loadCacheFile calmEnv fileConfig nullSnapshot).1).2
          = ("ts-1", none)
      ∧ (handleAlert calmEnv fileConfig "firing" diskFull
          (loadCacheFile calmEnv fileConfig nullSnapshot).1).2 = none
      ∧ dispatches (eventsSince (loadCacheFile calmEnv fileConfig nullSnapshot).1.trace
          (handleAlert calmEnv fileConfig "firing" diskFull
            (loadCacheFile calmEnv fileConfig nullSnapshot).1).1.trace) = [""]
      ∧ storeSets (eventsSince (loadCacheFile calmEnv fileConfig nullSnapshot).1.trace
          (handleAlert calmEnv fileConfig "firing" diskFull
            (loadCacheFile calmEnv fileConfig nullSnapshot).1).1.trace)
          = [(threadKey fileConfig diskFull.Labels, "ts-1")] := by
  refine ⟨by decide, by decide, by decide, by decide, by decide, by decide⟩

/-- C6, as stated, fails when the remote lookup fails: on a fresh process with
the redis backend, an empty remote store and lookups that time out, the same
alert sent twice (firing, then resolved) is answered twice with an error
result and no dispatch call is made; the store has no thread for the key
afterwards. -/
theorem C6_replay_counterexample :
    freshWorld.remote = []
      ∧ (alertHandler lookupTimeouts redisConfig
          (some { Status := "firing", GroupKey := "", Alerts := [diskFull] }) freshWorld).2
          = .ok { OK := true, Count := 1, Status := "firing",
                  Results := [errorResult (threadKey redisConfig diskFull.Labels)
                    "Redis 조회 실패: i/o timeout"], Error := "" }
      ∧ (alertHandler lookupTimeouts redisConfig
          (some { Status := "resolved", GroupKey := "", Alerts := [diskFull] })
          (alertHandler lookupTimeouts redisConfig
            (some { Status := "firing", GroupKey := "", Alerts := [diskFull] })
            freshWorld).1).2
          = .ok { OK := true, Count := 1, Status := "resolved",
                  Results := [errorResult (threadKey redisConfig diskFull.Labels)
                    "Redis 조회 실패: i/o timeout"], Error := "" }
      ∧ dispatches (serve lookupTimeouts redisConfig
          [some { Status := "firing", GroupKey := "", Alerts := [diskFull] },
           some { Status := "resolved", GroupKey := "", Alerts := [diskFull] }]
          freshWorld).trace = []
      ∧ (serve lookupTimeouts redisConfig
          [some { Status := "firing", GroupKey := "", Alerts := [diskFull] },
           some { Status := "resolved", GroupKey := "", Alerts := [diskFull] }]
          freshWorld).threadCache.index (threadKey redisConfig diskFull.Labels) = ""
      ∧ (serve lookupTimeouts redisConfig
          [some { Status := "firing", GroupKey := "", Alerts := [diskFull] },
           some { Status := "resolved", GroupKey := "", Alerts := [diskFull] }]
          freshWorld).remote = [] := by
  refine ⟨by decide, by decide, by decide, by decide, by decide, by decide⟩

/-- C6, amended: on an allocated cache, the same alert processed twice in
sequence when the lookup of the first request returns absent without error,
with a dispatcher that succeeds on every call and returns the non-empty
thread id `t` on the first: both requests are answered with one success
result reporting `t`; there are exactly two dispatch calls, the first without
thread identifier and the second with `t`; the only store-set call is
`(key, t)`; afterwards the cache maps the key to `t`, and with the redis backend
the remote entry of the key holds `t` or no thread id. -/
theorem C6_replay (env : Env) (cfg : Config) (alert : Alert) (s1 s2 g1 g2 : String)
    (w : World) (t : String)
    (halloc : w.threadCache.allocated = true)
    (habsent : (storeGetTs env cfg (threadKey cfg alert.Labels) w).2 = some ("", none))
    (hfirst : (env.http (storeGetTs env cfg (threadKey cfg alert.Labels) w).1.clock).succeedsWith t)
    (ht : t ≠ "")
    (hsucc : ∀ n, ∃ ts, (env.http n).succeedsWith ts) :
    ∃ w1 w2,
      alertHandler env cfg (some { Status := s1, GroupKey := g1, Alerts := [alert] }) w
        = (w1, .ok { OK := true, Count := 1, Status := s1,
                     Results := [successResult cfg s1 alert t], Error := "" })
      ∧ alertHandler env cfg (some { Status := s2, GroupKey := g2, Alerts := [alert] }) w1
        = (w2, .ok { OK := true, Count := 1, Status := s2,
                     Results := [successResult cfg s2 alert t], Error := "" })
      ∧ serve env cfg [some { Status := s1, GroupKey := g1, Alerts := [alert] },
                       some { Status := s2, GroupKey := g2, Alerts := [alert] }] w = w2
      ∧ dispatches (eventsSince w.trace w2.trace) = ["", t]
      ∧ storeSets (eventsSince w.trace w2.trace) = [(threadKey cfg alert.Labels, t)]
      ∧ w2.threadCache.index (threadKey cfg alert.Labels) = t
      ∧ (cfg.threadStore = "redis" ∧ cfg.redisClient = true →
          ∀ u, w2.remote.lookup (cfg.redisKeyPrefix ++ ":" ++ threadKey cfg alert.Labels)
                = some u → u = t ∨ u = "") := by
  obtain ⟨entries, hc, _⟩ := assign_of_allocated w.threadCache "" "" halloc
  obtain ⟨w3, evs, heq1, hc3, hr3, ht3, hd, hs, _⟩ :=
    handleAlert_first_sighting env cfg s1 alert w entries t hc habsent hfirst
  have hidx : w3.threadCache.index (threadKey cfg alert.Labels) = t := by
    rw [hc3, index_putEntry]
    simp
  have hhit := storeGetTs_hit env cfg (threadKey cfg alert.Labels) w3 (by rw [hidx]; exact ht)
  rw [hidx] at hhit
  obtain ⟨ts', hs'⟩ := hsucc w3.clock
  have hp := slackPostMessage_success env t ts' w3 hs'
  have heq2 := handleAlert_reply env cfg s2 alert w3 w3 _ t ts' ht hhit hp
  have hA1 : alertHandler env cfg (some { Status := s1, GroupKey := g1, Alerts := [alert] }) w
      = (w3, .ok { OK := true, Count := 1, Status := s1,
                   Results := [successResult cfg s1 alert t], Error := "" }) := by
    simp [alertHandler, handleAlerts, heq1]
  have hA2 : alertHandler env cfg (some { Status := s2, GroupKey := g2, Alerts := [alert] }) w3
      = (w3.tick (Event.slackPost t false),
          .ok { OK := true, Count := 1, Status := s2,
                Results := [successResult cfg s2 alert t], Error := "" }) := by
    simp [alertHandler, handleAlerts, heq2]
  refine ⟨w3, w3.tick (Event.slackPost t false), hA1, hA2, ?_, ?_, ?_, ?_, ?_⟩
  · simp [serve, hA1, hA2]
  · simp only [World.tick, ht3, List.append_assoc, eventsSince_append, dispatches_append, hd]
    rfl
  · simp only [World.tick, ht3, List.append_assoc, eventsSince_append, storeSets_append, hs]
    rfl
  · simpa [World.tick] using hidx
  · intro hredis u hu
    have hu' : w3.remote.lookup (cfg.redisKeyPrefix ++ ":" ++ threadKey cfg alert.Labels)
        = some u := by simpa [World.tick] using hu
    rcases hr3 with hr | ⟨_, hr⟩
    · rw [hr] at hu'
      rcases storeGetTs_absent_remote env cfg _ w habsent hredis with hn | hn
      · rw [hn] at hu'
        exact absurd hu' (by simp)
      · rw [hn] at hu'
        exact Or.inr (Option.some.inj hu').symm
    · rw [hr, lookup_putEntry] at hu'
      simp at hu'
      exact Or.inl hu'.symm

/-- C6 (amended) at the first two end-to-end scenarios: `diskFull` firing, then resolved,
on a fresh process with the redis backend. -/
theorem C6_replay_witness :
    ∃ w1 w2,
      alertHandler calmEnv redisConfig
          (some { Status := "firing", GroupKey := "", Alerts := [diskFull] }) freshWorld
        = (w1, .ok { OK := true, Count := 1, Status := "firing",
                     Results := [successResult redisConfig "firing" diskFull "ts-1"],
                     Error := "" })
      ∧ alertHandler calmEnv redisConfig
          (some { Status := "resolved", GroupKey := "", Alerts := [diskFull] }) w1
        = (w2, .ok { OK := true, Count := 1, Status := "resolved",
                     Results := [successResult redisConfig "resolved" diskFull "ts-1"],
                     Error := "" })
      ∧ serve calmEnv redisConfig
          [some { Status := "firing", GroupKey := "", Alerts := [diskFull] },
           some { Status := "resolved", GroupKey := "", Alerts := [diskFull] }] freshWorld = w2
      ∧ dispatches (eventsSince freshWorld.trace w2.trace) = ["", "ts-1"]
      ∧ storeSets (eventsSince freshWorld.trace w2.trace)
          = [(threadKey redisConfig diskFull.Labels, "ts-1")]
      ∧ w2.threadCache.index (threadKey redisConfig diskFull.Labels) = "ts-1"
      ∧ (redisConfig.threadStore = "redis" ∧ redisConfig.redisClient = true →
          ∀ u, w2.remote.lookup
                (redisConfig.redisKeyPrefix ++ ":" ++ threadKey redisConfig diskFull.Labels)
                = some u → u = "ts-1" ∨ u = "") :=
  C6_replay calmEnv redisConfig diskFull "firing" "resolved" "" "" freshWorld "ts-1" rfl
    (by decide) ⟨200, "", "", by decide⟩ (by decide) (fun _ => ⟨_, _, _, _, rfl⟩)

/-! ### Whole batches -/

theorem failureEntries_append (xs ys : List AlertResult) :
    failureEntries (xs ++ ys) = failureEntries xs + failureEntries ys := by
  induction xs with
  | nil => simp [failureEntries]
  | cons r rest ih => simp [failureEntries, ih, Nat.add_assoc]

theorem successEntries_append (xs ys : List AlertResult) :
    successEntries (xs ++ ys) = successEntries xs + successEntries ys := by
  induction xs with
  | nil => simp [successEntries]
  | cons r rest ih => simp [successEntries, ih, Nat.add_assoc]

/-- One iteration on an allocated cache returns one result, for the key of the
alert: a failure for one failed dispatch or lookup, or a success for one
successful dispatch. -/
theorem handleAlert_summary (env : Env) (cfg : Config) (status : String) (alert : Alert)
    (w : World) (h : w.threadCache.allocated = true) :
    ∃ w' r evs, handleAlert env cfg status alert w = (w', some r)
      ∧ w'.threadCache.allocated = true
      ∧ r.Key = threadKey cfg alert.Labels
      ∧ w'.trace = w.trace ++ evs
      ∧ failureEntries [r] = countPosts true evs + countFailedGets evs
      ∧ successEntries [r] = countPosts false evs := by
  obtain ⟨_, hal⟩ := storeGetTs_returns env cfg (threadKey cfg alert.Labels) w h
  obtain ⟨gevs, hgt, _, _, hgp, hgf⟩ := storeGetTs_trace env cfg (threadKey cfg alert.Labels) w
  rcases handleAlert_cases env cfg status alert w h with
    ⟨t, e, hg, heq⟩ | ⟨t, e, he, hg, heq⟩ | ⟨ts, err, w3, hg, hs, hset, heq⟩
      | ⟨t, ts, ht, hg, hs, heq⟩
  · rw [hg] at hgf
    obtain ⟨_, hene⟩ := storeGetTs_error env cfg _ w t e hg
    refine ⟨_, _, gevs, heq, hal, rfl, hgt, ?_, ?_⟩
    · simp [failureEntries, errorResult, hene, hgp, hgf]
    · simp [successEntries, errorResult, hene, hgp]
  · rw [hg] at hgf
    refine ⟨_, _, gevs ++ [Event.slackPost t true], heq, by simpa [World.tick] using hal, rfl,
      by simp [World.tick, hgt], ?_, ?_⟩
    · simp [failureEntries, errorResult, he, countPosts_append, countFailedGets_append, hgp,
        hgf, countPosts, countFailedGets]
    · simp [successEntries, errorResult, he, countPosts_append, hgp, countPosts]
  · rw [hg] at hgf
    obtain ⟨entries, hc⟩ : ∃ entries,
        ((storeGetTs env cfg (threadKey cfg alert.Labels) w).1.tick
          (Event.slackPost "" false)).threadCache = .alloc entries := by
      cases hcc : (storeGetTs env cfg (threadKey cfg alert.Labels) w).1.threadCache with
      | nilMap => rw [hcc] at hal; simp [GoMap.allocated] at hal
      | alloc entries => exact ⟨entries, by simp [World.tick, hcc]⟩
    obtain ⟨w3', err', sevs, hset', hc3, _, ht3, _, _, hp3, hf3⟩ :=
      storeSetTs_alloc env cfg (threadKey cfg alert.Labels) ts _ entries hc
    rw [hset] at hset'
    obtain ⟨hw3, _⟩ := Prod.mk.inj hset'
    subst hw3
    refine ⟨_, _, gevs ++ Event.slackPost "" false
      :: Event.storeSet (threadKey cfg alert.Labels) ts :: sevs, heq,
      by simp [hc3, GoMap.allocated], rfl, by simp [ht3, World.tick, hgt], ?_, ?_⟩
    · simp [failureEntries, successResult, countPosts_append, countFailedGets_append, hgp,
        hgf, countPosts, countFailedGets, hp3, hf3]
    · simp [successEntries, successResult, countPosts_append, hgp, countPosts, hp3]
  · rw [hg] at hgf
    refine ⟨_, _, gevs ++ [Event.slackPost t false], heq, by simpa [World.tick] using hal, rfl,
      by simp [World.tick, hgt], ?_, ?_⟩
    · simp [failureEntries, successResult, countPosts_append, countFailedGets_append, hgp,
        hgf, countPosts, countFailedGets]
    · simp [successEntries, successResult, countPosts_append, hgp, countPosts]

/-- The loop on an allocated cache runs to its end and appends one result per
alert, in order, each for the key of its alert; the failures are as many as
the failed dispatches and lookups, the successes as many as the successful
dispatches. -/
theorem handleAlerts_summary (env : Env) (cfg : Config) (status : String)
    (alerts : List Alert) :
    ∀ (w : World) (results : List AlertResult), w.threadCache.allocated = true →
      ∃ w' out evs, handleAlerts env cfg status alerts w results = (w', some (results ++ out))
        ∧ w'.threadCache.allocated = true
        ∧ out.map (fun r => r.Key) = alerts.map (fun a => threadKey cfg a.Labels)
        ∧ w'.trace = w.trace ++ evs
        ∧ failureEntries out = countPosts true evs + countFailedGets evs
        ∧ successEntries out = countPosts false evs := by
  induction alerts with
  | nil =>
    intro w results h
    exact ⟨w, [], [], by simp [handleAlerts], h, rfl, by simp,
      by simp [failureEntries, countPosts, countFailedGets],
      by simp [successEntries, countPosts]⟩
  | cons a rest ih =>
    intro w results h
    obtain ⟨w1, r, evs1, heq, hal1, hkey, ht1, hf1, hs1⟩ :=
      handleAlert_summary env cfg status a w h
    obtain ⟨w2, out, evs2, heq2, hal2, hkeys, ht2, hf2, hs2⟩ := ih w1 (results ++ [r]) hal1
    refine ⟨w2, r :: out, evs1 ++ evs2, ?_, hal2, ?_, ?_, ?_, ?_⟩
    · simp [handleAlerts, heq, heq2]
    · simp [hkey, hkeys]
    · rw [ht2, ht1, List.append_assoc]
    · have := failureEntries_append [r] out
      simp only [List.singleton_append] at this
      rw [this, hf1, hf2, countPosts_append, countFailedGets_append]
      omega
    · have := successEntries_append [r] out
      simp only [List.singleton_append] at this
      rw [this, hs1, hs2, countPosts_append]

/-- The handler on a decodable batch and an allocated cache answers with the
results of the loop. -/
theorem alertHandler_summary (env : Env) (cfg : Config) (webhook : AlertWebhook) (w : World)
    (h : w.threadCache.allocated = true) :
    ∃ w' out evs,
      alertHandler env cfg (some webhook) w
        = (w', .ok { OK := true, Count := out.length, Status := webhook.Status,
                     Results := out, Error := "" })
      ∧ w'.threadCache.allocated = true
      ∧ out.map (fun r => r.Key) = webhook.Alerts.map (fun a => threadKey cfg a.Labels)
      ∧ w'.trace = w.trace ++ evs
      ∧ failureEntries out = countPosts true evs + countFailedGets evs
      ∧ successEntries out = countPosts false evs := by
  obtain ⟨w', out, evs, heq, hal, hkeys, ht, hf, hs⟩ :=
    handleAlerts_summary env cfg webhook.Status webhook.Alerts w [] h
  refine ⟨w', out, evs, ?_, hal, hkeys, ht, hf, hs⟩
  simp [alertHandler, heq]

/-- On an allocated cache, for every decodable batch and every behaviour of
the store and of the dispatcher, the handler answers with a response that
holds exactly one result per input alert, in input order: the number of
results and `Count` both equal the number of alerts, and the i-th result
carries the key of the i-th alert. -/
theorem one_result_per_alert (env : Env) (cfg : Config) (webhook : AlertWebhook)
    (w : World) (halloc : w.threadCache.allocated = true) :
    ∃ resp, (alertHandler env cfg (some webhook) w).2 = .ok resp
      ∧ resp.Results.length = webhook.Alerts.length
      ∧ resp.Count = webhook.Alerts.length
      ∧ resp.Results.map (fun r => r.Key)
          = webhook.Alerts.map (fun a => threadKey cfg a.Labels)
      ∧ ∀ i, (resp.Results.get? i).map (fun r => r.Key)
          = (webhook.Alerts.get? i).map (fun a => threadKey cfg a.Labels) := by
  obtain ⟨w', out, evs, heq, _, hkeys, _⟩ := alertHandler_summary env cfg webhook w halloc
  have hlen : out.length = webhook.Alerts.length := by
    have := congrArg List.length hkeys
    simpa using this
  refine ⟨_, by rw [heq], hlen, hlen, hkeys, ?_⟩
  intro i
  have := congrArg (fun l => l.get? i) hkeys
  simpa using this

/-- A batch of two alerts on a fresh process with the redis backend whose
lookups time out. -/
theorem one_result_per_alert_example :
    ∃ resp, (alertHandler lookupTimeouts redisConfig
        (some { Status := "firing", GroupKey := "", Alerts := [diskFull, cpuHigh] })
        freshWorld).2 = .ok resp
      ∧ resp.Results.length = 2
      ∧ resp.Count = 2
      ∧ resp.Results.map (fun r => r.Key)
          = [diskFull, cpuHigh].map (fun a => threadKey redisConfig a.Labels)
      ∧ ∀ i, (resp.Results.get? i).map (fun r => r.Key)
          = ([diskFull, cpuHigh].get? i).map (fun a => threadKey redisConfig a.Labels) :=
  one_result_per_alert lookupTimeouts redisConfig
    { Status := "firing", GroupKey := "", Alerts := [diskFull, cpuHigh] } freshWorld rfl

/-- C9, the code at the failing input: a process with the file backend that
loaded a snapshot file holding `null` and is sent a batch of two first
sightings. The first alert is dispatched, `storeSetTs` panics on the nil
cache, the second alert is never looked at and the handler writes no
response: there is no result for either alert. -/
theorem C9_no_response_nil_cache :
    (loadCacheFile calmEnv fileConfig nullSnapshot).2 = .loaded 0
      ∧ (alertHandler calmEnv fileConfig
          (some { Status := "firing", GroupKey := "", Alerts := [diskFull, cpuHigh] })
          (loadCacheFile calmEnv fileConfig nullSnapshot).1).2 = .panicked
      ∧ (∀ resp, (alertHandler calmEnv fileConfig
          (some { Status := "firing", GroupKey := "", Alerts := [diskFull, cpuHigh] })
          (loadCacheFile calmEnv fileConfig nullSnapshot).1).2 ≠ .ok resp)
      ∧ dispatches (eventsSince (loadCacheFile calmEnv fileConfig nullSnapshot).1.trace
          (alertHandler calmEnv fileConfig
            (some { Status := "firing", GroupKey := "", Alerts := [diskFull, cpuHigh] })
            (loadCacheFile calmEnv fileConfig nullSnapshot).1).1.trace) = [""] := by
  have h : (alertHandler calmEnv fileConfig
      (some { Status := "firing", GroupKey := "", Alerts := [diskFull, cpuHigh] })
      (loadCacheFile calmEnv fileConfig nullSnapshot).1).2 = .panicked := by decide
  refine ⟨by decide, h, fun resp hr => ?_, by decide⟩
  rw [h] at hr
  exact Reply.noConfusion hr

/-! ### Records are kept -/

/-- A lookup keeps every non-empty record of the cache. -/
theorem storeGetTs_keeps (env : Env) (cfg : Config) (key : String) (w : World)
    (k v : String) (hv : v ≠ "") (h : w.threadCache.index k = v) :
    (storeGetTs env cfg key w).1.threadCache.index k = v := by
  rcases storeGetTs_cases env cfg key w with
    ⟨_, h'⟩ | ⟨_, _, h'⟩ | ⟨_, _, e, _, h'⟩ | ⟨_, _, _, _, h'⟩
      | ⟨h1, _, _, u, es, _, hc, _, h'⟩ | ⟨_, h'⟩
  · simp [h', h]
  · simp [h', h]
  · simp [h', h, World.tick]
  · simp [h', h, World.tick]
  · have hk : k ≠ key := by
      intro e
      rw [e, h1] at h
      exact hv h.symm
    rw [h']
    simp only [index_putEntry, hk, if_false]
    rw [← hc]
    exact h
  · simp [h', h, World.tick]

/-- One iteration keeps every non-empty record of the cache. -/
theorem handleAlert_keeps (env : Env) (cfg : Config) (status : String) (alert : Alert)
    (w : World) (k v : String) (hv : v ≠ "") (h : w.threadCache.index k = v) :
    (handleAlert env cfg status alert w).1.threadCache.index k = v := by
  have hal : w.threadCache.allocated = true :=
    allocated_of_index_ne _ k (by rw [h]; exact hv)
  have hg := storeGetTs_keeps env cfg (threadKey cfg alert.Labels) w k v hv h
  rcases handleAlert_cases env cfg status alert w hal with
    ⟨t, e, _, heq⟩ | ⟨t, e, _, _, heq⟩ | ⟨ts, err, w3, hget, _, hset, heq⟩
      | ⟨t, ts, _, _, _, heq⟩
  · rw [heq]
    exact hg
  · rw [heq]
    simpa [World.tick] using hg
  · rw [heq]
    obtain ⟨hcache, hidx⟩ := storeGetTs_absent env cfg _ w none hget
    have hk : k ≠ threadKey cfg alert.Labels := by
      intro e
      rw [e, hidx] at h
      exact hv h.symm
    obtain ⟨entries, hc, _⟩ := assign_of_allocated w.threadCache "" "" hal
    have hc2 : ((storeGetTs env cfg (threadKey cfg alert.Labels) w).1.tick
        (Event.slackPost "" false)).threadCache = .alloc entries := by
      simp [World.tick, hcache, hc]
    obtain ⟨w3', err', sevs, hset', hc3, _⟩ :=
      storeSetTs_alloc env cfg (threadKey cfg alert.Labels) ts _ entries hc2
    rw [hset] at hset'
    obtain ⟨hw3, _⟩ := Prod.mk.inj hset'
    subst hw3
    show w3.threadCache.index k = v
    rw [hc3, index_putEntry]
    simp only [hk, if_false]
    rw [← hc]
    exact h
  · rw [heq]
    simpa [World.tick] using hg

/-- The loop keeps every non-empty record of the cache. -/
theorem handleAlerts_keeps (env : Env) (cfg : Config) (status : String) (alerts : List Alert)
    (k v : String) (hv : v ≠ "") :
    ∀ (w : World) (results : List AlertResult), w.threadCache.index k = v →
      (handleAlerts env cfg status alerts w results).1.threadCache.index k = v := by
  induction alerts with
  | nil => intro w results h; simpa [handleAlerts] using h
  | cons a rest ih =>
    intro w results h
    have h1 := handleAlert_keeps env cfg status a w k v hv h
    cases hr : handleAlert env cfg status a w with
    | mk w1 r =>
      rw [hr] at h1
      cases r with
      | none => simpa [handleAlerts, hr] using h1
      | some r => simpa [handleAlerts, hr] using ih w1 (results ++ [r]) h1

/-- The handler keeps every non-empty record of the cache. -/
theorem alertHandler_keeps (env : Env) (cfg : Config) (body : Option AlertWebhook)
    (w : World) (k v : String) (hv : v ≠ "") (h : w.threadCache.index k = v) :
    (alertHandler env cfg body w).1.threadCache.index k = v := by
  cases body with
  | none => simpa [alertHandler] using h
  | some webhook =>
    have h1 := handleAlerts_keeps env cfg webhook.Status webhook.Alerts k v hv w [] h
    cases hr : handleAlerts env cfg webhook.Status webhook.Alerts w [] with
    | mk w1 r =>
      rw [hr] at h1
      cases r with
      | none => simpa [alertHandler, hr] using h1
      | some r => simpa [alertHandler, hr] using h1

/-- C10: once the cache maps a key to a non-empty thread id it maps the key to
that thread id after every later step, whatever the dispatcher and the backend
do: after any sequence of requests served one after another, and after any
number of alerts of a batch. -/
theorem C10_record_kept (env : Env) (cfg : Config) (w : World) (k v : String)
    (hv : v ≠ "") (h : w.threadCache.index k = v) :
    (∀ requests, (serve env cfg requests w).threadCache.index k = v)
      ∧ (∀ status alerts results,
          (handleAlerts env cfg status alerts w results).1.threadCache.index k = v) := by
  constructor
  · intro requests
    induction requests generalizing w with
    | nil => simpa [serve] using h
    | cons body rest ih =>
      simp only [serve]
      exact ih _ (alertHandler_keeps env cfg body w k v hv h)
  · intro status alerts results
    exact handleAlerts_keeps env cfg status alerts k v hv w results h

/-- C10 at a process that has a thread for `diskFull`, served the same alert
again, an undecodable body, and a batch of two alerts. -/
theorem C10_record_kept_witness :
    (serve calmEnv redisConfig
        [some { Status := "firing", GroupKey := "", Alerts := [diskFull] }, none,
         some { Status := "resolved", GroupKey := "", Alerts := [cpuHigh, diskFull] }]
        knownThread).threadCache.index "DiskFull|critical|unknown|default|staging"
      = "1700000000.000100" :=
  (C10_record_kept calmEnv redisConfig knownThread
    "DiskFull|critical|unknown|default|staging" "1700000000.000100"
    (by decide) (by decide)).1 _

/-! ### Failed dispatches -/

theorem entries_total (rs : List AlertResult) :
    failureEntries rs + successEntries rs = rs.length := by
  induction rs with
  | nil => rfl
  | cons r rest ih =>
    by_cases h : r.Error = ""
    · simp [failureEntries, successEntries, h]
      omega
    · simp [failureEntries, successEntries, h]
      omega

/-- C8, as stated, fails: with the redis backend, an alert whose thread is in
the remote store but not in the cache has the thread copied into the cache by
the lookup; when its dispatch then fails the cache is not as before the alert
(the remote store and the files are). -/
theorem C8_failed_dispatch_counterexample :
    (handleAlert chatDown redisConfig "firing" diskFull remoteThread).2
        = some (errorResult "DiskFull|critical|unknown|default|staging"
            "HTTP 요청 실패: dial tcp: i/o timeout")
      ∧ remoteThread.threadCache = .alloc []
      ∧ (handleAlert chatDown redisConfig "firing" diskFull remoteThread).1.threadCache
          = .alloc [("DiskFull|critical|unknown|default|staging", "1700000000.000100")]
      ∧ (handleAlert chatDown redisConfig "firing" diskFull remoteThread).1.threadCache
          ≠ remoteThread.threadCache := by
  refine ⟨by decide, by decide, by decide, by decide⟩

/-- C8, amended. For an alert whose lookup returned without error and whose
dispatch call fails: no store-set call is made; the remote store and both
files are exactly as before the alert; the cache is as the lookup left it,
that is, as before the alert except for the copy of the remote thread of this
key, and exactly as before when the alert is a first sighting or its thread
was cached; a failed first sighting leaves the key without thread in the
cache and in the remote store; the result carries the key and the (non-empty) error; and the loop goes
on with the remaining alerts. For every batch on an allocated cache the
handler answers with as many failure entries as there were failed dispatches
and lookups and as many success entries as successful dispatches; in
particular a batch of three alerts with one failed dispatch and no failed
lookup yields two success entries and one failure entry. -/
theorem C8_failed_dispatch (env : Env) (cfg : Config) (status : String) (alert : Alert)
    (rest : List Alert) (results : List AlertResult) (w w2 : World) (t t' e : String)
    (hlook : (storeGetTs env cfg (threadKey cfg alert.Labels) w).2 = some (t, none))
    (hfail : slackPostMessage env t (storeGetTs env cfg (threadKey cfg alert.Labels) w).1
        = (w2, t', some e)) :
    (handleAlert env cfg status alert w
        = (w2, some (errorResult (threadKey cfg alert.Labels) e))
      ∧ e ≠ ""
      ∧ storeSets (eventsSince w.trace w2.trace) = []
      ∧ w2.remote = w.remote ∧ w2.storeFile = w.storeFile ∧ w2.tmpFile = w.tmpFile
      ∧ w2.threadCache = (storeGetTs env cfg (threadKey cfg alert.Labels) w).1.threadCache
      ∧ (∀ k, k ≠ threadKey cfg alert.Labels → w2.threadCache.index k = w.threadCache.index k)
      ∧ (t = "" ∨ w.threadCache.index (threadKey cfg alert.Labels) ≠ "" →
          w2.threadCache = w.threadCache)
      ∧ (t = "" → w2.threadCache.index (threadKey cfg alert.Labels) = ""
          ∧ (cfg.threadStore = "redis" ∧ cfg.redisClient = true →
              w2.remote.lookup (cfg.redisKeyPrefix ++ ":" ++ threadKey cfg alert.Labels) = none
              ∨ w2.remote.lookup (cfg.redisKeyPrefix ++ ":" ++ threadKey cfg alert.Labels)
                  = some ""))
      ∧ handleAlerts env cfg status (alert :: rest) w results
          = handleAlerts env cfg status rest w2
              (results ++ [errorResult (threadKey cfg alert.Labels) e]))
    ∧ ∀ (env0 : Env) (webhook : AlertWebhook) (w0 : World),
        w0.threadCache.allocated = true →
        ∃ resp, (alertHandler env0 cfg (some webhook) w0).2 = .ok resp
          ∧ resp.Results.length = webhook.Alerts.length
          ∧ failureEntries resp.Results
              = countPosts true
                  (eventsSince w0.trace (alertHandler env0 cfg (some webhook) w0).1.trace)
                + countFailedGets
                  (eventsSince w0.trace (alertHandler env0 cfg (some webhook) w0).1.trace)
          ∧ successEntries resp.Results
              = countPosts false
                  (eventsSince w0.trace (alertHandler env0 cfg (some webhook) w0).1.trace)
          ∧ (webhook.Alerts.length = 3 →
              countPosts true
                (eventsSince w0.trace (alertHandler env0 cfg (some webhook) w0).1.trace) = 1 →
              countFailedGets
                (eventsSince w0.trace (alertHandler env0 cfg (some webhook) w0).1.trace) = 0 →
              successEntries resp.Results = 2 ∧ failureEntries resp.Results = 1) := by
  constructor
  · have hgw : storeGetTs env cfg (threadKey cfg alert.Labels) w
        = ((storeGetTs env cfg (threadKey cfg alert.Labels) w).1, some (t, none)) :=
      Prod.ext rfl hlook
    have heq := handleAlert_dispatch_error env cfg status alert w _ w2 t t' e hgw hfail
    obtain ⟨hrem, hsf, htf⟩ := storeGetTs_frame env cfg (threadKey cfg alert.Labels) w
    obtain ⟨gevs, hgt, _, hgs, _⟩ := storeGetTs_trace env cfg (threadKey cfg alert.Labels) w
    have hw2 : w2 = (storeGetTs env cfg (threadKey cfg alert.Labels) w).1.tick
          (Event.slackPost t true) ∧ e ≠ "" := by
      rcases slackPostMessage_cases env t (storeGetTs env cfg (threadKey cfg alert.Labels) w).1
        with ⟨e', he', hp⟩ | ⟨ts, _, hp⟩
      · rw [hp] at hfail
        simp only [Prod.mk.injEq, Option.some.injEq] at hfail
        exact ⟨hfail.1.symm, hfail.2.2 ▸ he'⟩
      · rw [hp] at hfail
        simp at hfail
    obtain ⟨hw2, hene⟩ := hw2
    have hcache : w2.threadCache
        = (storeGetTs env cfg (threadKey cfg alert.Labels) w).1.threadCache := by
      rw [hw2]; rfl
    have hfirst : t = "" → w2.threadCache = w.threadCache
        ∧ w.threadCache.index (threadKey cfg alert.Labels) = "" := by
      intro ht
      subst ht
      obtain ⟨h1, h2⟩ := storeGetTs_absent env cfg _ w none hlook
      exact ⟨hcache.trans h1, h2⟩
    have hrem2 : w2.remote = w.remote := by
      rw [hw2]; simpa [World.tick] using hrem
    refine ⟨heq, hene, ?_, hrem2, ?_, ?_, hcache, ?_, ?_, ?_, ?_⟩
    · rw [hw2]
      simp [World.tick, hgt, eventsSince_append, storeSets_append, hgs, storeSets]
    · rw [hw2]; simpa [World.tick] using hsf
    · rw [hw2]; simpa [World.tick] using htf
    · intro k hk
      rw [hcache]
      by_cases ht : t = ""
      · rw [← hcache, (hfirst ht).1]
      · exact (storeGetTs_found env cfg _ w t none ht hlook).2.2 k hk
    · rintro (ht | hidx)
      · exact (hfirst ht).1
      · rw [hcache, storeGetTs_hit env cfg _ w hidx]
    · intro ht
      refine ⟨by rw [(hfirst ht).1]; exact (hfirst ht).2, fun hredis => ?_⟩
      rw [hrem2]
      subst ht
      exact storeGetTs_absent_remote env cfg _ w hlook hredis
    · simp [handleAlerts, heq]
  · intro env0 webhook w0 hal
    obtain ⟨w', out, evs, heq, _, hkeys, ht, hf, hs⟩ :=
      alertHandler_summary env0 cfg webhook w0 hal
    have hlen : out.length = webhook.Alerts.length := by
      have := congrArg List.length hkeys
      simpa using this
    rw [heq]
    simp only [ht, eventsSince_append]
    refine ⟨_, rfl, hlen, hf, hs, ?_⟩
    intro h3 h1 h0
    have htot := entries_total out
    simp only at htot ⊢
    omega

/-- C8 (amended) at a first sighting of `diskFull` while the chat service is
down, followed by two more alerts of the batch. -/
theorem C8_failed_dispatch_witness :
    handleAlert chatDown fileConfig "firing" diskFull freshWorld
        = (freshWorld.tick (Event.slackPost "" true),
            some (errorResult (threadKey fileConfig diskFull.Labels)
              "HTTP 요청 실패: dial tcp: i/o timeout"))
      ∧ (freshWorld.tick (Event.slackPost "" true)).threadCache = freshWorld.threadCache
      ∧ (freshWorld.tick (Event.slackPost "" true)).threadCache.index
          (threadKey fileConfig diskFull.Labels) = ""
      ∧ handleAlerts chatDown fileConfig "firing" [diskFull, cpuHigh, memLow] freshWorld []
          = handleAlerts chatDown fileConfig "firing" [cpuHigh, memLow]
              (freshWorld.tick (Event.slackPost "" true))
              ([] ++ [errorResult (threadKey fileConfig diskFull.Labels)
                "HTTP 요청 실패: dial tcp: i/o timeout"])
      ∧ ∃ resp, (alertHandler thirdCallDown fileConfig
            (some { Status := "firing", GroupKey := "", Alerts := [diskFull, cpuHigh, memLow] })
            freshWorld).2 = .ok resp
          ∧ successEntries resp.Results = 2 ∧ failureEntries resp.Results = 1 := by
  have h := C8_failed_dispatch chatDown fileConfig "firing" diskFull [cpuHigh, memLow] []
    freshWorld (freshWorld.tick (Event.slackPost "" true)) "" ""
    "HTTP 요청 실패: dial tcp: i/o timeout" (by decide) (by decide)
  obtain ⟨resp, hr, _, _, _, h3⟩ := h.2 thirdCallDown
    { Status := "firing", GroupKey := "", Alerts := [diskFull, cpuHigh, memLow] } freshWorld rfl
  obtain ⟨hres, _, _, _, _, _, _, _, hsame, habsent, hloop⟩ := h.1
  exact ⟨hres, hsame (Or.inl rfl), (habsent rfl).1, hloop, resp, hr,
    h3 rfl (by decide) (by decide)⟩

end GoAdvanced

/-! ### `go-advanced-redis`: an alert with a thread -/

theorem putEntry_of_lookup (entries : List (String × String)) (k v : String)
    (h : entries.lookup k = some v) : putEntry entries k v = entries := by
  induction entries with
  | nil => simp at h
  | cons p rest ih =>
    obtain ⟨a, b⟩ := p
    by_cases hak : a = k
    · subst hak
      simp [List.lookup] at h
      simp [putEntry, h]
    · have hb : (k == a) = false := by simpa using fun e : k = a => hak e.symm
      simp only [List.lookup, hb] at h
      simp [putEntry, hak, ih h]

theorem putEntry_of_index (entries : List (String × String)) (k v : String) (hv : v ≠ "")
    (h : (GoMap.alloc entries).index k = v) : putEntry entries k v = entries := by
  apply putEntry_of_lookup
  simp only [GoMap.index] at h
  cases hl : entries.lookup k with
  | none => rw [hl] at h; exact absurd h.symm hv
  | some u => rw [hl] at h; simp at h; rw [h]

namespace GoAdvancedRedis

/-- A lookup that returns a thread either hit the cache and changed nothing,
or copied the thread of the remote store into the cache. Either way the cache
then maps the key to the thread, and the remote store and the files are
untouched. -/
theorem storeGet_found (env : Env) (cfg : Config) (key : String) (w : World)
    (t : String) (eo : Option String) (ht : t ≠ "")
    (h : (storeGet env cfg key w).2 = some (t, eo)) :
    eo = none
      ∧ (storeGet env cfg key w).1.mem.index key = t
      ∧ (storeGet env cfg key w).1.remote = w.remote
      ∧ (storeGet env cfg key w).1.storeFile = w.storeFile
      ∧ (storeGet env cfg key w).1.tmpFile = w.tmpFile
      ∧ ∃ evs, (storeGet env cfg key w).1.trace = w.trace ++ evs
          ∧ dispatches evs = [] ∧ storeSets evs = [] := by
  by_cases h1 : w.mem.index key = ""
  · by_cases h2 : cfg.storeKind = "redis" ∧ cfg.rdb = true
    · cases hg : env.redisGet w.clock with
      | some e =>
        simp [storeGet, h1, h2, hg] at h
        exact absurd h.1.symm ht
      | none =>
        cases hl : w.remote.lookup (cfg.redisPref ++ ":" ++ key) with
        | none =>
          simp [storeGet, h1, h2, hg, hl] at h
          exact absurd h.1.symm ht
        | some v =>
          by_cases h3 : v = ""
          · simp [storeGet, h1, h2, hg, hl, h3] at h
            exact absurd h.1.symm ht
          · have hcache : w.mem = .nilMap ∨ ∃ entries, w.mem = .alloc entries := by
              cases w.mem with
              | nilMap => exact Or.inl rfl
              | alloc entries => exact Or.inr ⟨entries, rfl⟩
            rcases hcache with hc | ⟨entries, hc⟩
            · have h1' := h1
              rw [hc] at h1'
              simp [storeGet, h2, hg, hl, h3, World.tick, hc, h1', GoMap.assign] at h
            · have h1' := h1
              rw [hc] at h1'
              have heq : storeGet env cfg key w
                  = ({ w with mem := .alloc (putEntry entries key v), clock := w.clock + 1,
                              trace := w.trace ++ [Event.redisGet (cfg.redisPref ++ ":" ++ key)
                                false] },
                      some (v, none)) := by
                simp [storeGet, h2, hg, hl, h3, World.tick, hc, h1', GoMap.assign]
              rw [heq] at h ⊢
              simp only [Option.some.injEq, Prod.mk.injEq] at h
              obtain ⟨hvt, heo⟩ := h
              subst hvt
              exact ⟨heo.symm, by simp [index_putEntry], rfl, rfl, rfl,
                [Event.redisGet (cfg.redisPref ++ ":" ++ key) false], rfl,
                by simp [dispatches, storeSets]⟩
    · simp [storeGet, h1, h2] at h
      exact absurd h.1.symm ht
  · have heq : storeGet env cfg key w = (w, some (w.mem.index key, none)) := by
      simp [storeGet, h1]
    rw [heq] at h ⊢
    simp only [Option.some.injEq, Prod.mk.injEq] at h
    exact ⟨h.2.symm, h.1, rfl, rfl, rfl, [], by simp, rfl, rfl⟩

/-- The runs of the dispatcher: it fails, or it succeeds with the identifier
the chat service answered. Either way the call is recorded and nothing else
changes. -/
theorem slackPost_cases (env : Env) (threadTS : String) (w : World) :
    (∃ e, slackPost env threadTS w = (w.tick (Event.slackPost threadTS true), "", some e))
    ∨ (∃ ts, slackPost env threadTS w = (w.tick (Event.slackPost threadTS false), ts, none)) := by
  unfold slackPost
  cases ho : env.http w.clock with
  | transportError e => exact Or.inl ⟨_, rfl⟩
  | response code raw decoded =>
    by_cases hcode : code = 200
    · cases decoded with
      | readError e =>
        exact Or.inl ⟨"failed to decode slack response: " ++ e, by simp [hcode]⟩
      | parseError e =>
        exact Or.inl ⟨"failed to decode slack response: " ++ e, by simp [hcode]⟩
      | slackResp ok ts error =>
        cases ok with
        | false => exact Or.inl ⟨"slack: " ++ error, by simp [hcode]⟩
        | true => exact Or.inr ⟨ts, by simp [hcode]⟩
    · exact Or.inl ⟨"slack API returned non-OK status " ++ toString code ++ ": " ++ raw,
        by simp [hcode]⟩

/-- Saving touches neither the cache nor the remote store, and makes
file-system calls only. -/
theorem saveFile_frame (env : Env) (cfg : Config) (w : World) :
    (saveFile env cfg w).mem = w.mem
      ∧ (saveFile env cfg w).remote = w.remote
      ∧ ∃ evs, (saveFile env cfg w).trace = w.trace ++ evs
          ∧ dispatches evs = [] ∧ storeSets evs = [] := by
  unfold saveFile
  split_ifs with h
  · exact ⟨rfl, rfl, [], by simp [dispatches, storeSets]⟩
  · cases hw : env.writeFile w.clock with
    | some e => exact ⟨rfl, rfl, [Event.fileWrite], by simp [dispatches, storeSets]⟩
    | none =>
      cases hr : env.rename (w.clock + 1) with
      | some e =>
        exact ⟨rfl, rfl, [Event.fileWrite, Event.fileRename], by simp [dispatches, storeSets]⟩
      | none =>
        exact ⟨rfl, rfl, [Event.fileWrite, Event.fileRename], by simp [dispatches, storeSets]⟩

/-- A set on an allocated cache returns; the cache then holds the binding and
the trace grew by the one store-set call and calls to the backend. -/
theorem storeSet_alloc (env : Env) (cfg : Config) (key ts : String) (w : World)
    (entries : List (String × String)) (hc : w.mem = .alloc entries) :
    ∃ w' err evs, storeSet env cfg key ts w = (w', some err)
      ∧ w'.mem = .alloc (putEntry entries key ts)
      ∧ w'.trace = w.trace ++ Event.storeSet key ts :: evs
      ∧ dispatches evs = [] ∧ storeSets evs = [] := by
  by_cases h2 : cfg.storeKind = "redis" ∧ cfg.rdb = true
  · cases hs : env.redisSet w.clock with
    | some e =>
      have heq : storeSet env cfg key ts w
          = ({ w with mem := .alloc (putEntry entries key ts), clock := w.clock + 1,
                      trace := w.trace ++ [Event.storeSet key ts]
                        ++ [Event.redisSet (cfg.redisPref ++ ":" ++ key) ts 0] },
              some (some e)) := by
        simp [storeSet, hc, GoMap.assign, h2, World.tick, hs]
      exact ⟨_, _, [Event.redisSet (cfg.redisPref ++ ":" ++ key) ts 0], heq,
        by simp [dispatches, storeSets]⟩
    | none =>
      have heq : storeSet env cfg key ts w
          = ({ w with mem := .alloc (putEntry entries key ts),
                      remote := putEntry w.remote (cfg.redisPref ++ ":" ++ key) ts,
                      clock := w.clock + 1,
                      trace := w.trace ++ [Event.storeSet key ts]
                        ++ [Event.redisSet (cfg.redisPref ++ ":" ++ key) ts 0] },
              some none) := by
        simp [storeSet, hc, GoMap.assign, h2, World.tick, hs]
      exact ⟨_, _, [Event.redisSet (cfg.redisPref ++ ":" ++ key) ts 0], heq,
        by simp [dispatches, storeSets]⟩
  · obtain ⟨h3, _, evs, h5, h6⟩ := saveFile_frame env cfg
      { w with mem := .alloc (putEntry entries key ts),
               trace := w.trace ++ [Event.storeSet key ts] }
    have heq : storeSet env cfg key ts w
        = (saveFile env cfg
            { w with mem := .alloc (putEntry entries key ts),
                     trace := w.trace ++ [Event.storeSet key ts] }, some none) := by
      simp [storeSet, hc, GoMap.assign, h2]
    refine ⟨_, _, evs, heq, h3, ?_, h6⟩
    rw [h5]
    simp

/-- What a set on an allocated cache does to the backend. With the redis
backend it makes one remote write, of the thread under the key of the
namespace and with expiration 0, and the remote store holds the thread when
the write goes through. With the file backend it writes the temporary file,
and the snapshot file holds the serialisation of the new cache when the write
and the rename go through. -/
theorem storeSet_backend (env : Env) (cfg : Config) (key ts : String) (w : World)
    (entries : List (String × String)) (hc : w.mem = .alloc entries) :
    (cfg.storeKind = "redis" ∧ cfg.rdb = true →
        (storeSet env cfg key ts w).1.trace
            = w.trace ++ [Event.storeSet key ts,
                Event.redisSet (cfg.redisPref ++ ":" ++ key) ts 0]
          ∧ (env.redisSet w.clock = none →
              (storeSet env cfg key ts w).1.remote
                = putEntry w.remote (cfg.redisPref ++ ":" ++ key) ts))
      ∧ (cfg.storeKind = "file" →
          (∃ rest, (storeSet env cfg key ts w).1.trace
              = w.trace ++ Event.storeSet key ts :: Event.fileWrite :: rest)
            ∧ (env.writeFile w.clock = none → env.rename (w.clock + 1) = none →
                (storeSet env cfg key ts w).1.storeFile
                  = some (marshalMap (.alloc (putEntry entries key ts))))) := by
  constructor
  · intro h2
    cases hs : env.redisSet w.clock with
    | some e => simp [storeSet, hc, GoMap.assign, h2, World.tick, hs]
    | none => simp [storeSet, hc, GoMap.assign, h2, World.tick, hs]
  · intro hfile
    have hnr : ¬ (cfg.storeKind = "redis" ∧ cfg.rdb = true) := by
      rw [hfile]
      exact fun h => absurd h.1 (by decide)
    have heq : storeSet env cfg key ts w
        = (saveFile env cfg
            { w with mem := .alloc (putEntry entries key ts),
                     trace := w.trace ++ [Event.storeSet key ts] }, some none) := by
      simp [storeSet, hc, GoMap.assign, hnr]
    rw [heq]
    cases hw : env.writeFile w.clock with
    | some e =>
      refine ⟨⟨[], by simp [saveFile, hfile, hw]⟩, fun h => by simp at h⟩
    | none =>
      cases hr : env.rename (w.clock + 1) with
      | some e =>
        refine ⟨⟨[Event.fileRename], by simp [saveFile, hfile, hw, hr]⟩,
          fun _ h => by simp at h⟩
      | none =>
        refine ⟨⟨[Event.fileRename], by simp [saveFile, hfile, hw, hr]⟩,
          fun _ _ => by simp [saveFile, hfile, hw, hr]⟩

/-- The iteration for an alert with a thread: what it returns when the
dispatch fails and when it succeeds. -/
theorem handleAlert_thread (env : Env) (cfg : Config) (a : Alert) (w : World) (t : String)
    (ht : t ≠ "") (eo : Option String)
    (hg : (storeGet env cfg (threadKey cfg a.Labels) w).2 = some (t, eo)) :
    (∀ w2 ts e, slackPost env t (storeGet env cfg (threadKey cfg a.Labels) w).1
          = (w2, ts, some e) →
        handleAlert env cfg a w = (w2, true))
    ∧ (∀ w2 ts, slackPost env t (storeGet env cfg (threadKey cfg a.Labels) w).1
          = (w2, ts, none) →
        handleAlert env cfg a w
          = ((storeSet env cfg (threadKey cfg a.Labels) t w2).1,
              (storeSet env cfg (threadKey cfg a.Labels) t w2).2.isSome)) := by
  have hgw : storeGet env cfg (threadKey cfg a.Labels) w
      = ((storeGet env cfg (threadKey cfg a.Labels) w).1, some (t, eo)) := Prod.ext rfl hg
  constructor
  · intro w2 ts e hp
    rw [handleAlert, hgw]
    simp [ht, hp]
  · intro w2 ts hp
    rw [handleAlert, hgw]
    simp only [ht, if_false, hp]
    cases hs : storeSet env cfg (threadKey cfg a.Labels) t w2 with
    | mk w3 r =>
      cases r with
      | none => simp
      | some err => simp

/-- C7, as stated, fails: for an alert whose thread is in the cache,
`go-advanced-redis` calls `storeSet` after the reply; with the redis backend
this writes the remote entry, with the file backend the snapshot file. -/
theorem C7_reply_counterexample :
    (storeGet calmEnv redisConfig (threadKey redisConfig diskFull.Labels) knownThread).2
        = some ("1700000000.000100", none)
      ∧ dispatches (handleAlert calmEnv redisConfig diskFull knownThread).1.trace
          = ["1700000000.000100"]
      ∧ storeSets (handleAlert calmEnv redisConfig diskFull knownThread).1.trace
          = [("DiskFull|critical|staging", "1700000000.000100")]
      ∧ knownThread.remote = []
      ∧ (handleAlert calmEnv redisConfig diskFull knownThread).1.remote
          = [("threader:ts:DiskFull|critical|staging", "1700000000.000100")]
      ∧ storeSets (handleAlert calmEnv fileConfig diskFull knownThread).1.trace
          = [("DiskFull|critical|staging", "1700000000.000100")]
      ∧ knownThread.storeFile = none
      ∧ (handleAlert calmEnv fileConfig diskFull knownThread).1.storeFile
          = some (.jsonObject
              [("DiskFull|critical|staging", .str "1700000000.000100")]) := by
  refine ⟨by decide, by decide, by decide, by decide, by decide, by decide, by decide,
    by decide⟩

/-- C7, amended: for an alert whose key already has a thread in the store,
the alert is dispatched once, as a reply to that thread. When the dispatch
succeeds `storeSet` is called once, with the key and that same thread id; the
cache is left exactly as the lookup left it, mapping the key to the thread;
and the backend is written again: with the redis backend the calls after the
dispatch are that `storeSet` and one remote write of the thread under
`prefix + ":" + key` with expiration 0, after which the remote store holds the
thread under that key when the write goes through; with the file backend the
calls after the dispatch are that `storeSet`, a write of the temporary file and
what follows it, after which the snapshot file holds the serialisation of the
cache when the write and the rename go through. When the dispatch fails
`storeSet` is not called and the cache, the remote store and both files are as
the lookup left them (the remote store and the files as before the alert). -/
theorem C7_reply (env : Env) (cfg : Config) (a : Alert) (w : World) (t : String)
    (hthread : (storeGet env cfg (threadKey cfg a.Labels) w).2 = some (t, none))
    (ht : t ≠ "") :
    (handleAlert env cfg a w).2 = true
      ∧ dispatches (eventsSince w.trace (handleAlert env cfg a w).1.trace) = [t]
      ∧ (∀ w2 ts, slackPost env t (storeGet env cfg (threadKey cfg a.Labels) w).1
            = (w2, ts, none) →
          storeSets (eventsSince w.trace (handleAlert env cfg a w).1.trace)
              = [(threadKey cfg a.Labels, t)]
          ∧ (handleAlert env cfg a w).1.mem
              = (storeGet env cfg (threadKey cfg a.Labels) w).1.mem
          ∧ (handleAlert env cfg a w).1.mem.index (threadKey cfg a.Labels) = t
          ∧ (cfg.storeKind = "redis" ∧ cfg.rdb = true →
              eventsSince w2.trace (handleAlert env cfg a w).1.trace
                  = [Event.storeSet (threadKey cfg a.Labels) t,
                      Event.redisSet (cfg.redisPref ++ ":" ++ threadKey cfg a.Labels) t 0]
                ∧ (env.redisSet w2.clock = none →
                    (handleAlert env cfg a w).1.remote
                      = putEntry w.remote (cfg.redisPref ++ ":" ++ threadKey cfg a.Labels) t))
          ∧ (cfg.storeKind = "file" →
              (∃ rest, eventsSince w2.trace (handleAlert env cfg a w).1.trace
                  = Event.storeSet (threadKey cfg a.Labels) t :: Event.fileWrite :: rest)
                ∧ (env.writeFile w2.clock = none → env.rename (w2.clock + 1) = none →
                    (handleAlert env cfg a w).1.storeFile
                      = some (marshalMap (handleAlert env cfg a w).1.mem))))
      ∧ (∀ w2 ts e, slackPost env t (storeGet env cfg (threadKey cfg a.Labels) w).1
            = (w2, ts, some e) →
          storeSets (eventsSince w.trace (handleAlert env cfg a w).1.trace) = []
          ∧ (handleAlert env cfg a w).1.mem
              = (storeGet env cfg (threadKey cfg a.Labels) w).1.mem
          ∧ (handleAlert env cfg a w).1.remote = w.remote
          ∧ (handleAlert env cfg a w).1.storeFile = w.storeFile
          ∧ (handleAlert env cfg a w).1.tmpFile = w.tmpFile) := by
  obtain ⟨_, hidx, hrem, hsf, htf, gevs, hgt, hgd, hgs⟩ :=
    storeGet_found env cfg (threadKey cfg a.Labels) w t none ht hthread
  obtain ⟨hfailed, hposted⟩ := handleAlert_thread env cfg a w t ht none hthread
  obtain ⟨entries, hc⟩ : ∃ entries,
      (storeGet env cfg (threadKey cfg a.Labels) w).1.mem = .alloc entries := by
    cases hcc : (storeGet env cfg (threadKey cfg a.Labels) w).1.mem with
    | nilMap => rw [hcc] at hidx; exact absurd hidx.symm (by simpa [GoMap.index] using ht)
    | alloc entries => exact ⟨entries, rfl⟩
  have hput : putEntry entries (threadKey cfg a.Labels) t = entries :=
    putEntry_of_index entries _ t ht (by rw [← hc]; exact hidx)
  rcases slackPost_cases env t (storeGet env cfg (threadKey cfg a.Labels) w).1 with
    ⟨e, hp⟩ | ⟨ts, hp⟩
  · have heq := hfailed _ _ _ hp
    refine ⟨by rw [heq], ?_, ?_, ?_⟩
    · rw [heq]
      simp [World.tick, hgt, eventsSince_append, dispatches_append, hgd, dispatches]
    · intro w2 ts' hp'
      rw [hp] at hp'
      simp at hp'
    · intro w2 ts' e' _
      rw [heq]
      refine ⟨?_, rfl, ?_, ?_, ?_⟩
      · simp [World.tick, hgt, eventsSince_append, storeSets_append, hgs, storeSets]
      · simpa [World.tick] using hrem
      · simpa [World.tick] using hsf
      · simpa [World.tick] using htf
  · have heq := hposted _ _ hp
    obtain ⟨w3, err, sevs, hset, hm3, ht3, hd3, hs3⟩ :=
      storeSet_alloc env cfg (threadKey cfg a.Labels) t
        ((storeGet env cfg (threadKey cfg a.Labels) w).1.tick (Event.slackPost t false))
        entries (by simpa [World.tick] using hc)
    rw [hset] at heq
    simp only [Option.isSome_some] at heq
    have htrace : w3.trace = w.trace ++ (gevs ++ Event.slackPost t false
        :: Event.storeSet (threadKey cfg a.Labels) t :: sevs) := by
      rw [ht3]
      simp [World.tick, hgt]
    refine ⟨by rw [heq], ?_, ?_, ?_⟩
    · rw [heq]
      simp [htrace, eventsSince_append, dispatches_append, hgd, dispatches, hd3]
    · intro w2 ts' hp'
      rw [hp] at hp'
      have hw2 : w2 = (storeGet env cfg (threadKey cfg a.Labels) w).1.tick
          (Event.slackPost t false) := (congrArg Prod.fst hp').symm
      subst hw2
      obtain ⟨hbr, hbf⟩ := storeSet_backend env cfg (threadKey cfg a.Labels) t
        ((storeGet env cfg (threadKey cfg a.Labels) w).1.tick (Event.slackPost t false))
        entries (by simpa [World.tick] using hc)
      rw [hset] at hbr hbf
      rw [heq]
      refine ⟨?_, ?_, ?_, ?_, ?_⟩
      · simp [htrace, eventsSince_append, storeSets_append, hgs, storeSets, hs3]
      · simp only [hm3, hput, hc]
      · simp only [hm3, hput]
        rw [← hc]
        exact hidx
      · intro h2
        obtain ⟨htr, hrm⟩ := hbr h2
        refine ⟨?_, fun hs => ?_⟩
        · simp only at htr ⊢
          rw [htr, eventsSince_append]
        · have := hrm hs
          simp only [World.tick] at this
          simp only [this, hrem]
      · intro hfile
        obtain ⟨⟨rest, htr⟩, hsv⟩ := hbf hfile
        refine ⟨⟨rest, ?_⟩, fun hwr hrn => ?_⟩
        · simp only at htr ⊢
          rw [htr, eventsSince_append]
        · have := hsv hwr hrn
          simp only at this ⊢
          rw [this, hm3]
    · intro w2 ts' e' hp'
      rw [hp] at hp'
      simp at hp'

/-- C7 (amended) at `diskFull` on a process of `go-advanced-redis` whose cache
has its thread, with the redis backend and a chat service that answers. -/
theorem C7_reply_witness :
    (handleAlert calmEnv redisConfig diskFull knownThread).2 = true
      ∧ dispatches (eventsSince knownThread.trace
          (handleAlert calmEnv redisConfig diskFull knownThread).1.trace)
          = ["1700000000.000100"]
      ∧ storeSets (eventsSince knownThread.trace
          (handleAlert calmEnv redisConfig diskFull knownThread).1.trace)
          = [(threadKey redisConfig diskFull.Labels, "1700000000.000100")]
      ∧ (handleAlert calmEnv redisConfig diskFull knownThread).1.mem
          = (storeGet calmEnv redisConfig (threadKey redisConfig diskFull.Labels)
              knownThread).1.mem
      ∧ (handleAlert calmEnv redisConfig diskFull knownThread).1.mem.index
          (threadKey redisConfig diskFull.Labels) = "1700000000.000100"
      ∧ (handleAlert calmEnv redisConfig diskFull knownThread).1.remote
          = putEntry knownThread.remote
              (redisConfig.redisPref ++ ":" ++ threadKey redisConfig diskFull.Labels)
              "1700000000.000100" := by
  have h := C7_reply calmEnv redisConfig diskFull knownThread "1700000000.000100"
    (by decide) (by decide)
  have hs := h.2.2.1 (knownThread.tick (Event.slackPost "1700000000.000100" false))
    "ts-0" (by decide)
  exact ⟨h.1, h.2.1, hs.1, hs.2.1, hs.2.2.1, ((hs.2.2.2.1 (by decide)).2 rfl)⟩

end GoAdvancedRedis

namespace GoAdvanced

/-! ### Lookups, failed lookups and failed remote writes -/

/-- Serving requests keeps every non-empty record of the cache. -/
theorem serve_keeps (env : Env) (cfg : Config) (requests : List (Option AlertWebhook))
    (k v : String) (hv : v ≠ "") :
    ∀ w : World, w.threadCache.index k = v →
      (serve env cfg requests w).threadCache.index k = v := by
  induction requests with
  | nil => intro w h; simpa [serve] using h
  | cons body rest ih =>
    intro w h
    simp only [serve]
    exact ih _ (alertHandler_keeps env cfg body w k v hv h)

/-- C17: `storeGetTs` returns a non-empty cached value and changes nothing, so
no backend is consulted; on a cache miss with the redis backend it looks up
the remote entry `prefix + ":" + key` and nothing else, and when the lookup
goes through and the entry holds a non-empty value the call returns that
value, the cache then maps the key to it, every other cache entry is as
before, and the remote store and the files are untouched; on a cache miss
without the redis backend (so with the file backend) it returns absent and
changes nothing: no file is read, no call is made. -/
theorem C17_storeGetTs (env : Env) (cfg : Config) (key : String) (w : World) :
    (w.threadCache.index key ≠ "" →
        storeGetTs env cfg key w = (w, some (w.threadCache.index key, none)))
    ∧ (w.threadCache.index key = "" → cfg.threadStore = "redis" ∧ cfg.redisClient = true →
        ∃ failed, eventsSince w.trace (storeGetTs env cfg key w).1.trace
          = [Event.redisGet (cfg.redisKeyPrefix ++ ":" ++ key) failed])
    ∧ (w.threadCache.index key = "" → cfg.threadStore = "redis" ∧ cfg.redisClient = true →
        w.threadCache.allocated = true → env.redisGet w.clock = none →
        ∀ v, v ≠ "" → w.remote.lookup (cfg.redisKeyPrefix ++ ":" ++ key) = some v →
          (storeGetTs env cfg key w).2 = some (v, none)
          ∧ (storeGetTs env cfg key w).1.threadCache.index key = v
          ∧ (∀ k, k ≠ key →
              (storeGetTs env cfg key w).1.threadCache.index k = w.threadCache.index k)
          ∧ (storeGetTs env cfg key w).1.remote = w.remote
          ∧ (storeGetTs env cfg key w).1.storeFile = w.storeFile
          ∧ (storeGetTs env cfg key w).1.tmpFile = w.tmpFile)
    ∧ (w.threadCache.index key = "" → ¬ (cfg.threadStore = "redis" ∧ cfg.redisClient = true) →
        storeGetTs env cfg key w = (w, some ("", none))) := by
  refine ⟨fun h => storeGetTs_hit env cfg key w h, ?_, ?_, ?_⟩
  · intro h1 h2
    rcases storeGetTs_cases env cfg key w with
      ⟨h1', _⟩ | ⟨_, h2', _⟩ | ⟨_, _, e, _, h'⟩ | ⟨_, _, _, _, h'⟩
        | ⟨_, _, _, v, es, _, _, _, h'⟩ | ⟨_, h'⟩
    · exact absurd h1 h1'
    · exact absurd h2 h2'
    · exact ⟨true, by rw [h']; simp [World.tick, eventsSince_append]⟩
    · exact ⟨false, by rw [h']; simp [World.tick, eventsSince_append]⟩
    · exact ⟨false, by rw [h']; simp [World.tick, eventsSince_append]⟩
    · exact ⟨false, by rw [h']; simp [World.tick, eventsSince_append]⟩
  · intro h1 h2 hal hg v hv hl
    obtain ⟨hrem, hsf, htf⟩ := storeGetTs_frame env cfg key w
    have hres : (storeGetTs env cfg key w).2 = some (v, none) := by
      rcases storeGetTs_cases env cfg key w with
        ⟨h1', _⟩ | ⟨_, h2', _⟩ | ⟨_, _, e, he, _⟩ | ⟨_, _, _, hl', _⟩
          | ⟨_, _, _, v', es, _, _, hl', h'⟩ | ⟨hn, _⟩
      · exact absurd h1 h1'
      · exact absurd h2 h2'
      · rw [hg] at he; simp at he
      · rw [hl] at hl'
        rcases hl' with hl' | hl'
        · simp at hl'
        · exact absurd (Option.some.inj hl') hv
      · rw [hl] at hl'
        rw [h', Option.some.inj hl']
      · rw [hn] at hal; simp [GoMap.allocated] at hal
    obtain ⟨_, hidx, hothers⟩ := storeGetTs_found env cfg key w v none hv hres
    exact ⟨hres, hidx, hothers, hrem, hsf, htf⟩
  · intro h1 h2
    simp [storeGetTs, h1, h2]

/-- C17 at `diskFull` on a process with an empty cache, the redis backend and
a remote store that has its thread. -/
theorem C17_storeGetTs_witness :
    (storeGetTs calmEnv redisConfig "DiskFull|critical|unknown|default|staging"
        remoteThread).2 = some ("1700000000.000100", none)
      ∧ (storeGetTs calmEnv redisConfig "DiskFull|critical|unknown|default|staging"
          remoteThread).1.threadCache.index "DiskFull|critical|unknown|default|staging"
        = "1700000000.000100"
      ∧ storeGetTs calmEnv fileConfig "DiskFull|critical|unknown|default|staging" freshWorld
        = (freshWorld, some ("", none)) := by
  have h := C17_storeGetTs calmEnv redisConfig "DiskFull|critical|unknown|default|staging"
    remoteThread
  have h' := C17_storeGetTs calmEnv fileConfig "DiskFull|critical|unknown|default|staging"
    freshWorld
  obtain ⟨h1, h2, _⟩ := h.2.2.1 (by decide) (by decide) (by decide) (by decide)
    "1700000000.000100" (by decide) (by decide)
  exact ⟨h1, h2, h'.2.2.2 (by decide) (by decide)⟩

/-- C18, as stated, fails: with the redis backend and a remote lookup that
times out, the iteration for `diskFull` makes no dispatch call at all and
appends a failure result with the error of the lookup. -/
theorem C18_lookup_error_counterexample :
    (storeGetTs lookupTimeouts redisConfig (threadKey redisConfig diskFull.Labels)
        freshWorld).2 = some ("", some "Redis 조회 실패: i/o timeout")
      ∧ dispatches (handleAlert lookupTimeouts redisConfig "firing" diskFull freshWorld).1.trace
          = []
      ∧ (handleAlert lookupTimeouts redisConfig "firing" diskFull freshWorld).2
          = some (errorResult "DiskFull|critical|unknown|default|staging"
              "Redis 조회 실패: i/o timeout") := by
  refine ⟨by decide, by decide, by decide⟩

/-- C18, amended: with the redis backend, when the remote lookup for an
alert's key fails with a store error, the iteration does not dispatch the
alert: it makes no dispatch call and no store-set call, leaves the cache, the
remote store and the files as they were, appends a failure result that
carries the key and the error of the lookup, and the loop goes on with the
remaining alerts. -/
theorem C18_lookup_error (env : Env) (cfg : Config) (status : String) (alert : Alert)
    (rest : List Alert) (results : List AlertResult) (w : World) (e : String)
    (hredis : cfg.threadStore = "redis" ∧ cfg.redisClient = true)
    (hmiss : w.threadCache.index (threadKey cfg alert.Labels) = "")
    (hfail : env.redisGet w.clock = some e) :
    (handleAlert env cfg status alert w).2
        = some (errorResult (threadKey cfg alert.Labels) ("Redis 조회 실패: " ++ e))
      ∧ dispatches (eventsSince w.trace (handleAlert env cfg status alert w).1.trace) = []
      ∧ storeSets (eventsSince w.trace (handleAlert env cfg status alert w).1.trace) = []
      ∧ (handleAlert env cfg status alert w).1.threadCache = w.threadCache
      ∧ (handleAlert env cfg status alert w).1.remote = w.remote
      ∧ (handleAlert env cfg status alert w).1.storeFile = w.storeFile
      ∧ (handleAlert env cfg status alert w).1.tmpFile = w.tmpFile
      ∧ handleAlerts env cfg status (alert :: rest) w results
          = handleAlerts env cfg status rest (handleAlert env cfg status alert w).1
              (results ++ [errorResult (threadKey cfg alert.Labels)
                ("Redis 조회 실패: " ++ e)]) := by
  have hg : storeGetTs env cfg (threadKey cfg alert.Labels) w
      = (w.tick (Event.redisGet (cfg.redisKeyPrefix ++ ":" ++ threadKey cfg alert.Labels) true),
          some ("", some ("Redis 조회 실패: " ++ e))) := by
    simp [storeGetTs, hmiss, hredis, hfail]
  have heq := handleAlert_lookup_error env cfg status alert w _ "" _ hg
  rw [heq]
  refine ⟨rfl, ?_, ?_, rfl, rfl, rfl, rfl, ?_⟩
  · simp [World.tick, eventsSince_append, dispatches]
  · simp [World.tick, eventsSince_append, storeSets]
  · simp [handleAlerts, heq]

/-- C18 (amended) at `diskFull`, first of a batch of two, on a fresh process
with the redis backend whose lookups time out. -/
theorem C18_lookup_error_witness :
    (handleAlert lookupTimeouts redisConfig "firing" diskFull freshWorld).2
        = some (errorResult (threadKey redisConfig diskFull.Labels)
            ("Redis 조회 실패: " ++ "i/o timeout"))
      ∧ dispatches (eventsSince freshWorld.trace
          (handleAlert lookupTimeouts redisConfig "firing" diskFull freshWorld).1.trace) = []
      ∧ (handleAlert lookupTimeouts redisConfig "firing" diskFull freshWorld).1.threadCache
          = freshWorld.threadCache := by
  have h := C18_lookup_error lookupTimeouts redisConfig "firing" diskFull [cpuHigh] []
    freshWorld "i/o timeout" (by decide) (by decide) rfl
  exact ⟨h.1, h.2.1, h.2.2.2.1⟩

/-- C20: for a request body that does not decode, the handler answers 400
and nothing else happens: the state is the one before the request, so no
dispatch call and no store-set call is made and the cache, the remote store
and the files are unchanged. -/
theorem C20_undecodable_body (env : Env) (cfg : Config) (w : World) :
    alertHandler env cfg none w = (w, .badRequest)
      ∧ dispatches (eventsSince w.trace (alertHandler env cfg none w).1.trace) = []
      ∧ storeSets (eventsSince w.trace (alertHandler env cfg none w).1.trace) = []
      ∧ eventsSince w.trace (alertHandler env cfg none w).1.trace = []
      ∧ (alertHandler env cfg none w).1.threadCache = w.threadCache
      ∧ (alertHandler env cfg none w).1.remote = w.remote
      ∧ (alertHandler env cfg none w).1.storeFile = w.storeFile
      ∧ (alertHandler env cfg none w).1.tmpFile = w.tmpFile := by
  have h : alertHandler env cfg none w = (w, .badRequest) := rfl
  rw [h]
  simp [eventsSince, dispatches, storeSets]

/-- A set whose remote write fails returns the error, leaves the binding in
the cache and the remote store as it was. -/
theorem storeSetTs_remote_fails (env : Env) (cfg : Config) (k v : String) (w : World)
    (e : String) (hredis : cfg.threadStore = "redis" ∧ cfg.redisClient = true)
    (halloc : w.threadCache.allocated = true) (hfail : env.redisSet w.clock = some e) :
    (storeSetTs env cfg k v w).2 = some (some ("Redis 저장 실패: " ++ e))
      ∧ (storeSetTs env cfg k v w).1.threadCache.index k = v
      ∧ (storeSetTs env cfg k v w).1.threadCache.allocated = true
      ∧ (storeSetTs env cfg k v w).1.remote = w.remote := by
  obtain ⟨entries, hc, _⟩ := assign_of_allocated w.threadCache k v halloc
  have heq : storeSetTs env cfg k v w
      = ({ w with threadCache := .alloc (putEntry entries k v), clock := w.clock + 1,
                  trace := w.trace ++ [Event.storeSet k v]
                    ++ [Event.redisSet (cfg.redisKeyPrefix ++ ":" ++ k) v 0] },
          some (some ("Redis 저장 실패: " ++ e))) := by
    simp [storeSetTs, hc, GoMap.assign, hredis, World.tick, hfail]
  rw [heq]
  refine ⟨rfl, ?_, rfl, rfl⟩
  simp [index_putEntry]

/-- C19: with the redis backend and an allocated cache, a `storeSetTs(k, v)`
whose remote write fails returns an error and yet leaves the cache mapping
`k` to `v`. In the iteration of `alertHandler` for a first sighting whose
dispatch returned `v` and whose remote write fails: the handler goes on, the
alert is reported as a success with thread id `v`, the loop continues with
the remaining alerts, the lookup right after returns `v` (without error when
`v` is not empty), and for a non-empty `v` every later lookup in the same
process, after any requests served in between, returns `v` without error. -/
theorem C19_remote_write_fails (env : Env) (cfg : Config) (status : String) (alert : Alert)
    (rest : List Alert) (results : List AlertResult) (w : World) (v e : String)
    (hredis : cfg.threadStore = "redis" ∧ cfg.redisClient = true)
    (halloc : w.threadCache.allocated = true)
    (habsent : (storeGetTs env cfg (threadKey cfg alert.Labels) w).2 = some ("", none))
    (hok : (env.http (storeGetTs env cfg (threadKey cfg alert.Labels) w).1.clock).succeedsWith v)
    (hfail : env.redisSet ((storeGetTs env cfg (threadKey cfg alert.Labels) w).1.clock + 1)
        = some e) :
    (∀ (w0 : World) (k v0 e0 : String), w0.threadCache.allocated = true →
        env.redisSet w0.clock = some e0 →
        (storeSetTs env cfg k v0 w0).2 = some (some ("Redis 저장 실패: " ++ e0))
          ∧ (storeSetTs env cfg k v0 w0).1.threadCache.index k = v0)
    ∧ (handleAlert env cfg status alert w).2 = some (successResult cfg status alert v)
    ∧ (successResult cfg status alert v).ThreadTS = v
    ∧ (successResult cfg status alert v).Error = ""
    ∧ (handleAlert env cfg status alert w).1.threadCache.index (threadKey cfg alert.Labels) = v
    ∧ (handleAlert env cfg status alert w).1.remote = w.remote
    ∧ storeSets (eventsSince w.trace (handleAlert env cfg status alert w).1.trace)
        = [(threadKey cfg alert.Labels, v)]
    ∧ handleAlerts env cfg status (alert :: rest) w results
        = handleAlerts env cfg status rest (handleAlert env cfg status alert w).1
            (results ++ [successResult cfg status alert v])
    ∧ (∀ env' : Env, ∃ r,
        (storeGetTs env' cfg (threadKey cfg alert.Labels)
            (handleAlert env cfg status alert w).1).2 = some (v, r)
          ∧ (v ≠ "" → r = none))
    ∧ (v ≠ "" → ∀ (env' : Env) (requests : List (Option AlertWebhook)),
        (storeGetTs env' cfg (threadKey cfg alert.Labels)
            (serve env' cfg requests (handleAlert env cfg status alert w).1)).2
          = some (v, none)) := by
  refine ⟨fun w0 k v0 e0 h0 hf0 =>
    ⟨(storeSetTs_remote_fails env cfg k v0 w0 e0 hredis h0 hf0).1,
     (storeSetTs_remote_fails env cfg k v0 w0 e0 hredis h0 hf0).2.1⟩, ?_⟩
  have hgw : storeGetTs env cfg (threadKey cfg alert.Labels) w
      = ((storeGetTs env cfg (threadKey cfg alert.Labels) w).1, some ("", none)) :=
    Prod.ext rfl habsent
  obtain ⟨_, hal1⟩ := storeGetTs_returns env cfg (threadKey cfg alert.Labels) w halloc
  obtain ⟨hrem, _, _⟩ := storeGetTs_frame env cfg (threadKey cfg alert.Labels) w
  obtain ⟨gevs, hgt, _, hgs, _⟩ := storeGetTs_trace env cfg (threadKey cfg alert.Labels) w
  have hp := slackPostMessage_success env "" v _ hok
  obtain ⟨hs1, hs2, hs3, hs4⟩ := storeSetTs_remote_fails env cfg (threadKey cfg alert.Labels) v
    ((storeGetTs env cfg (threadKey cfg alert.Labels) w).1.tick (Event.slackPost "" false)) e
    hredis (by simpa [World.tick] using hal1) (by simpa [World.tick] using hfail)
  have hsw : storeSetTs env cfg (threadKey cfg alert.Labels) v
      ((storeGetTs env cfg (threadKey cfg alert.Labels) w).1.tick (Event.slackPost "" false))
      = ((storeSetTs env cfg (threadKey cfg alert.Labels) v
          ((storeGetTs env cfg (threadKey cfg alert.Labels) w).1.tick
            (Event.slackPost "" false))).1, some (some ("Redis 저장 실패: " ++ e))) :=
    Prod.ext rfl hs1
  have heq := handleAlert_new_thread env cfg status alert w _ _ _ v _ hgw hp hsw
  have hremote : (handleAlert env cfg status alert w).1.remote = w.remote := by
    rw [heq]
    simpa [World.tick, hrem] using hs4
  have hidx : (handleAlert env cfg status alert w).1.threadCache.index
      (threadKey cfg alert.Labels) = v := by
    rw [heq]; exact hs2
  have hal3 : (handleAlert env cfg status alert w).1.threadCache.allocated = true := by
    rw [heq]; exact hs3
  obtain ⟨entries, hc2⟩ : ∃ entries,
      ((storeGetTs env cfg (threadKey cfg alert.Labels) w).1.tick
        (Event.slackPost "" false)).threadCache = .alloc entries := by
    cases hcc : (storeGetTs env cfg (threadKey cfg alert.Labels) w).1.threadCache with
    | nilMap => rw [hcc] at hal1; simp [GoMap.allocated] at hal1
    | alloc entries => exact ⟨entries, by simp [World.tick, hcc]⟩
  obtain ⟨w3', err', sevs, hset', _, _, ht3, _, hss3, _⟩ :=
    storeSetTs_alloc env cfg (threadKey cfg alert.Labels) v _ entries hc2
  refine ⟨by rw [heq], rfl, rfl, hidx, hremote, ?_, by simp [handleAlerts, heq], ?_, ?_⟩
  · rw [heq, hset']
    simp [ht3, World.tick, hgt, eventsSince_append, storeSets_append, hgs, storeSets, hss3]
  · intro env'
    by_cases hv : v = ""
    · rcases storeGetTs_cases env' cfg (threadKey cfg alert.Labels)
          (handleAlert env cfg status alert w).1 with
        ⟨h1, _⟩ | ⟨_, h2, _⟩ | ⟨_, _, e', _, h'⟩ | ⟨_, _, _, _, h'⟩
          | ⟨_, _, _, v', es, hv', _, hl', _⟩ | ⟨hn, _⟩
      · rw [hidx] at h1; exact absurd hv h1
      · exact absurd hredis h2
      · exact ⟨_, by rw [h', hv], fun h => absurd hv h⟩
      · exact ⟨none, by rw [h', hv], fun _ => rfl⟩
      · rw [hremote] at hl'
        rcases storeGetTs_absent_remote env cfg _ w habsent hredis with hn | hn
        · rw [hn] at hl'; simp at hl'
        · rw [hn] at hl'
          exact absurd (Option.some.inj hl').symm hv'
      · rw [hn] at hal3; simp [GoMap.allocated] at hal3
    · refine ⟨none, ?_, fun _ => rfl⟩
      rw [storeGetTs_hit env' cfg _ _ (by rw [hidx]; exact hv), hidx]
  · intro hv env' requests
    have hk := serve_keeps env' cfg requests (threadKey cfg alert.Labels) v hv _ hidx
    rw [storeGetTs_hit env' cfg _ _ (by rw [hk]; exact hv), hk]

/-- C19 at `diskFull`, first of a batch of two, on a fresh process with the
redis backend whose remote store refuses every write. -/
theorem C19_remote_write_fails_witness :
    (handleAlert refusedWrites redisConfig "firing" diskFull freshWorld).2
        = some (successResult redisConfig "firing" diskFull "ts-1")
      ∧ (handleAlert refusedWrites redisConfig "firing" diskFull freshWorld).1.threadCache.index
          (threadKey redisConfig diskFull.Labels) = "ts-1"
      ∧ (handleAlert refusedWrites redisConfig "firing" diskFull freshWorld).1.remote
          = freshWorld.remote
      ∧ (storeGetTs lookupTimeouts redisConfig (threadKey redisConfig diskFull.Labels)
          (serve lookupTimeouts redisConfig
            [some { Status := "resolved", GroupKey := "", Alerts := [cpuHigh, diskFull] }]
            (handleAlert refusedWrites redisConfig "firing" diskFull freshWorld).1)).2
          = some ("ts-1", none) := by
  have h := C19_remote_write_fails refusedWrites redisConfig "firing" diskFull [cpuHigh] []
    freshWorld "ts-1" "connection refused" (by decide) rfl (by decide)
    ⟨200, "", "", by decide⟩ (by decide)
  obtain ⟨_, h2, _, _, h5, h6, _, _, _, h10⟩ := h
  exact ⟨h2, h5, h6, h10 (by decide) lookupTimeouts _⟩

end GoAdvanced

/-! ### The snapshot written by a save and read by a load -/

theorem lookup_of_not_mem_keys (l : List (String × String)) (k : String)
    (h : k ∉ l.map Prod.fst) : l.lookup k = none := by
  induction l with
  | nil => rfl
  | cons p rest ih =>
    obtain ⟨a, b⟩ := p
    simp only [List.map_cons, List.mem_cons, not_or] at h
    have hb : (k == a) = false := by simpa using h.1
    simp only [List.lookup, hb]
    exact ih h.2

theorem lookup_filter (keep : String × String → Bool) (l : List (String × String))
    (k : String) (h : ∀ p : String × String, p.1 = k → keep p = true) :
    (l.filter keep).lookup k = l.lookup k := by
  induction l with
  | nil => rfl
  | cons p rest ih =>
    obtain ⟨a, b⟩ := p
    cases hP : keep (a, b) with
    | true =>
      rw [List.filter_cons_of_pos hP]
      simp only [List.lookup]
      rw [ih]
    | false =>
      rw [List.filter_cons_of_neg (by simp [hP])]
      have hne : ¬ a = k := fun e => by
        have := h (a, b) e
        rw [hP] at this
        exact Bool.noConfusion this
      have hb : (k == a) = false := by simpa using fun e : k = a => hne e.symm
      simp only [List.lookup, hb]
      exact ih

theorem lookup_filter_ne (l : List (String × String)) (k k' : String) (h : k' ≠ k) :
    (l.filter (fun p => decide (p.1 ≠ k))).lookup k' = l.lookup k' :=
  lookup_filter _ l k' (fun p hp => by simpa [hp] using h)

theorem lookup_effectiveEntries (l : List (String × String)) (k : String) :
    (effectiveEntries l).lookup k = l.lookup k := by
  induction l with
  | nil => rfl
  | cons p rest ih =>
    obtain ⟨a, b⟩ := p
    by_cases hka : k = a
    · simp [effectiveEntries, List.lookup, hka]
    · have hb : (k == a) = false := by simpa using hka
      simp only [effectiveEntries, List.lookup, hb]
      rw [lookup_filter_ne _ a k hka, ih]

theorem nodup_effectiveEntries (l : List (String × String)) :
    ((effectiveEntries l).map Prod.fst).Nodup := by
  induction l with
  | nil => simp [effectiveEntries]
  | cons p rest ih =>
    obtain ⟨a, b⟩ := p
    simp only [effectiveEntries, List.map_cons, List.nodup_cons]
    constructor
    · simp [List.mem_map, List.mem_filter]
    · exact List.Nodup.sublist (List.Sublist.map _ (List.filter_sublist _)) ih

theorem mem_keys_insertByKey (p : String × String) (l : List (String × String)) (x : String) :
    x ∈ (insertByKey p l).map Prod.fst ↔ x = p.1 ∨ x ∈ l.map Prod.fst := by
  induction l with
  | nil => simp [insertByKey]
  | cons q rest ih =>
    simp only [insertByKey]
    split_ifs
    · simp
    · simp only [List.map_cons, List.mem_cons, ih]
      tauto

theorem mem_keys_sortByKey (l : List (String × String)) (x : String) :
    x ∈ (sortByKey l).map Prod.fst ↔ x ∈ l.map Prod.fst := by
  induction l with
  | nil => simp [sortByKey]
  | cons p rest ih =>
    simp only [sortByKey, mem_keys_insertByKey, ih, List.map_cons, List.mem_cons]

theorem nodup_insertByKey (p : String × String) (l : List (String × String))
    (hp : p.1 ∉ l.map Prod.fst) (hl : (l.map Prod.fst).Nodup) :
    ((insertByKey p l).map Prod.fst).Nodup := by
  induction l with
  | nil => simp [insertByKey]
  | cons q rest ih =>
    simp only [List.map_cons, List.mem_cons, not_or] at hp
    simp only [List.map_cons, List.nodup_cons] at hl
    simp only [insertByKey]
    split_ifs
    · simp only [List.map_cons, List.nodup_cons, List.mem_cons, not_or]
      exact ⟨⟨hp.1, hp.2⟩, hl.1, hl.2⟩
    · simp only [List.map_cons, List.nodup_cons, mem_keys_insertByKey, not_or]
      exact ⟨⟨fun e => hp.1 e.symm, hl.1⟩, ih hp.2 hl.2⟩

theorem nodup_sortByKey (l : List (String × String)) (h : (l.map Prod.fst).Nodup) :
    ((sortByKey l).map Prod.fst).Nodup := by
  induction l with
  | nil => simp [sortByKey]
  | cons p rest ih =>
    simp only [List.map_cons, List.nodup_cons] at h
    simp only [sortByKey]
    exact nodup_insertByKey p _ (by rw [mem_keys_sortByKey]; exact h.1) (ih h.2)

theorem lookup_insertByKey (p : String × String) (l : List (String × String)) (k : String)
    (hp : p.1 ∉ l.map Prod.fst) :
    (insertByKey p l).lookup k = if k = p.1 then some p.2 else l.lookup k := by
  induction l with
  | nil =>
    by_cases h : k = p.1
    · simp [insertByKey, List.lookup, h]
    · have hb : (k == p.1) = false := by simpa using h
      simp [insertByKey, List.lookup, h, hb]
  | cons q rest ih =>
    simp only [List.map_cons, List.mem_cons, not_or] at hp
    simp only [insertByKey]
    by_cases hle : charsLe p.1.toList q.1.toList = true
    · rw [if_pos hle]
      by_cases h : k = p.1
      · simp [List.lookup, h]
      · have hb : (k == p.1) = false := by simpa using h
        simp [List.lookup, hb, h]
    · rw [if_neg hle]
      by_cases h : k = p.1
      · subst h
        have hq : (p.1 == q.1) = false := by simpa using hp.1
        simp only [List.lookup, hq, ih hp.2, if_true]
      · simp only [List.lookup, ih hp.2, h, if_false]

theorem lookup_sortByKey (l : List (String × String)) (k : String)
    (h : (l.map Prod.fst).Nodup) : (sortByKey l).lookup k = l.lookup k := by
  induction l with
  | nil => rfl
  | cons p rest ih =>
    simp only [List.map_cons, List.nodup_cons] at h
    simp only [sortByKey]
    rw [lookup_insertByKey p _ k (by rw [mem_keys_sortByKey]; exact h.1), ih h.2]
    by_cases hk : k = p.1
    · simp [List.lookup, hk]
    · have hb : (k == p.1) = false := by simpa using hk
      simp [List.lookup, hk, hb]

/-- Decoding the members that a save wrote is assigning them one by one, and
returns no error. -/
theorem unmarshalMembers_str (l acc : List (String × String)) :
    unmarshalMembers (l.map (fun p => (p.1, JsonValue.str p.2))) acc
      = (l.foldl (fun a p => putEntry a p.1 p.2) acc, false) := by
  induction l generalizing acc with
  | nil => rfl
  | cons p rest ih => simp [unmarshalMembers, ih]

theorem lookup_foldl_putEntry (l acc : List (String × String)) (k : String)
    (h : (l.map Prod.fst).Nodup) :
    (l.foldl (fun a p => putEntry a p.1 p.2) acc).lookup k
      = match l.lookup k with
        | some v => some v
        | none => acc.lookup k := by
  induction l generalizing acc with
  | nil => rfl
  | cons p rest ih =>
    obtain ⟨a, b⟩ := p
    simp only [List.map_cons, List.nodup_cons] at h
    simp only [List.foldl_cons]
    rw [ih _ h.2, lookup_putEntry]
    by_cases hk : k = a
    · subst hk
      simp [List.lookup, lookup_of_not_mem_keys rest k h.1]
    · have hb : (k == a) = false := by simpa using hk
      simp [List.lookup, hk, hb]

/-- What a save writes for an allocated cache decodes, without error, into a
cache with the same thread for every key. -/
theorem unmarshal_marshal (entries : List (String × String)) :
    ∃ loaded, unmarshalMap (marshalMap (.alloc entries)) GoMap.make = (.alloc loaded, false)
      ∧ ∀ k, (GoMap.alloc loaded).index k = (GoMap.alloc entries).index k := by
  refine ⟨(sortByKey (effectiveEntries entries)).foldl (fun a p => putEntry a p.1 p.2) [],
    ?_, ?_⟩
  · simp [unmarshalMap, marshalMap, GoMap.make, unmarshalMembers_str]
  · intro k
    simp only [GoMap.index]
    rw [lookup_foldl_putEntry _ [] k (nodup_sortByKey _ (nodup_effectiveEntries entries)),
      lookup_sortByKey _ k (nodup_effectiveEntries entries), lookup_effectiveEntries]
    cases entries.lookup k <;> simp

namespace GoAdvanced

/-- A set with the file backend whose write and rename go through leaves the
serialisation of the new cache at the canonical path. -/
theorem storeSetTs_saved (env : Env) (cfg : Config) (k v : String) (w : World)
    (entries : List (String × String))
    (hfile : cfg.threadStore = "file") (hc : w.threadCache = .alloc entries)
    (hwrite : env.writeFile w.clock = none) (hrename : env.rename (w.clock + 1) = none) :
    storeSetTs env cfg k v w
      = ({ w with threadCache := .alloc (putEntry entries k v),
                  storeFile := some (marshalMap (.alloc (putEntry entries k v))),
                  tmpFile := none, clock := w.clock + 2,
                  trace := w.trace ++ [Event.storeSet k v]
                    ++ [Event.fileWrite, Event.fileRename] }, some none) := by
  have hnr : ¬ (cfg.threadStore = "redis" ∧ cfg.redisClient = true) := by
    rw [hfile]
    exact fun h => absurd h.1 (by decide)
  simp [storeSetTs, hc, GoMap.assign, hnr, saveCacheFile, hfile, hwrite, hrename]

/-- C11, as stated, fails: with the file backend `storeSetTs` returns nil also
when the snapshot could not be written, and the process started again then
has no thread for the key. -/
theorem C11_durability_counterexample :
    (storeSetTs readOnlyDisk fileConfig "k" "1700000000.000100" freshWorld).2 = some none
      ∧ (storeSetTs readOnlyDisk fileConfig "k" "1700000000.000100" freshWorld).1.storeFile
          = none
      ∧ (storeGetTs readOnlyDisk fileConfig "k"
          (loadCacheFile readOnlyDisk fileConfig
            (restart (storeSetTs readOnlyDisk fileConfig "k" "1700000000.000100"
              freshWorld).1)).1).2
          = some ("", none) := by
  refine ⟨by decide, by decide, by decide⟩

/-- C11, amended: with the file backend and an allocated cache, for every key
`k` and thread id `v`, `storeSetTs(k, v)` returns nil whatever becomes of the
write and the rename; and when the write of the temporary file and the rename
go through, the canonical path holds the serialisation of the cache, and a
process started again with an empty cache whose read of this file goes
through loads it with `loadCacheFile` without error, has the same thread as
the old cache for every key, and `storeGetTs(k)` returns `v` without error. -/
theorem C11_durability (env : Env) (cfg : Config) (k v : String) (w : World)
    (hfile : cfg.threadStore = "file") (halloc : w.threadCache.allocated = true) :
    (storeSetTs env cfg k v w).2 = some none
      ∧ (env.writeFile w.clock = none → env.rename (w.clock + 1) = none →
          (storeSetTs env cfg k v w).1.storeFile
              = some (marshalMap (storeSetTs env cfg k v w).1.threadCache)
            ∧ (env.readFile (storeSetTs env cfg k v w).1.clock = none →
                (∃ n, (loadCacheFile env cfg (restart (storeSetTs env cfg k v w).1)).2
                    = .loaded n)
                  ∧ (∀ k',
                      (loadCacheFile env cfg
                        (restart (storeSetTs env cfg k v w).1)).1.threadCache.index k'
                        = (storeSetTs env cfg k v w).1.threadCache.index k')
                  ∧ (storeGetTs env cfg k
                      (loadCacheFile env cfg (restart (storeSetTs env cfg k v w).1)).1).2
                      = some (v, none))) := by
  obtain ⟨entries, hc, _⟩ := assign_of_allocated w.threadCache k v halloc
  have hnr : ¬ (cfg.threadStore = "redis" ∧ cfg.redisClient = true) := by
    rw [hfile]
    exact fun h => absurd h.1 (by decide)
  refine ⟨by simp [storeSetTs, hc, GoMap.assign, hnr], fun hwrite hrename => ?_⟩
  have hset := storeSetTs_saved env cfg k v w entries hfile hc hwrite hrename
  rw [hset]
  refine ⟨rfl, fun hread => ?_⟩
  obtain ⟨loaded, hun, hsame⟩ := unmarshal_marshal (putEntry entries k v)
  have hload : loadCacheFile env cfg
      (restart { w with threadCache := .alloc (putEntry entries k v),
                        storeFile := some (marshalMap (.alloc (putEntry entries k v))),
                        tmpFile := none, clock := w.clock + 2,
                        trace := w.trace ++ [Event.storeSet k v]
                          ++ [Event.fileWrite, Event.fileRename] })
      = ({ w with threadCache := .alloc loaded,
                  storeFile := some (marshalMap (.alloc (putEntry entries k v))),
                  tmpFile := none, clock := w.clock + 2 + 1,
                  trace := w.trace ++ [Event.storeSet k v]
                    ++ [Event.fileWrite, Event.fileRename] ++ [Event.fileRead] },
          .loaded (GoMap.alloc loaded).len) := by
    simp only at hread
    simp [loadCacheFile, restart, hfile, World.tick, hread, hun]
  rw [hload]
  have hidx : (GoMap.alloc loaded).index k = v := by
    rw [hsame, index_putEntry]
    simp
  refine ⟨⟨_, rfl⟩, fun k' => hsame k', ?_⟩
  by_cases hv : v = ""
  · subst hv
    simp [storeGetTs, hidx, hnr]
  · rw [storeGetTs_hit env cfg k _ (by simpa [hidx] using hv)]
    simp [hidx]

/-- C11 (amended) at the key `"k"` on a fresh process with the file backend
and a file system that works. -/
theorem C11_durability_witness :
    (storeSetTs calmEnv fileConfig "k" "1700000000.000100" freshWorld).2 = some none
      ∧ (storeGetTs calmEnv fileConfig "k"
          (loadCacheFile calmEnv fileConfig
            (restart (storeSetTs calmEnv fileConfig "k" "1700000000.000100"
              freshWorld).1)).1).2
          = some ("1700000000.000100", none) := by
  have h := C11_durability calmEnv fileConfig "k" "1700000000.000100" freshWorld
    rfl rfl
  exact ⟨h.1, ((h.2 rfl rfl).2 rfl).2.2⟩

/-- C12: whenever a run of `saveCacheFile` ends (the process killed after the
serialisation, in the middle of the write of the temporary file, after that
write, or not at all) and whichever of its steps fail, the canonical path
holds either what it held before or the serialisation of the whole current
cache; it holds the latter exactly when the run was not killed and the write
and the rename went through, and a run that was killed earlier or had a step
fail leaves the canonical path as it was. The serialisation has, for an
allocated cache, the thread of every key of the cache. -/
theorem C12_snapshot_atomic (stop : SaveStop) (env : Env) (cfg : Config) (w : World) :
    ((saveCacheFileUntil stop env cfg w).storeFile = w.storeFile
        ∨ (saveCacheFileUntil stop env cfg w).storeFile = some (marshalMap w.threadCache))
      ∧ saveCacheFileUntil .never env cfg w = saveCacheFile env cfg w
      ∧ (stop ≠ .never → (saveCacheFileUntil stop env cfg w).storeFile = w.storeFile)
      ∧ (env.writeFile w.clock ≠ none ∨ env.rename (w.clock + 1) ≠ none →
          (saveCacheFile env cfg w).storeFile = w.storeFile)
      ∧ (cfg.threadStore = "file" → env.writeFile w.clock = none →
          env.rename (w.clock + 1) = none →
          (saveCacheFile env cfg w).storeFile = some (marshalMap w.threadCache))
      ∧ (∀ entries, w.threadCache = .alloc entries →
          ∃ written : List (String × String), marshalMap w.threadCache
              = .jsonObject (written.map (fun p => (p.1, JsonValue.str p.2)))
            ∧ ∀ k, written.lookup k = entries.lookup k) := by
  have hfull : (saveCacheFile env cfg w).storeFile = w.storeFile
      ∨ (saveCacheFile env cfg w).storeFile = some (marshalMap w.threadCache) := by
    unfold saveCacheFile
    split_ifs
    · exact Or.inl rfl
    · cases env.writeFile w.clock with
      | some e => exact Or.inl rfl
      | none =>
        cases env.rename (w.clock + 1) with
        | some e => exact Or.inl rfl
        | none => exact Or.inr rfl
  have hearly : stop ≠ .never → (saveCacheFileUntil stop env cfg w).storeFile = w.storeFile := by
    intro hs
    unfold saveCacheFileUntil
    split_ifs
    · rfl
    · cases stop with
      | afterMarshal => rfl
      | duringWrite => rfl
      | afterWrite => cases env.writeFile w.clock <;> rfl
      | never => exact absurd rfl hs
  have hnever : saveCacheFileUntil .never env cfg w = saveCacheFile env cfg w := by
    unfold saveCacheFileUntil
    split_ifs with h
    · simp [saveCacheFile, h]
    · rfl
  refine ⟨?_, hnever, hearly, ?_, ?_, ?_⟩
  · by_cases hs : stop = .never
    · rw [hs, hnever]
      exact hfull
    · exact Or.inl (hearly hs)
  · intro hfailed
    unfold saveCacheFile
    split_ifs
    · rfl
    · cases hw : env.writeFile w.clock with
      | some e => rfl
      | none =>
        cases hr : env.rename (w.clock + 1) with
        | some e => rfl
        | none =>
          rcases hfailed with h | h
          · exact absurd hw h
          · exact absurd hr h
  · intro hfile hw hr
    simp [saveCacheFile, hfile, hw, hr]
  · intro entries hc
    refine ⟨sortByKey (effectiveEntries entries), by rw [hc]; rfl, fun k => ?_⟩
    rw [lookup_sortByKey _ k (nodup_effectiveEntries entries), lookup_effectiveEntries]

/-! ### Loading a snapshot that is not one, and clearing -/

/-- A load that finds no file, cannot read it, or reads bytes that are not
JSON or a JSON value that is neither an object nor `null`, leaves the cache as
it was. -/
theorem loadCacheFile_unchanged (env : Env) (cfg : Config) (w : World)
    (h : env.readFile w.clock ≠ none ∨ w.storeFile = none
      ∨ w.storeFile = some .notJson ∨ w.storeFile = some .jsonOther) :
    (loadCacheFile env cfg w).1.threadCache = w.threadCache
      ∧ ∀ n, (loadCacheFile env cfg w).2 ≠ .loaded n := by
  unfold loadCacheFile
  split_ifs with hf
  · exact ⟨rfl, fun n => by simp⟩
  · cases hr : env.readFile w.clock with
    | some e => exact ⟨rfl, fun n => by simp⟩
    | none =>
      rcases h with h | h | h | h
      · exact absurd hr h
      · simp [h, World.tick]
      · simp [h, World.tick, unmarshalMap]
      · simp [h, World.tick, unmarshalMap]

/-- C13, the code at the failing input: a snapshot file that is an object
with the members `a` (a string), `b` (a number) and `c` (a string). The load
reports a parse failure, and the cache is not empty: it has the three keys,
and the lookup of `c` returns its thread. -/
theorem C13_partial_load :
    (loadCacheFile calmEnv fileConfig corruptSnapshot).2 = .parseFailed
      ∧ corruptSnapshot.threadCache = GoMap.make
      ∧ (loadCacheFile calmEnv fileConfig corruptSnapshot).1.threadCache
          = .alloc [("a", "1700000000.000100"), ("b", ""), ("c", "1700000000.000300")]
      ∧ (loadCacheFile calmEnv fileConfig corruptSnapshot).1.threadCache.len = 3
      ∧ (storeGetTs calmEnv fileConfig "c"
          (loadCacheFile calmEnv fileConfig corruptSnapshot).1).2
          = some ("1700000000.000300", none) := by
  refine ⟨by decide, by decide, by decide, by decide, by decide⟩

theorem keyUnder_self (pref k : String) : keyUnder pref (pref ++ ":" ++ k) = true := by
  unfold keyUnder
  simp [String.toList, String.data_append, List.isPrefixOf_iff_prefix]

/-- Clearing always leaves an empty allocated cache and never touches the files. -/
theorem clearCacheHandler_local (env : Env) (cfg : Config) (w : World) :
    (clearCacheHandler env cfg w).threadCache = GoMap.make
      ∧ (clearCacheHandler env cfg w).storeFile = w.storeFile
      ∧ (clearCacheHandler env cfg w).tmpFile = w.tmpFile := by
  unfold clearCacheHandler
  simp only [World.tick]
  split_ifs <;> (try split) <;> (try split) <;> simp

/-- After a clear whose listing and deletion go through the remote store has
no key under the namespace. -/
theorem clearCacheHandler_remote (env : Env) (cfg : Config) (w : World)
    (hredis : cfg.threadStore = "redis" ∧ cfg.redisClient = true)
    (hkeys : env.redisKeys w.clock = none) (hdel : env.redisDel (w.clock + 1) = none) :
    ∀ p ∈ (clearCacheHandler env cfg w).remote, keyUnder cfg.redisKeyPrefix p.1 = false := by
  intro p hp
  by_cases hnone : (w.remote.filter (fun p => keyUnder cfg.redisKeyPrefix p.1)).map
      (fun p => p.1) = []
  · have hrem : (clearCacheHandler env cfg w).remote = w.remote := by
      simp [clearCacheHandler, hredis, hkeys, World.tick, hnone]
    rw [hrem] at hp
    have hfil : w.remote.filter (fun p => keyUnder cfg.redisKeyPrefix p.1) = [] := by
      simpa using hnone
    rw [List.filter_eq_nil_iff] at hfil
    simpa using hfil p hp
  · have hrem : (clearCacheHandler env cfg w).remote
        = w.remote.filter (fun p => ¬ keyUnder cfg.redisKeyPrefix p.1) := by
      simp [clearCacheHandler, hredis, hkeys, World.tick, hnone, hdel]
    rw [hrem, List.mem_filter] at hp
    simpa using hp.2

/-- C14, as stated, fails: with the redis backend, when the deletion of the
remote keys is refused, the lookup after the clear finds the thread in the
remote store and returns it. -/
theorem C14_get_after_clear_counterexample :
    storedThread.threadCache.index "k" = "1700000000.000100"
      ∧ (clearCacheHandler deletionsRefused redisConfig storedThread).threadCache = GoMap.make
      ∧ (storeGetTs deletionsRefused redisConfig "k"
          (clearCacheHandler deletionsRefused redisConfig storedThread)).2
          = some ("1700000000.000100", none) := by
  refine ⟨by decide, by decide, by decide⟩

/-- C14, amended: after `clearCacheHandler` the cache is empty; without the
redis backend (so with the file backend) `storeGetTs(k)` then returns the
empty thread id, for every key; with the redis backend it returns the empty
thread id for every key when the listing and the deletion of the remote keys
went through. -/
theorem C14_get_after_clear (env env' : Env) (cfg : Config) (w : World) (k : String) :
    (clearCacheHandler env cfg w).threadCache = GoMap.make
      ∧ (¬ (cfg.threadStore = "redis" ∧ cfg.redisClient = true) →
          storeGetTs env' cfg k (clearCacheHandler env cfg w)
            = (clearCacheHandler env cfg w, some ("", none)))
      ∧ (cfg.threadStore = "redis" ∧ cfg.redisClient = true →
          env.redisKeys w.clock = none → env.redisDel (w.clock + 1) = none →
          ∃ r, (storeGetTs env' cfg k (clearCacheHandler env cfg w)).2 = some ("", r)) := by
  obtain ⟨hcache, _, _⟩ := clearCacheHandler_local env cfg w
  have hidx : (clearCacheHandler env cfg w).threadCache.index k = "" := by
    rw [hcache]; rfl
  refine ⟨hcache, fun hnr => by simp [storeGetTs, hidx, hnr], ?_⟩
  intro hredis hkeys hdel
  have hclean := clearCacheHandler_remote env cfg w hredis hkeys hdel
  have hlook : (clearCacheHandler env cfg w).remote.lookup (cfg.redisKeyPrefix ++ ":" ++ k)
      = none := by
    apply lookup_of_not_mem_keys
    intro hm
    obtain ⟨p, hp, hpk⟩ := List.mem_map.mp hm
    have := hclean p hp
    rw [hpk, keyUnder_self] at this
    exact Bool.noConfusion this
  rcases storeGetTs_cases env' cfg k (clearCacheHandler env cfg w) with
    ⟨h1, _⟩ | ⟨_, _, h'⟩ | ⟨_, _, e, _, h'⟩ | ⟨_, _, _, _, h'⟩
      | ⟨_, _, _, v, es, _, _, hl, _⟩ | ⟨hn, _⟩
  · exact absurd hidx h1
  · exact ⟨none, by rw [h']⟩
  · exact ⟨_, by rw [h']⟩
  · exact ⟨none, by rw [h']⟩
  · rw [hlook] at hl; simp at hl
  · rw [hcache] at hn; simp [GoMap.make] at hn

/-- C14 (amended) at the key `"k"` of a process that has set it, with the file
backend and with the redis backend and a remote store that works. -/
theorem C14_get_after_clear_witness :
    storeGetTs calmEnv fileConfig "k" (clearCacheHandler calmEnv fileConfig storedThread)
        = (clearCacheHandler calmEnv fileConfig storedThread, some ("", none))
      ∧ ∃ r, (storeGetTs calmEnv redisConfig "k"
          (clearCacheHandler calmEnv redisConfig storedThread)).2 = some ("", r) :=
  ⟨(C14_get_after_clear calmEnv calmEnv fileConfig storedThread "k").2.1 (by decide),
   (C14_get_after_clear calmEnv calmEnv redisConfig storedThread "k").2.2 (by decide) rfl rfl⟩

/-- C16, the code at the failing input: `clearCacheHandler` never touches the
snapshot file. With the file backend, after a set of the key `"k"` that was
saved, a clear leaves the snapshot in place, and the process started again
loads it and returns the thread of `"k"`. -/
theorem C16_clear_keeps_snapshot :
    (∀ (env : Env) (cfg : Config) (w : World),
        (clearCacheHandler env cfg w).storeFile = w.storeFile)
      ∧ (storeSetTs calmEnv fileConfig "k" "1700000000.000100" freshWorld).1.storeFile
          = some (.jsonObject [("k", .str "1700000000.000100")])
      ∧ (clearCacheHandler calmEnv fileConfig
          (storeSetTs calmEnv fileConfig "k" "1700000000.000100" freshWorld).1).storeFile
          = some (.jsonObject [("k", .str "1700000000.000100")])
      ∧ (clearCacheHandler calmEnv fileConfig
          (storeSetTs calmEnv fileConfig "k" "1700000000.000100" freshWorld).1).threadCache
          = GoMap.make
      ∧ (loadCacheFile calmEnv fileConfig
          (restart (clearCacheHandler calmEnv fileConfig
            (storeSetTs calmEnv fileConfig "k" "1700000000.000100"
              freshWorld).1))).1.threadCache
          = .alloc [("k", "1700000000.000100")]
      ∧ (storeGetTs calmEnv fileConfig "k"
          (loadCacheFile calmEnv fileConfig
            (restart (clearCacheHandler calmEnv fileConfig
              (storeSetTs calmEnv fileConfig "k" "1700000000.000100" freshWorld).1))).1).2
          = some ("1700000000.000100", none) := by
  refine ⟨fun env cfg w => (clearCacheHandler_local env cfg w).2.1, by decide, by decide,
    by decide, by decide, by decide⟩

end GoAdvanced

namespace GoAdvancedRedis

/-- C15: `cacheHandler` with method DELETE and the file backend leaves an empty
cache in every case. When `os.Remove` removes the backing file (it returns
nil) the handler answers success and the file is absent. When there is no
backing file (`os.Remove` returns `os.ErrNotExist`) the handler answers
success all the same and the file is absent. When the removal fails for
another reason the handler answers the 500 with the text of that failure and
the file is as it was. It answers an error in no other case. -/
theorem C15_delete_file_backend (env : Env) (cfg : Config) (w : World)
    (hfile : cfg.storeKind = "file") :
    (cacheHandler env cfg "DELETE" w).1.mem = GoMap.make
      ∧ (cacheHandler env cfg "DELETE" w).1.mem.len = 0
      ∧ (env.removeFile w.clock = none → w.storeFile ≠ none →
          (osRemove env { w with mem := GoMap.make }).2 = none
            ∧ (cacheHandler env cfg "DELETE" w).2 = .cleared
            ∧ (cacheHandler env cfg "DELETE" w).1.storeFile = none)
      ∧ (env.removeFile w.clock = none → w.storeFile = none →
          (osRemove env { w with mem := GoMap.make }).2 = some .notExist
            ∧ (cacheHandler env cfg "DELETE" w).2 = .cleared
            ∧ (cacheHandler env cfg "DELETE" w).1.storeFile = none)
      ∧ (∀ e, env.removeFile w.clock = some e →
          (osRemove env { w with mem := GoMap.make }).2 = some (.other e)
            ∧ (cacheHandler env cfg "DELETE" w).2
                = .serverError ("Error deleting cache file: " ++ e)
            ∧ (cacheHandler env cfg "DELETE" w).1.storeFile = w.storeFile)
      ∧ (∀ msg, (cacheHandler env cfg "DELETE" w).2 = .serverError msg →
          ∃ e, env.removeFile w.clock = some e
            ∧ (osRemove env { w with mem := GoMap.make }).2 = some (.other e)) := by
  have hsf : w.storeFile = none ∨ ∃ data, w.storeFile = some data := by
    cases w.storeFile with
    | none => exact Or.inl rfl
    | some data => exact Or.inr ⟨data, rfl⟩
  cases hr : env.removeFile w.clock with
  | none =>
    rcases hsf with hs | ⟨data, hs⟩
    · have hrm : osRemove env { w with mem := GoMap.make }
          = ({ w with mem := GoMap.make, clock := w.clock + 1,
                      trace := w.trace ++ [Event.fileRemove true] }, some .notExist) := by
        simp [osRemove, hr, hs, World.tick]
      have heq : cacheHandler env cfg "DELETE" w
          = ({ w with mem := GoMap.make, clock := w.clock + 1,
                      trace := w.trace ++ [Event.fileRemove true] }, .cleared) := by
        simp [cacheHandler, hfile, hrm, RemoveError.isNotExist]
      rw [heq, hrm]
      refine ⟨rfl, rfl, fun _ h => absurd hs h, fun _ _ => ⟨rfl, rfl, hs⟩,
        fun e he => by simp at he, fun msg hm => by simp at hm⟩
    · have hrm : osRemove env { w with mem := GoMap.make }
          = ({ w with mem := GoMap.make, storeFile := none, clock := w.clock + 1,
                      trace := w.trace ++ [Event.fileRemove false] }, none) := by
        simp [osRemove, hr, hs, World.tick]
      have heq : cacheHandler env cfg "DELETE" w
          = ({ w with mem := GoMap.make, storeFile := none, clock := w.clock + 1,
                      trace := w.trace ++ [Event.fileRemove false] }, .cleared) := by
        simp [cacheHandler, hfile, hrm]
      rw [heq, hrm]
      refine ⟨rfl, rfl, fun _ _ => ⟨rfl, rfl, rfl⟩, fun _ h => by rw [hs] at h; simp at h,
        fun e he => by simp at he, fun msg hm => by simp at hm⟩
  | some e =>
    have hrm : osRemove env { w with mem := GoMap.make }
        = ({ w with mem := GoMap.make, clock := w.clock + 1,
                    trace := w.trace ++ [Event.fileRemove true] }, some (.other e)) := by
      simp [osRemove, hr, World.tick]
    have heq : cacheHandler env cfg "DELETE" w
        = ({ w with mem := GoMap.make, clock := w.clock + 1,
                    trace := w.trace ++ [Event.fileRemove true] },
            .serverError ("Error deleting cache file: " ++ e)) := by
      simp [cacheHandler, hfile, hrm, RemoveError.isNotExist, RemoveError.text]
    rw [heq, hrm]
    refine ⟨rfl, rfl, fun h => by simp at h, fun h => by simp at h, fun e' he => ?_,
      fun msg _ => ⟨e, rfl, rfl⟩⟩
    rw [Option.some.inj he]
    exact ⟨rfl, rfl, rfl⟩

/-- C15 at a process that has saved a thread, with a file system that works
and with one that refuses the removal, and at a process that has no backing
file. -/
theorem C15_delete_file_backend_witness :
    ((cacheHandler calmEnv fileConfig "DELETE" savedThread).1.mem = GoMap.make
        ∧ savedThread.storeFile ≠ none
        ∧ (cacheHandler calmEnv fileConfig "DELETE" savedThread).2 = .cleared
        ∧ (cacheHandler calmEnv fileConfig "DELETE" savedThread).1.storeFile = none)
      ∧ (knownThread.storeFile = none
        ∧ (osRemove calmEnv { knownThread with mem := GoMap.make }).2 = some .notExist
        ∧ (cacheHandler calmEnv fileConfig "DELETE" knownThread).2 = .cleared
        ∧ (cacheHandler calmEnv fileConfig "DELETE" knownThread).1.storeFile = none)
      ∧ ((cacheHandler removalDenied fileConfig "DELETE" savedThread).2
          = .serverError ("Error deleting cache file: " ++ "permission denied")
        ∧ (cacheHandler removalDenied fileConfig "DELETE" savedThread).1.storeFile
          = savedThread.storeFile) := by
  have h1 := C15_delete_file_backend calmEnv fileConfig savedThread rfl
  have h2 := C15_delete_file_backend calmEnv fileConfig knownThread rfl
  have h3 := C15_delete_file_backend removalDenied fileConfig savedThread rfl
  exact ⟨⟨h1.1, by decide, (h1.2.2.1 rfl (by decide)).2.1, (h1.2.2.1 rfl (by decide)).2.2⟩,
    ⟨rfl, (h2.2.2.2.1 rfl rfl).1, (h2.2.2.2.1 rfl rfl).2.1, (h2.2.2.2.1 rfl rfl).2.2⟩,
    ⟨(h3.2.2.2.2.1 "permission denied" rfl).2.1, (h3.2.2.2.2.1 "permission denied" rfl).2.2⟩⟩

end GoAdvancedRedis

/-! ### The delimited key is injective on fields without delimiter -/

/-- A delimited string determines its first field and the rest when the first
field holds no delimiter. -/
theorem bar_join_inj (a b x y : String) (ha : hasBar a = false) (hb : hasBar b = false)
    (h : a ++ ("|" ++ x) = b ++ ("|" ++ y)) : a = b ∧ x = y := by
  have hd := congrArg String.data h
  simp only [String.data_append] at hd
  have := bar_split a.data b.data x.data y.data (hasBar_false a ha) (hasBar_false b hb)
    (by simpa using hd)
  exact ⟨String.ext this.1, String.ext this.2⟩

namespace GoAdvanced

/-- The key, fields nested to the right. -/
theorem threadKey_nested (cfg : Config) (labels : GoMap) :
    threadKey cfg labels
      = labelOr labels "alertname" "unknown" ++ ("|" ++ (labelOr labels "severity" "info"
          ++ ("|" ++ (labelOr labels "service" "unknown"
            ++ ("|" ++ (labelOr labels "cluster" "default" ++ ("|" ++ cfg.environment))))))) := by
  simp only [threadKey, labelOr_eq, String.append_assoc]

/-- C23: for two label maps whose defaulted alertname, severity, service and
cluster hold no bar, `threadKey` returns the same key (under one environment)
if and only if the four defaulted values are equal one by one. -/
theorem C23_key_injective (cfg : Config) (l1 l2 : GoMap)
    (hn1 : hasBar (labelOr l1 "alertname" "unknown") = false)
    (hn2 : hasBar (labelOr l2 "alertname" "unknown") = false)
    (hs1 : hasBar (labelOr l1 "severity" "info") = false)
    (hs2 : hasBar (labelOr l2 "severity" "info") = false)
    (hv1 : hasBar (labelOr l1 "service" "unknown") = false)
    (hv2 : hasBar (labelOr l2 "service" "unknown") = false)
    (hc1 : hasBar (labelOr l1 "cluster" "default") = false)
    (hc2 : hasBar (labelOr l2 "cluster" "default") = false) :
    threadKey cfg l1 = threadKey cfg l2
      ↔ (labelOr l1 "alertname" "unknown" = labelOr l2 "alertname" "unknown"
          ∧ labelOr l1 "severity" "info" = labelOr l2 "severity" "info"
          ∧ labelOr l1 "service" "unknown" = labelOr l2 "service" "unknown"
          ∧ labelOr l1 "cluster" "default" = labelOr l2 "cluster" "default") := by
  rw [threadKey_nested, threadKey_nested]
  constructor
  · intro h
    obtain ⟨e1, h⟩ := bar_join_inj _ _ _ _ hn1 hn2 h
    obtain ⟨e2, h⟩ := bar_join_inj _ _ _ _ hs1 hs2 h
    obtain ⟨e3, h⟩ := bar_join_inj _ _ _ _ hv1 hv2 h
    obtain ⟨e4, _⟩ := bar_join_inj _ _ _ _ hc1 hc2 h
    exact ⟨e1, e2, e3, e4⟩
  · rintro ⟨e1, e2, e3, e4⟩
    rw [e1, e2, e3, e4]

/-- C23 at `diskFull` and `cpuHigh`: their keys differ, as their defaulted
fields do. -/
theorem C23_key_injective_witness :
    threadKey fileConfig diskFull.Labels = threadKey fileConfig cpuHigh.Labels
      ↔ (labelOr diskFull.Labels "alertname" "unknown"
            = labelOr cpuHigh.Labels "alertname" "unknown"
          ∧ labelOr diskFull.Labels "severity" "info" = labelOr cpuHigh.Labels "severity" "info"
          ∧ labelOr diskFull.Labels "service" "unknown"
            = labelOr cpuHigh.Labels "service" "unknown"
          ∧ labelOr diskFull.Labels "cluster" "default"
            = labelOr cpuHigh.Labels "cluster" "default") :=
  C23_key_injective fileConfig diskFull.Labels cpuHigh.Labels (by decide) (by decide)
    (by decide) (by decide) (by decide) (by decide) (by decide) (by decide)

/-! ### The remote entry of a key -/

/-- C21: with the redis backend, for every key `k` and non-empty thread id
`v`, when `storeSetTs(k, v)` returns nil: the one remote write of the call is
that of `v` under `prefix + ":" + k` with expiration 0 (none); the remote store
then holds `v` under that key and every other remote key as before; and a
process started again with an empty cache, whose remote lookup goes through,
gets `v` without error from `storeGetTs(k)` and has it in its cache
afterwards. -/
theorem C21_remote_entry (env env' : Env) (cfg : Config) (k v : String) (w : World)
    (hredis : cfg.threadStore = "redis" ∧ cfg.redisClient = true)
    (hv : v ≠ "")
    (hok : (storeSetTs env cfg k v w).2 = some none)
    (hget : env'.redisGet (restart (storeSetTs env cfg k v w).1).clock = none) :
    eventsSince w.trace (storeSetTs env cfg k v w).1.trace
        = [Event.storeSet k v, Event.redisSet (cfg.redisKeyPrefix ++ ":" ++ k) v 0]
      ∧ (storeSetTs env cfg k v w).1.remote.lookup (cfg.redisKeyPrefix ++ ":" ++ k) = some v
      ∧ (∀ rkey, rkey ≠ cfg.redisKeyPrefix ++ ":" ++ k →
          (storeSetTs env cfg k v w).1.remote.lookup rkey = w.remote.lookup rkey)
      ∧ (restart (storeSetTs env cfg k v w).1).threadCache = GoMap.make
      ∧ (storeGetTs env' cfg k (restart (storeSetTs env cfg k v w).1)).2 = some (v, none)
      ∧ (storeGetTs env' cfg k (restart (storeSetTs env cfg k v w).1)).1.threadCache.index k
          = v := by
  have hcache : w.threadCache = .nilMap ∨ ∃ entries, w.threadCache = .alloc entries := by
    cases w.threadCache with
    | nilMap => exact Or.inl rfl
    | alloc entries => exact Or.inr ⟨entries, rfl⟩
  rcases hcache with hc | ⟨entries, hc⟩
  · simp [storeSetTs, hc, GoMap.assign] at hok
  · cases hs : env.redisSet w.clock with
    | some e => simp [storeSetTs, hc, GoMap.assign, hredis, World.tick, hs] at hok
    | none =>
      have heq : storeSetTs env cfg k v w
          = ({ w with threadCache := .alloc (putEntry entries k v),
                      remote := putEntry w.remote (cfg.redisKeyPrefix ++ ":" ++ k) v,
                      clock := w.clock + 1,
                      trace := w.trace ++ [Event.storeSet k v]
                        ++ [Event.redisSet (cfg.redisKeyPrefix ++ ":" ++ k) v 0] },
              some none) := by
        simp [storeSetTs, hc, GoMap.assign, hredis, World.tick, hs]
      rw [heq] at hget ⊢
      have hlook : (putEntry w.remote (cfg.redisKeyPrefix ++ ":" ++ k) v).lookup
          (cfg.redisKeyPrefix ++ ":" ++ k) = some v := by
        rw [lookup_putEntry]; simp
      have hres : (storeGetTs env' cfg k
          (restart { w with threadCache := .alloc (putEntry entries k v),
                            remote := putEntry w.remote (cfg.redisKeyPrefix ++ ":" ++ k) v,
                            clock := w.clock + 1,
                            trace := w.trace ++ [Event.storeSet k v]
                              ++ [Event.redisSet (cfg.redisKeyPrefix ++ ":" ++ k) v 0] })).2
          = some (v, none) := by
        simp only [restart] at hget
        simp [storeGetTs, restart, GoMap.make, GoMap.index, hredis, hget, hlook, hv,
          World.tick, GoMap.assign]
      refine ⟨?_, hlook, fun rkey hr => ?_, rfl, hres, ?_⟩
      · simp [List.append_assoc, eventsSince_append]
      · simp only [lookup_putEntry, hr, if_false]
      · exact (storeGetTs_found env' cfg k _ v none hv hres).2.1

/-- C21 at the key `"k"` on a fresh process with the redis backend and a
remote store that works. -/
theorem C21_remote_entry_witness :
    eventsSince freshWorld.trace
        (storeSetTs calmEnv redisConfig "k" "1700000000.000100" freshWorld).1.trace
        = [Event.storeSet "k" "1700000000.000100",
           Event.redisSet (redisConfig.redisKeyPrefix ++ ":" ++ "k") "1700000000.000100" 0]
      ∧ (storeSetTs calmEnv redisConfig "k" "1700000000.000100" freshWorld).1.remote.lookup
          (redisConfig.redisKeyPrefix ++ ":" ++ "k") = some "1700000000.000100"
      ∧ (storeGetTs calmEnv redisConfig "k"
          (restart (storeSetTs calmEnv redisConfig "k" "1700000000.000100" freshWorld).1)).2
          = some ("1700000000.000100", none) := by
  have h := C21_remote_entry calmEnv calmEnv redisConfig "k" "1700000000.000100" freshWorld
    (by decide) (by decide) (by decide) rfl
  exact ⟨h.1, h.2.1, h.2.2.2.2.1⟩

/-! ### The empty thread id -/

/-- On an allocated cache, an iteration whose lookup returns `t` without error
makes exactly one dispatch call, with `t`. -/
theorem handleAlert_dispatches (env : Env) (cfg : Config) (status : String) (alert : Alert)
    (w : World) (t : String) (h : w.threadCache.allocated = true)
    (hg : (storeGetTs env cfg (threadKey cfg alert.Labels) w).2 = some (t, none)) :
    ∃ w' r evs, handleAlert env cfg status alert w = (w', some r)
      ∧ w'.trace = w.trace ++ evs ∧ dispatches evs = [t] := by
  obtain ⟨_, hal⟩ := storeGetTs_returns env cfg (threadKey cfg alert.Labels) w h
  obtain ⟨gevs, hgt, hgd, _, _, _⟩ := storeGetTs_trace env cfg (threadKey cfg alert.Labels) w
  rcases handleAlert_cases env cfg status alert w h with
    ⟨t', e, hg', heq⟩ | ⟨t', e, he, hg', heq⟩ | ⟨ts, err, w3, hg', hs, hset, heq⟩
      | ⟨t', ts, ht, hg', hs, heq⟩
  · rw [hg] at hg'
    simp at hg'
  · rw [hg] at hg'
    simp at hg'
    subst hg'
    exact ⟨_, _, gevs ++ [Event.slackPost t true], heq, by simp [World.tick, hgt],
      by simp [dispatches_append, hgd, dispatches]⟩
  · rw [hg] at hg'
    simp at hg'
    subst hg'
    obtain ⟨entries, hc⟩ : ∃ entries,
        ((storeGetTs env cfg (threadKey cfg alert.Labels) w).1.tick
          (Event.slackPost "" false)).threadCache = .alloc entries := by
      cases hcc : (storeGetTs env cfg (threadKey cfg alert.Labels) w).1.threadCache with
      | nilMap => rw [hcc] at hal; simp [GoMap.allocated] at hal
      | alloc entries => exact ⟨entries, by simp [World.tick, hcc]⟩
    obtain ⟨w', err', sevs, hset', _, _, ht3, hd3, _⟩ :=
      storeSetTs_alloc env cfg (threadKey cfg alert.Labels) ts _ entries hc
    rw [hset] at hset'
    have hw : w3 = w' := congrArg Prod.fst hset'
    subst hw
    refine ⟨w3, _, gevs ++ Event.slackPost "" false
      :: Event.storeSet (threadKey cfg alert.Labels) ts :: sevs, heq, ?_, ?_⟩
    · rw [ht3]
      simp [World.tick, hgt]
    · simp [dispatches_append, hgd, dispatches, hd3]
  · rw [hg] at hg'
    simp at hg'
    subst hg'
    exact ⟨_, _, gevs ++ [Event.slackPost t false], heq, by simp [World.tick, hgt],
      by simp [dispatches_append, hgd, dispatches]⟩

/-- C25, as stated, fails when the remote lookup of the next request fails:
on a fresh process with the redis backend the first sighting of `diskFull` is
dispatched, answered without thread id, stored as the empty string and
reported as a success; the lookup of the second request times out, so that
request is answered with an error result and the alert is not dispatched
again. -/
theorem C25_empty_thread_id_counterexample :
    (alertHandler laterLookupDown redisConfig
        (some { Status := "firing", GroupKey := "", Alerts := [diskFull] }) freshWorld).2
        = .ok { OK := true, Count := 1, Status := "firing",
                Results := [successResult redisConfig "firing" diskFull ""], Error := "" }
      ∧ storeSets (alertHandler laterLookupDown redisConfig
          (some { Status := "firing", GroupKey := "", Alerts := [diskFull] })
          freshWorld).1.trace = [(threadKey redisConfig diskFull.Labels, "")]
      ∧ (alertHandler laterLookupDown redisConfig
          (some { Status := "firing", GroupKey := "", Alerts := [diskFull] })
          (alertHandler laterLookupDown redisConfig
            (some { Status := "firing", GroupKey := "", Alerts := [diskFull] })
            freshWorld).1).2
          = .ok { OK := true, Count := 1, Status := "firing",
                  Results := [errorResult (threadKey redisConfig diskFull.Labels)
                    "Redis 조회 실패: i/o timeout"], Error := "" }
      ∧ dispatches (serve laterLookupDown redisConfig
          [some { Status := "firing", GroupKey := "", Alerts := [diskFull] },
           some { Status := "firing", GroupKey := "", Alerts := [diskFull] }]
          freshWorld).trace = [""] := by
  refine ⟨by decide, by decide, by decide, by decide⟩

/-- C25, amended: on an allocated cache and with remote lookups that answer,
on a first sighting (the lookup returns absent) whose dispatch
succeeds with the empty thread id, `alertHandler` makes the store-set call
`(key, "")` and answers with one success result (empty thread id, no error);
afterwards the cache gives the empty string for the key and, the remote lookup
answering, `storeGetTs` returns absent without error; the next request with
the same alert is answered with one result and makes exactly one dispatch
call, again with the empty thread identifier. -/
theorem C25_empty_thread_id (env : Env) (cfg : Config) (alert : Alert) (s1 s2 g1 g2 : String)
    (w : World)
    (halloc : w.threadCache.allocated = true)
    (habsent : (storeGetTs env cfg (threadKey cfg alert.Labels) w).2 = some ("", none))
    (hempty : (env.http (storeGetTs env cfg (threadKey cfg alert.Labels) w).1.clock).succeedsWith "")
    (hget : ∀ n, env.redisGet n = none) :
    ∃ w1 w2 r2,
      alertHandler env cfg (some { Status := s1, GroupKey := g1, Alerts := [alert] }) w
        = (w1, .ok { OK := true, Count := 1, Status := s1,
                     Results := [successResult cfg s1 alert ""], Error := "" })
      ∧ (successResult cfg s1 alert "").ThreadTS = ""
      ∧ (successResult cfg s1 alert "").Error = ""
      ∧ dispatches (eventsSince w.trace w1.trace) = [""]
      ∧ storeSets (eventsSince w.trace w1.trace) = [(threadKey cfg alert.Labels, "")]
      ∧ w1.threadCache.index (threadKey cfg alert.Labels) = ""
      ∧ (storeGetTs env cfg (threadKey cfg alert.Labels) w1).2 = some ("", none)
      ∧ alertHandler env cfg (some { Status := s2, GroupKey := g2, Alerts := [alert] }) w1
        = (w2, .ok { OK := true, Count := 1, Status := s2, Results := [r2], Error := "" })
      ∧ dispatches (eventsSince w1.trace w2.trace) = [""]
      ∧ dispatches (eventsSince w.trace w2.trace) = ["", ""] := by
  obtain ⟨entries, hc, _⟩ := assign_of_allocated w.threadCache "" "" halloc
  obtain ⟨w1, evs, heq1, hc1, hr1, ht1, hd1, hs1, _⟩ :=
    handleAlert_first_sighting env cfg s1 alert w entries "" hc habsent hempty
  have hidx : w1.threadCache.index (threadKey cfg alert.Labels) = "" := by
    rw [hc1, index_putEntry]
    simp
  have hal1 : w1.threadCache.allocated = true := by
    rw [hc1]
    rfl
  have hmiss : (storeGetTs env cfg (threadKey cfg alert.Labels) w1).2 = some ("", none) := by
    by_cases h2 : cfg.threadStore = "redis" ∧ cfg.redisClient = true
    · have hl : w1.remote.lookup (cfg.redisKeyPrefix ++ ":" ++ threadKey cfg alert.Labels) = none
          ∨ w1.remote.lookup (cfg.redisKeyPrefix ++ ":" ++ threadKey cfg alert.Labels)
            = some "" := by
        rcases hr1 with hr | ⟨_, hr⟩
        · rw [hr]
          exact storeGetTs_absent_remote env cfg _ w habsent h2
        · rw [hr, lookup_putEntry]
          simp
      rcases hl with hl | hl
      · simp [storeGetTs, hidx, h2, hget, hl]
      · simp [storeGetTs, hidx, h2, hget, hl]
    · simp [storeGetTs, hidx, h2]
  obtain ⟨w2, r2, evs2, heq2, ht2, hd2⟩ :=
    handleAlert_dispatches env cfg s2 alert w1 "" hal1 hmiss
  have hA1 : alertHandler env cfg (some { Status := s1, GroupKey := g1, Alerts := [alert] }) w
      = (w1, .ok { OK := true, Count := 1, Status := s1,
                   Results := [successResult cfg s1 alert ""], Error := "" }) := by
    simp [alertHandler, handleAlerts, heq1]
  have hA2 : alertHandler env cfg (some { Status := s2, GroupKey := g2, Alerts := [alert] }) w1
      = (w2, .ok { OK := true, Count := 1, Status := s2, Results := [r2], Error := "" }) := by
    simp [alertHandler, handleAlerts, heq2]
  refine ⟨w1, w2, r2, hA1, rfl, rfl, ?_, ?_, hidx, hmiss, hA2, ?_, ?_⟩
  · rw [ht1, eventsSince_append, hd1]
  · rw [ht1, eventsSince_append, hs1]
  · rw [ht2, eventsSince_append, hd2]
  · rw [ht2, ht1, List.append_assoc, eventsSince_append, dispatches_append, hd1, hd2]
    rfl

/-- C25 (amended) at `diskFull`, firing twice, on a fresh process with the redis backend
and a chat service that answers without thread id. -/
theorem C25_empty_thread_id_witness :
    ∃ w1 w2 r2,
      alertHandler blankIds redisConfig
          (some { Status := "firing", GroupKey := "", Alerts := [diskFull] }) freshWorld
        = (w1, .ok { OK := true, Count := 1, Status := "firing",
                     Results := [successResult redisConfig "firing" diskFull ""], Error := "" })
      ∧ (successResult redisConfig "firing" diskFull "").ThreadTS = ""
      ∧ (successResult redisConfig "firing" diskFull "").Error = ""
      ∧ dispatches (eventsSince freshWorld.trace w1.trace) = [""]
      ∧ storeSets (eventsSince freshWorld.trace w1.trace)
          = [(threadKey redisConfig diskFull.Labels, "")]
      ∧ w1.threadCache.index (threadKey redisConfig diskFull.Labels) = ""
      ∧ (storeGetTs blankIds redisConfig (threadKey redisConfig diskFull.Labels) w1).2
          = some ("", none)
      ∧ alertHandler blankIds redisConfig
          (some { Status := "firing", GroupKey := "", Alerts := [diskFull] }) w1
        = (w2, .ok { OK := true, Count := 1, Status := "firing", Results := [r2], Error := "" })
      ∧ dispatches (eventsSince w1.trace w2.trace) = [""]
      ∧ dispatches (eventsSince freshWorld.trace w2.trace) = ["", ""] :=
  C25_empty_thread_id blankIds redisConfig diskFull "firing" "firing" "" "" freshWorld rfl
    (by decide) ⟨200, "", "", by decide⟩ (fun _ => rfl)

/-! ### The cache after a load -/

/-- A load that reads a JSON object leaves an allocated cache, whether the
object decodes without error or not. -/
theorem loadCacheFile_object (env : Env) (cfg : Config) (w : World)
    (members : List (String × JsonValue))
    (hr : env.readFile w.clock = none) (hs : w.storeFile = some (.jsonObject members)) :
    (loadCacheFile env cfg w).1.threadCache.allocated = true
      ∨ ((loadCacheFile env cfg w).2 = .skipped
          ∧ (loadCacheFile env cfg w).1.threadCache = w.threadCache) := by
  unfold loadCacheFile
  split_ifs with hf
  · exact Or.inr ⟨rfl, rfl⟩
  · left
    simp only [hr, hs, unmarshalMap]
    split_ifs <;> rfl

/-- C24, the code at the failing input: a fresh process with the file backend
whose snapshot file holds the JSON literal `null`. The load reports success
(0 threads loaded) and leaves the nil map in place of the cache; a lookup
still answers, reading a nil map being allowed, but the next `storeSetTs`
panics on the assignment, and the alert handler does not answer the first
alert it is sent. -/
theorem C24_null_snapshot :
    nullSnapshot.threadCache.allocated = true
      ∧ (loadCacheFile calmEnv fileConfig nullSnapshot).2 = .loaded 0
      ∧ (loadCacheFile calmEnv fileConfig nullSnapshot).1.threadCache = .nilMap
      ∧ (storeGetTs calmEnv fileConfig "k"
          (loadCacheFile calmEnv fileConfig nullSnapshot).1).2 = some ("", none)
      ∧ (storeSetTs calmEnv fileConfig "k" "1700000000.000100"
          (loadCacheFile calmEnv fileConfig nullSnapshot).1).2 = none
      ∧ (alertHandler calmEnv fileConfig
          (some { Status := "firing", GroupKey := "", Alerts := [diskFull] })
          (loadCacheFile calmEnv fileConfig nullSnapshot).1).2 = .panicked := by
  refine ⟨by decide, by decide, by decide, by decide, by decide, by decide⟩

/-! ### The lock discipline -/

/-- C22, the code against the discipline: the cache accesses of `storeGetTs`,
of `storeSetTs` with the redis backend, and of the health, cache and clear
handlers all happen under the lock they need; those of `saveCacheFile` with
the file backend, hence of `storeSetTs` with the file backend, and the one of
`statsHandler` happen with no lock held. -/
theorem C22_unlocked_accesses :
    (∀ cached remoteFound, guarded .nothing (storeGetTsOps cached remoteFound) = true)
      ∧ (∀ written, guarded .nothing (storeSetTsOps redisConfig written) = true)
      ∧ guarded .nothing healthHandlerOps = true
      ∧ guarded .nothing cacheHandlerOps = true
      ∧ guarded .nothing clearCacheHandlerOps = true
      ∧ (∀ written, guarded .nothing (saveCacheFileOps fileConfig written) = false)
      ∧ (∀ written, guarded .nothing (storeSetTsOps fileConfig written) = false)
      ∧ guarded .nothing statsHandlerOps = false := by
  refine ⟨by decide, by decide, by decide, by decide, by decide, by decide, by decide,
    by decide⟩

end GoAdvanced

end AlertThreader
